import Mathlib

/-!
# Dallas 1-Wire temperature sensor driver (`dallas.cpp`)

Shallow embedding of the bus-master driver: the CRC-8 checksum, the byte
transport, the resumable ROM search `Dallas::ScanNet` and the polling state
machine `Dallas::Execute`.

Conventions of the embedding.

* `uint8_t`, `char` and `uint_fast8_t` values are natural numbers below 256;
  every store into a `uint8_t` or `char` is followed by `% 256` where the
  stored value could exceed the range.  `char` is taken to be unsigned: it is
  the only reading under which the index `result ^ *buffer++` of
  `DallasCrc8Table` is in range for bytes above 0x7F.
* `int16_t` values are integers; a store into an `int16_t` goes through
  `toInt16`, and `>>=` on it is the arithmetic shift.
* Arrays are lists read with `getD` and written with `set`.
* The hardware line, the delay, the critical section and the two timers are the
  environment: records of functions over an environment state `σ` that is
  threaded through the code.  The byte transport, `ScanNet` and `Execute` are
  written over any bus with the three operations `touchReset`, `readBit` and
  `writeBit`; `hwBus` is the bus that `TouchReset`, `ReadBit` and `WriteBit`
  make of a hardware line, and the ideal simulated bus is another one.
* `1 << fork` and `1 << bitNum` are the mathematical shifts; what is stored
  into a byte is reduced mod 256.
* The source calls the checksum `GetCRC` in `Execute` and `ScanNet`, while the
  class declares and defines only `CalcCRC`; see `GetCRC`.  The `FirstScan`
  branch of `ScanNet` increments an undeclared `tmpSensorNum`; the embedding
  keeps the assignment `FirstScan = false` and drops that statement.
* Loops whose trip count is not syntactically bounded take a fuel argument;
  the fuel used by `ScanNet` is shown to be enough.
-/

namespace OneWire

/-! ## Constants -/

/-- CRC8 table (`DallasCrc8Table`). -/
def DallasCrc8Table : List Nat :=
  [0, 94, 188, 226, 97, 63, 221, 131, 194, 156, 126, 32, 163, 253, 31, 65,
   157, 195, 33, 127, 252, 162, 64, 30, 95, 1, 227, 189, 62, 96, 130, 220,
   35, 125, 159, 193, 66, 28, 254, 160, 225, 191, 93, 3, 128, 222, 60, 98,
   190, 224, 2, 92, 223, 129, 99, 61, 124, 34, 192, 158, 29, 67, 161, 255,
   70, 24, 250, 164, 39, 121, 155, 197, 132, 218, 56, 102, 229, 187, 89, 7,
   219, 133, 103, 57, 186, 228, 6, 88, 25, 71, 165, 251, 120, 38, 196, 154,
   101, 59, 217, 135, 4, 90, 184, 230, 167, 249, 27, 69, 198, 152, 122, 36,
   248, 166, 68, 26, 153, 199, 37, 123, 58, 100, 134, 216, 91, 5, 231, 185,
   140, 210, 48, 110, 237, 179, 81, 15, 78, 16, 242, 172, 47, 113, 147, 205,
   17, 79, 173, 243, 112, 46, 204, 146, 211, 141, 111, 49, 178, 236, 14, 80,
   175, 241, 19, 77, 206, 144, 114, 44, 109, 51, 209, 143, 12, 82, 176, 238,
   50, 108, 142, 208, 83, 13, 239, 177, 240, 174, 76, 18, 145, 207, 45, 115,
   202, 148, 118, 40, 171, 245, 23, 73, 8, 86, 180, 234, 105, 55, 213, 139,
   87, 9, 235, 181, 54, 104, 138, 212, 149, 203, 41, 119, 244, 170, 72, 22,
   233, 183, 85, 11, 136, 214, 52, 106, 43, 117, 151, 201, 74, 20, 246, 168,
   116, 42, 200, 150, 21, 75, 169, 247, 182, 232, 10, 84, 215, 137, 107, 53]

/-- Maximum sensor count. -/
def MAX_SENSOR_COUNT : Nat := 8
/-- Family code of the configurable family. -/
def DS18B20_FAMILY_CODE : Nat := 0x28
/-- Family code of the legacy family. -/
def DS1820_FAMILY_CODE : Nat := 0x10
/-- Conversion timeout of the legacy family. -/
def DS1820_CONVERT_TIMEOUT : Nat := 750
/-- Temperature conversion timeout for 9-bit resolution. -/
def DS18B20_CONVERT_TIMEOUT_9BIT : Nat := 100
/-- Configuration register value for 9-bit resolution. -/
def DS18B20_RES_9BIT : Nat := 0x1F
/-- Search ROM command. -/
def CMD_SEARCH_ROM : Nat := 0xF0
/-- Match ROM command. -/
def CMD_MATCH_ROM : Nat := 0x55
/-- Convert temperature command. -/
def CMD_CONVERT_TMP : Nat := 0x44
/-- Read memory command. -/
def CMD_READ_MEM : Nat := 0xBE
/-- Write scratchpad command. -/
def CMD_WRITE_SCRATCHPAD : Nat := 0x4E
/-- Dallas network scan timeout. -/
def SCAN_NET_TIMEOUT : Nat := 1000

/-! ## Environment -/

/-- The bus as seen through the three transport primitives of the driver:
`TouchReset()` (reset and presence probe), `ReadBit()` and `WriteBit(bit)`.
The environment state `σ` stands for the line, the attached devices and the
clock. -/
structure Bus (σ : Type) where
  /-- Reset pulse followed by the presence probe; true when a device answers. -/
  touchReset : σ → Bool × σ
  /-- One read slot. -/
  readBit : σ → Bool × σ
  /-- One write slot. -/
  writeBit : Bool → σ → σ

/-- The bus together with the two interval timers of the driver
(`ScanNetTimer`, `ConvertTimer`) and the `Target->SetOneWireData` hook. -/
structure World (σ : Type) extends Bus σ where
  /-- The call `ScanNetTimer.Elapsed()`. -/
  scanNetTimerElapsed : σ → Bool × σ
  /-- The call `ScanNetTimer.Start(t)`. -/
  scanNetTimerStart : Nat → σ → σ
  /-- The call `ConvertTimer.Elapsed()`. -/
  convertTimerElapsed : σ → Bool × σ
  /-- The call `ConvertTimer.Start(t)`. -/
  convertTimerStart : Nat → σ → σ
  /-- The call `Target->SetOneWireData(flag)`. -/
  setOneWireData : Bool → σ → σ

/-! ## Bit transport over the hardware line -/

/-- Dallas 1-wire timeouts, us (`enum DallasTimeouts`): pull low when writing a 1
and before sampling a read slot. -/
def DallasTimeouts.A : Nat := 6
/-- Release hold after writing a 1. -/
def DallasTimeouts.B : Nat := 64
/-- Pull low when writing a 0. -/
def DallasTimeouts.C : Nat := 60
/-- Release hold after writing a 0. -/
def DallasTimeouts.D : Nat := 10
/-- Time before sampling a read slot. -/
def DallasTimeouts.E : Nat := 9
/-- Remainder of the read slot. -/
def DallasTimeouts.F : Nat := 55
/-- Delay before the reset pulse. -/
def DallasTimeouts.G : Nat := 0
/-- Reset pulse. -/
def DallasTimeouts.H : Nat := 780
/-- Time before sampling presence. -/
def DallasTimeouts.I : Nat := 70
/-- Remainder of the presence slot. -/
def DallasTimeouts.J : Nat := 410

/-- The hardware collaborators of the transport: the line (`Hw->Set1WBusState`,
`Hw->Get1WBusState`), the delay (`Timer::DelayUs`) and the critical section
(`Core::EnterCritical`, `Core::ExitCritical`), as functions on the environment
state. -/
structure Hw (σ : Type) where
  /-- Drive (`false`) or release (`true`) the line. -/
  Set1WBusState : Bool → σ → σ
  /-- Level of the line. -/
  Get1WBusState : σ → Bool × σ
  /-- Busy wait, in microseconds. -/
  DelayUs : Nat → σ → σ
  /-- Suspend preemption. -/
  EnterCritical : σ → σ
  /-- Resume preemption. -/
  ExitCritical : σ → σ

/-- Touch and reset bus (`Dallas::TouchReset`); true if at least one device is
present on the bus. -/
def TouchReset {σ : Type} (hw : Hw σ) (b : σ) : Bool × σ :=
  let b1 := hw.DelayUs DallasTimeouts.G b
  let b2 := hw.Set1WBusState false b1
  let b3 := hw.DelayUs DallasTimeouts.H b2
  let b4 := hw.EnterCritical b3
  let b5 := hw.Set1WBusState true b4
  let b6 := hw.DelayUs DallasTimeouts.I b5
  let r := hw.Get1WBusState b6
  let present := !r.1
  let b7 := hw.ExitCritical r.2
  let b8 := hw.DelayUs DallasTimeouts.J b7
  (present, b8)

/-- Writing a bit on the bus (`Dallas::WriteBit`). -/
def WriteBit {σ : Type} (hw : Hw σ) (bit : Bool) (b : σ) : σ :=
  let b1 := hw.EnterCritical b
  let b2 :=
    if bit then
      hw.DelayUs DallasTimeouts.B
        (hw.Set1WBusState true (hw.DelayUs DallasTimeouts.A (hw.Set1WBusState false b1)))
    else
      hw.DelayUs DallasTimeouts.D
        (hw.Set1WBusState true (hw.DelayUs DallasTimeouts.C (hw.Set1WBusState false b1)))
  hw.ExitCritical b2

/-- Reading a bit from the bus (`Dallas::ReadBit`). -/
def ReadBit {σ : Type} (hw : Hw σ) (b : σ) : Bool × σ :=
  let b1 := hw.EnterCritical b
  let b2 := hw.Set1WBusState false b1
  let b3 := hw.DelayUs DallasTimeouts.A b2
  let b4 := hw.Set1WBusState true b3
  let b5 := hw.DelayUs DallasTimeouts.E b4
  let r := hw.Get1WBusState b5
  let b6 := hw.ExitCritical r.2
  let b7 := hw.DelayUs DallasTimeouts.F b6
  (r.1, b7)

/-- The bus that the three transport primitives make of a hardware line. -/
def hwBus {σ : Type} (hw : Hw σ) : Bus σ where
  touchReset := TouchReset hw
  readBit := ReadBit hw
  writeBit := WriteBit hw

/-! ## Byte transport -/

/-- Loop of `Dallas::WriteByte`: `for(bit = 8; bit; bit--)`. -/
def WriteByteLoop {σ : Type} (bus : Bus σ) : Nat → Nat → σ → σ
  | 0, _, b => b
  | bit + 1, byte, b =>
    WriteByteLoop bus bit (byte >>> 1) (bus.writeBit (byte &&& 0x01 != 0) b)

/-- Writing a byte on the bus (`Dallas::WriteByte`). -/
def WriteByte {σ : Type} (bus : Bus σ) (byte : Nat) (b : σ) : σ :=
  WriteByteLoop bus 8 byte b

/-- Loop of `Dallas::ReadByte`: `for(bit = 8; bit; bit--)`. -/
def ReadByteLoop {σ : Type} (bus : Bus σ) : Nat → Nat → σ → Nat × σ
  | 0, data, b => (data, b)
  | bit + 1, data, b =>
    let data := data >>> 1
    let r := bus.readBit b
    ReadByteLoop bus bit (if r.1 then data ||| 0x80 else data) r.2

/-- Reading a byte from the bus (`Dallas::ReadByte`). -/
def ReadByte {σ : Type} (bus : Bus σ) (b : σ) : Nat × σ :=
  ReadByteLoop bus 8 0 b

/-- Writes the bytes of a buffer in order: the loops
`for(index = 0; index < 8; index++) WriteByte(buffer[index])`. -/
def WriteBytes {σ : Type} (bus : Bus σ) : List Nat → σ → σ
  | [], b => b
  | byte :: rest, b => WriteBytes bus rest (WriteByte bus byte b)

/-- Reads `n` bytes in order: the loop
`for(index = 0; index < 9; index++) scratchpad[index] = ReadByte()`. -/
def ReadBytes {σ : Type} (bus : Bus σ) : Nat → σ → List Nat × σ
  | 0, b => ([], b)
  | n + 1, b =>
    let r := ReadByte bus b
    let rest := ReadBytes bus n r.2
    (r.1 :: rest.1, rest.2)

/-! ## Checksum -/

/-- CRC8 calculation (`Dallas::CalcCRC`): `result = DallasCrc8Table[result ^ *buffer++]`
over the first `size` bytes of the buffer, seeded with 0. -/
def CalcCRC (buffer : List Nat) (size : Nat) : Nat :=
  (buffer.take size).foldl (fun result byte => DallasCrc8Table.getD (result ^^^ byte) 0) 0

/-- Modelled from the spec: `GetCRC`, which `Execute` and `ScanNet` call, is not
declared anywhere in the sources; the spec has one checksum, used both for the
last byte of an address and for the ninth byte of a scratchpad, so `GetCRC` is
`CalcCRC`. -/
def GetCRC (buffer : List Nat) (size : Nat) : Nat :=
  CalcCRC buffer size

/-- One shift/XOR step of the bitwise CRC-8 with reflected polynomial 0x8C,
least-significant bit first. -/
def crc8BitStep (crc : Nat) : Nat :=
  if crc &&& 1 = 1 then (crc >>> 1) ^^^ 0x8C else crc >>> 1

/-- Reference CRC-8 of one byte: XOR the byte in, then eight shift/XOR steps. -/
def crc8RefByte (crc byte : Nat) : Nat :=
  crc8BitStep^[8] (crc ^^^ byte)

/-- Reference Dallas/Maxim CRC-8 as the spec words it: polynomial
x^8+x^5+x^4+1, initial value 0, no final XOR, bits processed least-significant
first. -/
def crc8Ref (bytes : List Nat) : Nat :=
  bytes.foldl crc8RefByte 0

/-! ## Driver state -/

/-- Cooperation multitasking steps (`Step_t`). -/
inductive Step_t where
  | SCAN_NET
  | CONVERT_TMP
  | READ_TMP
  deriving DecidableEq

/-- The fields of `class Dallas`. -/
structure Dallas where
  /-- Cooperation multitasking step. -/
  Step : Step_t
  /-- First measure flag. -/
  FirstScan : Bool
  /-- Necessity of repeated sensors tuning. -/
  ForceRenew : Bool
  /-- The current scanning route (`uint8_t`). -/
  Route : Nat
  /-- Visited routes mask (`uint8_t[16]`). -/
  RouteMask : List Nat
  /-- Count of devices in the network (`uint8_t`). -/
  DallasChartSize : Nat
  /-- Devices addresses chart (8 buffers of 8 bytes). -/
  DallasChart : List (List Nat)
  /-- Count of devices in the network, for watching changes. -/
  LastDallasChartSize : Nat
  /-- Devices addresses chart, for watching changes. -/
  LastDallasChart : List (List Nat)
  /-- Temperature sensors count (`uint8_t`). -/
  TmpSensorCount : Nat
  /-- Temperature sensor number (`uint8_t`). -/
  TmpSensorIndex : Nat
  deriving DecidableEq

/-- The all-zero 8-byte buffer (`memset(p, 0, 8)`, `zeros[]`). -/
def zeros8 : List Nat := List.replicate 8 0

/-- Constructor `Dallas::Dallas()`.  `RouteMask` and `TmpSensorCount` are not
initialised by the constructor; their starting values are parameters. -/
def Dallas.new (routeMask0 : List Nat) (tmpSensorCount0 : Nat) : Dallas where
  Step := Step_t.SCAN_NET
  FirstScan := true
  ForceRenew := false
  Route := 0
  RouteMask := routeMask0
  DallasChartSize := 0
  DallasChart := List.replicate MAX_SENSOR_COUNT zeros8
  LastDallasChartSize := 0
  LastDallasChart := List.replicate MAX_SENSOR_COUNT zeros8
  TmpSensorCount := tmpSensorCount0
  TmpSensorIndex := 0

/-- The effect of the constructor on the line: `Hw->Set1WBusState(1)`. -/
def Dallas.newLine {σ : Type} (hw : Hw σ) (b : σ) : σ :=
  hw.Set1WBusState true b

/-- Read of `chart[i][j]`. -/
def getChartByte (chart : List (List Nat)) (i j : Nat) : Nat :=
  (chart.getD i []).getD j 0

/-- Write of `chart[i][j] = v`. -/
def setChartByte (chart : List (List Nat)) (i j v : Nat) : List (List Nat) :=
  chart.set i ((chart.getD i []).set j v)

/-- The comparison `memcmp(a, b, 8) == 0`. -/
def memEq8 (a b : List Nat) : Bool :=
  a.take 8 == b.take 8

/-- The copy `memcpy(dst, src, 8)`. -/
def memcpy8 (dst src : List Nat) : List Nat :=
  src.take 8 ++ dst.drop 8

/-- The test `(family == DS1820_FAMILY_CODE) || (family == DS18B20_FAMILY_CODE)`. -/
def isTmpFamily (family : Nat) : Bool :=
  family == DS1820_FAMILY_CODE || family == DS18B20_FAMILY_CODE

/-! ## Network scanning -/

/-- Body of the bit loop of the search cycle of `Dallas::ScanNet`: two reads,
then the three-way branch (`0 -> 1 = 0`, `1 -> 0 = 1`, fork).  The state is the
driver, the local `fork` and the environment. -/
def searchBit {σ : Type} (bus : Bus σ) (byteNum bitNum : Nat)
    (st : Dallas × Nat × σ) : Dallas × Nat × σ :=
  let s := st.1
  let fork := st.2.1
  let r0 := bus.readBit st.2.2
  let r1 := bus.readBit r0.2
  let value0 := r0.1
  let value1 := r1.1
  let b := r1.2
  let cur := getChartByte s.DallasChart s.DallasChartSize byteNum
  let cleared := (cur &&& (0xFF ^^^ (1 <<< bitNum))) % 256
  let raised := (cur ||| (1 <<< bitNum)) % 256
  if value0 = false ∧ value1 = true then
    ({ s with DallasChart := setChartByte s.DallasChart s.DallasChartSize byteNum cleared },
      fork, bus.writeBit false b)
  else if value0 = true ∧ value1 = false then
    ({ s with DallasChart := setChartByte s.DallasChart s.DallasChartSize byteNum raised },
      fork, bus.writeBit true b)
  else
    let mask := s.RouteMask.set s.Route ((s.RouteMask.getD s.Route 0 ||| (1 <<< fork)) % 256)
    if s.Route &&& (1 <<< fork) ≠ 0 then
      ({ s with RouteMask := mask,
                DallasChart := setChartByte s.DallasChart s.DallasChartSize byteNum raised },
        (fork + 1) % 256, bus.writeBit true b)
    else
      ({ s with RouteMask := mask,
                DallasChart := setChartByte s.DallasChart s.DallasChartSize byteNum cleared },
        (fork + 1) % 256, bus.writeBit false b)

/-- The loop `for(bitNum = 0; bitNum < 8; bitNum++)` of the search cycle. -/
def searchByte {σ : Type} (bus : Bus σ) (byteNum : Nat)
    (st : Dallas × Nat × σ) : Dallas × Nat × σ :=
  (List.range 8).foldl (fun st bitNum => searchBit bus byteNum bitNum st) st

/-- The loop `for(byteNum = 0; byteNum < 8; byteNum++)` of the search cycle:
one discovery pass over the 64 address bits. -/
def searchPass {σ : Type} (bus : Bus σ) (st : Dallas × Nat × σ) : Dallas × Nat × σ :=
  (List.range 8).foldl (fun st byteNum => searchByte bus byteNum st) st

/-- The loop `while(Route < 16)` that checks the route for doubling; it returns
the new `Route`.  The arguments after the fuel are `Route` and `route`. -/
def routeAdvance (RouteMask : List Nat) (limit : Nat) : Nat → Nat → Nat → Nat
  | 0, Route, _ => Route
  | fuel + 1, Route, route =>
    if Route < 16 then
      if route > limit then Route
      else if Route &&& RouteMask.getD route 0 = route &&& RouteMask.getD route 0 then
        routeAdvance RouteMask limit fuel ((Route + 1) % 256) 0
      else
        routeAdvance RouteMask limit fuel Route ((route + 1) % 256)
    else Route

/-- Fuel given to the route check: `Route` takes at most 16 values and for
each of them `route` runs over at most 17 values. -/
def routeFuel : Nat := 16 * 17 + 1

/-- One discovery pass with the bookkeeping around it: clear the new chart
entry, send the search command, walk the 64 bits, count the device and advance
the route. -/
def discover {σ : Type} (bus : Bus σ) (advFuel : Nat) (s : Dallas) (b : σ) :
    Dallas × Nat × σ :=
  let s1 := { s with DallasChart := s.DallasChart.set s.DallasChartSize zeros8 }
  let b1 := WriteByte bus CMD_SEARCH_ROM b
  let r := searchPass bus (s1, 0, b1)
  let s2 := { r.1 with DallasChartSize := (r.1.DallasChartSize + 1) % 256 }
  let limit := s2.Route
  let s3 := { s2 with
    Route := routeAdvance s2.RouteMask limit advFuel ((s2.Route + 1) % 256) 0 }
  (s3, r.2.1, r.2.2)

/-- The search cycle `while((DallasChartSize - dallasChartSize < 4) && (Route < 16)
&& (DallasChartSize < MAX_SENSOR_COUNT) && (fork > 0))`, with the `break` on a
failed presence probe. -/
def searchCycle {σ : Type} (bus : Bus σ) (advFuel dallasChartSize : Nat) :
    Nat → Dallas → Nat → σ → Dallas × Nat × σ
  | 0, s, fork, b => (s, fork, b)
  | fuel + 1, s, fork, b =>
    if s.DallasChartSize - dallasChartSize < 4 ∧ s.Route < 16 ∧
        s.DallasChartSize < MAX_SENSOR_COUNT ∧ fork > 0 then
      let p := bus.touchReset b
      if p.1 then
        let r := discover bus advFuel s p.2
        searchCycle bus advFuel dallasChartSize fuel r.1 r.2.1 r.2.2
      else (s, fork, p.2)
    else (s, fork, b)

/-- The loop that checks the CRC of all devices: an entry whose CRC is wrong is
zeroed, and an all-zero entry makes `ScanNet` return false.  The result is
false in that case; the chart is returned as the loop leaves it.  The first
argument counts the entries still to check. -/
def checkCrcLoop : Nat → Nat → List (List Nat) → Bool × List (List Nat)
  | 0, _, chart => (true, chart)
  | n + 1, dallasNum, chart =>
    let chart1 :=
      if getChartByte chart dallasNum 7 ≠ GetCRC (chart.getD dallasNum []) 7 then
        chart.set dallasNum zeros8
      else chart
    if memEq8 (chart1.getD dallasNum []) zeros8 then (false, chart1)
    else checkCrcLoop n (dallasNum + 1) chart1

/-- The loop that looks for a changed entry once the sizes agree. -/
def chartDiffers (size : Nat) (chart last : List (List Nat)) : Bool :=
  (List.range size).any (fun dallasNum =>
    !memEq8 (chart.getD dallasNum []) (last.getD dallasNum []))

/-- The loop that memorises the new chart. -/
def memorizeChart (size : Nat) (chart last : List (List Nat)) : List (List Nat) :=
  (List.range size).foldl (fun last dallasNum =>
    last.set dallasNum (memcpy8 (last.getD dallasNum []) (chart.getD dallasNum []))) last

/-- Body of the loop that finds all temperature sensors and tunes resolutions.
The state is `TmpSensorCount` and the environment. -/
def tuneStep {σ : Type} (bus : Bus σ) (chart : List (List Nat))
    (st : Nat × σ) (dallasNum : Nat) : Nat × σ :=
  let entry := chart.getD dallasNum []
  if isTmpFamily (entry.getD 0 0) then
    let count := (st.1 + 1) % 256
    if entry.getD 0 0 = DS18B20_FAMILY_CODE then
      let p := bus.touchReset st.2
      if p.1 then
        let b1 := WriteByte bus CMD_MATCH_ROM p.2
        let b2 := WriteBytes bus (entry.take 8) b1
        let b3 := WriteByte bus CMD_WRITE_SCRATCHPAD b2
        let b4 := WriteByte bus 0x00 b3
        let b5 := WriteByte bus 0x00 b4
        (count, WriteByte bus DS18B20_RES_9BIT b5)
      else (count, p.2)
    else (count, st.2)
  else st

/-- The renewal loop over the chart. -/
def tuneLoop {σ : Type} (bus : Bus σ) (size : Nat) (chart : List (List Nat)) (b : σ) :
    Nat × σ :=
  (List.range size).foldl (tuneStep bus chart) (0, b)

/-- The first part of `Dallas::ScanNet`: the reset of a fresh scan (`Route == 0`)
and the search cycle.  Returns the driver, the local `fork` and the environment
as the search cycle leaves them. -/
def scanSearch {σ : Type} (bus : Bus σ) (cycleFuel advFuel : Nat) (s : Dallas) (b : σ) :
    Dallas × Nat × σ :=
  let s1 :=
    if s.Route = 0 then { s with RouteMask := List.replicate 16 0, DallasChartSize := 0 }
    else s
  let dallasChartSize := s1.DallasChartSize
  searchCycle bus advFuel dallasChartSize cycleFuel s1 0xFF b

/-- The exit condition checked after the search cycle: when it holds `ScanNet`
returns false and the scan goes on at the next call. -/
def scanUnfinished (s : Dallas) (fork : Nat) : Bool :=
  decide (s.Route < 16 ∧ s.DallasChartSize < MAX_SENSOR_COUNT ∧ fork > 0 ∧ fork ≠ 0xFF)

/-- The test the CRC loop applies to a chart entry: the eighth byte is the CRC
of the first seven and the entry is not all-zero. -/
def addressValid (a : List Nat) : Bool :=
  decide (a.getD 7 0 = GetCRC a 7) && !memEq8 a zeros8

/-- Dallas network scanning (`Dallas::ScanNet`), with the fuel of the two
while loops as parameters.  Returns true if the entire network is scanned. -/
def ScanNetFuel {σ : Type} (bus : Bus σ) (cycleFuel advFuel : Nat) (s : Dallas) (b : σ) :
    Bool × Dallas × σ :=
  let r := scanSearch bus cycleFuel advFuel s b
  let s2 := r.1
  let fork := r.2.1
  let b2 := r.2.2
  if scanUnfinished s2 fork then
    (false, s2, b2)
  else
    let c := checkCrcLoop s2.DallasChartSize 0 s2.DallasChart
    let s3 := { s2 with Route := 0, DallasChart := c.2 }
    if c.1 = false then (false, s3, b2)
    else
      let renew :=
        s3.DallasChartSize != s3.LastDallasChartSize ||
          chartDiffers s3.DallasChartSize s3.DallasChart s3.LastDallasChart
      let s4 := { s3 with
        LastDallasChartSize := s3.DallasChartSize,
        LastDallasChart := memorizeChart s3.DallasChartSize s3.DallasChart s3.LastDallasChart }
      if renew || s4.ForceRenew then
        let t := tuneLoop bus s4.DallasChartSize s4.DallasChart b2
        (true, { s4 with ForceRenew := false, TmpSensorCount := t.1, FirstScan := false }, t.2)
      else (true, s4, b2)

/-- Dallas network scanning (`Dallas::ScanNet`).  The search cycle runs at most
4 times in a call and the route check at most `routeFuel` times. -/
def ScanNet {σ : Type} (bus : Bus σ) (s : Dallas) (b : σ) : Bool × Dallas × σ :=
  ScanNetFuel bus 4 routeFuel s b

/-! ## Polling state machine -/

/-- Store of an `int` into an `int16_t`. -/
def toInt16 (n : Int) : Int :=
  (n + 32768) % 65536 - 32768

/-- The part of the `READ_TMP` step that recognises the type of sensor and
decodes the scratchpad.  The local `temperature` starts at 0x7FFF; it is
returned with the environment. -/
def readTemperature {σ : Type} (bus : Bus σ) (family : Nat) (b : σ) : Int × σ :=
  let temperature : Int := 0x7FFF
  if family = DS1820_FAMILY_CODE then
    let r := ReadBytes bus 9 b
    let scratchpad := r.1
    if GetCRC scratchpad 8 = scratchpad.getD 8 0 then
      let t := toInt16 (((scratchpad.getD 1 0 <<< 8) ||| scratchpad.getD 0 0 : Nat) : Int)
      (toInt16 (t >>> (1 : Nat)), r.2)
    else (temperature, r.2)
  else if family = DS18B20_FAMILY_CODE then
    let r0 := ReadByte bus b
    let r1 := ReadByte bus r0.2
    let t := toInt16 ((r0.1 ||| (r1.1 <<< 8) : Nat) : Int)
    (toInt16 (t >>> (4 : Nat)), r1.2)
  else (temperature, b)

/-- Outcome of the sensor loop of the `READ_TMP` step. -/
structure ReadLoopResult (σ : Type) where
  /-- The loop was left through the `return` of the `temperature >= 85` branch. -/
  rejected : Bool
  /-- The local `found`. -/
  found : Bool
  /-- The local `temperature`, when the target was addressed. -/
  temperature : Option Int
  /-- The environment after the loop. -/
  env : σ

/-- The sensor loop of the `READ_TMP` step.  The arguments after the count of
entries still to visit are `dallasNum`, `dallasIndex` and `found`. -/
def readLoop {σ : Type} (bus : Bus σ) (s : Dallas) :
    Nat → Nat → Nat → Bool → σ → ReadLoopResult σ
  | 0, _, _, found, b => { rejected := false, found := found, temperature := none, env := b }
  | n + 1, dallasNum, dallasIndex, found, b =>
    let entry := s.DallasChart.getD dallasNum []
    if isTmpFamily (entry.getD 0 0) then
      if dallasIndex = s.TmpSensorIndex then
        let p := bus.touchReset b
        if p.1 then
          let b1 := WriteByte bus CMD_MATCH_ROM p.2
          let b2 := WriteBytes bus (entry.take 8) b1
          let b3 := WriteByte bus CMD_READ_MEM b2
          let t := readTemperature bus (entry.getD 0 0) b3
          if t.1 < 85 then
            { rejected := false, found := true, temperature := some t.1, env := t.2 }
          else
            { rejected := true, found := true, temperature := some t.1, env := t.2 }
        else readLoop bus s n ((dallasNum + 1) % 256) ((dallasIndex + 1) % 256) true p.2
      else readLoop bus s n ((dallasNum + 1) % 256) ((dallasIndex + 1) % 256) found b
    else readLoop bus s n ((dallasNum + 1) % 256) dallasIndex found b

/-- Outcome of the sensor loop of the `CONVERT_TMP` step. -/
structure ConvertLoopResult (σ : Type) where
  /-- The local `found`. -/
  found : Bool
  /-- The conversion was started, so `Step = READ_TMP` was executed. -/
  started : Bool
  /-- The environment after the loop. -/
  env : σ

/-- The sensor loop of the `CONVERT_TMP` step. -/
def convertLoop {σ : Type} (w : World σ) (s : Dallas) :
    Nat → Nat → Nat → Bool → σ → ConvertLoopResult σ
  | 0, _, _, found, b => { found := found, started := false, env := b }
  | n + 1, dallasNum, dallasIndex, found, b =>
    let entry := s.DallasChart.getD dallasNum []
    if isTmpFamily (entry.getD 0 0) then
      if dallasIndex = s.TmpSensorIndex then
        let p := w.touchReset b
        if p.1 then
          let b1 := WriteByte w.toBus CMD_MATCH_ROM p.2
          let b2 := WriteBytes w.toBus (entry.take 8) b1
          let b3 := WriteByte w.toBus CMD_CONVERT_TMP b2
          let b4 := w.setOneWireData true b3
          let b5 := w.convertTimerStart
            (if entry.getD 0 0 = DS1820_FAMILY_CODE then DS1820_CONVERT_TIMEOUT
             else DS18B20_CONVERT_TIMEOUT_9BIT) b4
          { found := true, started := true, env := b5 }
        else convertLoop w s n ((dallasNum + 1) % 256) ((dallasIndex + 1) % 256) true p.2
      else convertLoop w s n ((dallasNum + 1) % 256) ((dallasIndex + 1) % 256) found b
    else convertLoop w s n ((dallasNum + 1) % 256) dallasIndex found b

/-- The end of the `READ_TMP` step: `if(++TmpSensorIndex == TmpSensorCount)`. -/
def advanceCursor (s : Dallas) : Dallas :=
  let index := (s.TmpSensorIndex + 1) % 256
  if index = s.TmpSensorCount then
    { s with TmpSensorIndex := 0, Step := Step_t.SCAN_NET }
  else
    { s with TmpSensorIndex := index, Step := Step_t.CONVERT_TMP }

/-- Execution (`Dallas::Execute`): one tick of the polling state machine. -/
def Execute {σ : Type} (w : World σ) (s : Dallas) (b : σ) : Dallas × σ :=
  match s.Step with
  | Step_t.SCAN_NET =>
    let e := w.scanNetTimerElapsed b
    if e.1 then
      let r := ScanNet w.toBus s e.2
      if r.1 then
        ({ r.2.1 with Step := Step_t.CONVERT_TMP }, w.scanNetTimerStart SCAN_NET_TIMEOUT r.2.2)
      else (r.2.1, r.2.2)
    else (s, e.2)
  | Step_t.CONVERT_TMP =>
    if s.DallasChartSize ≠ 0 then
      let p := w.touchReset b
      if p.1 then
        let r := convertLoop w s s.DallasChartSize 0 0 false p.2
        if !r.found then
          ({ s with TmpSensorIndex := 0, Step := Step_t.SCAN_NET }, r.env)
        else if r.started then ({ s with Step := Step_t.READ_TMP }, r.env)
        else (s, r.env)
      else ({ s with Step := Step_t.SCAN_NET }, p.2)
    else ({ s with Step := Step_t.SCAN_NET }, b)
  | Step_t.READ_TMP =>
    if s.DallasChartSize = 0 then ({ s with Step := Step_t.SCAN_NET }, b)
    else
      let e := w.convertTimerElapsed b
      if e.1 then
        let r := readLoop w.toBus s s.DallasChartSize 0 0 false e.2
        if r.rejected then
          ({ s with ForceRenew := true, TmpSensorIndex := 0, Step := Step_t.SCAN_NET }, r.env)
        else if !r.found then
          ({ s with TmpSensorIndex := 0, Step := Step_t.SCAN_NET }, r.env)
        else (advanceCursor s, r.env)
      else (s, e.2)

/-! ## Ideal simulated bus -/

/-- Bit `pos` (0..63) of an address: bit `pos % 8` of byte `pos / 8`. -/
def addrBit (a : List Nat) (pos : Nat) : Bool :=
  (a.getD (pos / 8) 0).testBit (pos % 8)

/-- State of the ideal simulated bus: the attached devices, the command byte
received since the last reset, and, for a discovery pass, the devices still
matching the direction bits written so far, the bit position and the phase
within the read/read/write triple. -/
structure IdealBus where
  /-- Addresses of the attached devices. -/
  devices : List (List Nat)
  /-- Number of command bits received since the reset. -/
  cmdLen : Nat
  /-- Command bits received since the reset, least-significant first. -/
  cmd : Nat
  /-- Devices still taking part in the discovery pass. -/
  active : List (List Nat)
  /-- Address bit the pass is at. -/
  pos : Nat
  /-- 0: the bit is read next; 1: its complement; 2: the direction is written. -/
  phase : Nat
  deriving DecidableEq

/-- Presence probe of the ideal bus: succeeds iff a device is attached. -/
def idealTouchReset (st : IdealBus) : Bool × IdealBus :=
  (!st.devices.isEmpty,
    { devices := st.devices, cmdLen := 0, cmd := 0, active := st.devices, pos := 0, phase := 0 })

/-- Read slot of the ideal bus: in a discovery pass the wired-AND of the
address bit, then of its complement, over the active devices; the idle line
reads 1. -/
def idealReadBit (st : IdealBus) : Bool × IdealBus :=
  if st.cmdLen = 8 ∧ st.cmd = CMD_SEARCH_ROM ∧ st.pos < 64 then
    if st.phase = 0 then
      (st.active.all (fun a => addrBit a st.pos), { st with phase := 1 })
    else if st.phase = 1 then
      (st.active.all (fun a => !addrBit a st.pos), { st with phase := 2 })
    else (true, st)
  else (true, st)

/-- Write slot of the ideal bus: the first eight bits after a reset are the
command; in a discovery pass a direction bit deselects the devices whose
address bit differs. -/
def idealWriteBit (bit : Bool) (st : IdealBus) : IdealBus :=
  if st.cmdLen < 8 then
    { st with cmd := st.cmd + (if bit then 2 ^ st.cmdLen else 0), cmdLen := st.cmdLen + 1 }
  else if st.cmd = CMD_SEARCH_ROM ∧ st.pos < 64 ∧ st.phase = 2 then
    { st with active := st.active.filter (fun a => addrBit a st.pos == bit),
              pos := st.pos + 1, phase := 0 }
  else st

/-- The ideal simulated bus. -/
def idealBus : Bus IdealBus where
  touchReset := idealTouchReset
  readBit := idealReadBit
  writeBit := idealWriteBit

/-- An ideal bus carrying the devices `S`, idle. -/
def idealWith (S : List (List Nat)) : IdealBus :=
  { devices := S, cmdLen := 0, cmd := 0, active := S, pos := 0, phase := 0 }

/-- Completes seven bytes to an address by appending their CRC. -/
def withCrc (a : List Nat) : List Nat :=
  a.take 7 ++ [CalcCRC a 7]


/-! ## Scripted environment -/

/-- A scripted bus: every presence probe succeeds, the read slots return the
scripted bits in order (1 once the script is used up) and writes are ignored. -/
def scriptBus : Bus (List Bool) where
  touchReset := fun t => (true, t)
  readBit := fun t => (t.headD true, t.tail)
  writeBit := fun _ t => t

/-- The scripted bus with both timers always elapsed. -/
def scriptWorld : World (List Bool) where
  toBus := scriptBus
  scanNetTimerElapsed := fun t => (true, t)
  scanNetTimerStart := fun _ t => t
  convertTimerElapsed := fun t => (true, t)
  convertTimerStart := fun _ t => t
  setOneWireData := fun _ t => t

/-- The eight bits of a byte, least-significant first. -/
def bitsOfByte (x : Nat) : List Bool :=
  (List.range 8).map x.testBit

/-- The bits of a byte sequence as the bus carries them. -/
def bitsOfBytes (xs : List Nat) : List Bool :=
  (xs.map bitsOfByte).flatten

/-- Number of temperature sensors among the chart entries before `k`: the value
of `dallasIndex` when the sensor loops of `Execute` reach entry `k`. -/
def tmpRank (chart : List (List Nat)) (k : Nat) : Nat :=
  (List.range' 0 k).countP (fun i => isTmpFamily (getChartByte chart i 0))

/-- The environment once the `READ_TMP` step has addressed chart entry `k`:
presence probe, match-ROM command, the 8 address bytes, read-memory command. -/
def addressForRead {σ : Type} (bus : Bus σ) (s : Dallas) (k : Nat) (b : σ) : σ :=
  WriteByte bus CMD_READ_MEM
    (WriteBytes bus ((s.DallasChart.getD k []).take 8)
      (WriteByte bus CMD_MATCH_ROM (bus.touchReset b).2))

/-- A state with one sensor of the given family in the chart, in `READ_TMP`,
with `TmpSensorCount = count`. -/
def oneSensor (family count : Nat) : Dallas :=
  { Dallas.new (List.replicate 16 0) count with
    Step := Step_t.READ_TMP
    DallasChartSize := 1
    DallasChart := (List.replicate 8 zeros8).set 0 (withCrc [family, 1, 0, 0, 0, 0, 0])
    LastDallasChartSize := 1
    LastDallasChart := (List.replicate 8 zeros8).set 0 (withCrc [family, 1, 0, 0, 0, 0, 0]) }

/-- Read script of a bus on which two discovery passes each see one fork at the
first address bit and then read 1 for every bit: the first pass records
FE FF FF FF FF FF FF FF and the second FF FF FF FF FF FF FF FF. -/
def twoBadScript : List Bool :=
  ([false, false] ++ (List.replicate 63 [true, false]).flatten) ++
    ([false, false] ++ (List.replicate 63 [true, false]).flatten)

/-! ## Predicates used by the proofs -/

/-- All fields but the chart and the route mask agree. -/
def Dallas.sameBut (s s' : Dallas) : Prop :=
  s' = { s with DallasChart := s'.DallasChart, RouteMask := s'.RouteMask }

/-- The byte with bit `k` set to `w`: what the three branches of the bit loop
store (`|= (1 << bitNum)` or `&= ~(1 << bitNum)`). -/
def putBit (x k : Nat) (w : Bool) : Nat :=
  if w then (x ||| (1 <<< k)) % 256 else (x &&& (0xFF ^^^ (1 <<< k))) % 256

/-- The addresses `a` and `e` agree on the address bits below `p`. -/
def agreeBelow (a e : List Nat) (p : Nat) : Bool :=
  (List.range p).all (fun q => addrBit a q == addrBit e q)

/-- The devices of `S` that agree with `e` on the address bits below `p`: the
devices still selected when a discovery pass that has written the bits of `e`
reaches bit `p`. -/
def activeAt (S : List (List Nat)) (e : List Nat) (p : Nat) : List (List Nat) :=
  S.filter (fun a => agreeBelow a e p)

/-- On the way to `e`, bit `p` is a fork: the read of the bit and the read of
its complement are equal (neither `0 -> 1` nor `1 -> 0`). -/
def isForkAt (S : List (List Nat)) (e : List Nat) (p : Nat) : Bool :=
  (activeAt S e p).all (fun a => addrBit a p) == (activeAt S e p).all (fun a => !addrBit a p)

/-- Number of forks on the way to `e` before bit `p`. -/
def forksBefore (S : List (List Nat)) (e : List Nat) (p : Nat) : Nat :=
  (List.range p).countP (isForkAt S e)

/-- The ideal bus in a discovery pass at bit `p` with the devices `A` selected. -/
def searchingAt (S A : List (List Nat)) (p : Nat) : IdealBus :=
  { devices := S, cmdLen := 8, cmd := CMD_SEARCH_ROM, active := A, pos := p, phase := 0 }

/-- An address is 8 bytes. -/
def isAddress (a : List Nat) : Prop :=
  a.length = 8 ∧ ∀ x ∈ a, x < 256

/-- What holds when a discovery pass on the ideal bus carrying `S`, started in
the state `s0` (new chart entry cleared), has handled the address bits below
`p`.  The state is the driver, the local `fork` and the bus. -/
structure PassInv (S : List (List Nat)) (s0 : Dallas) (p : Nat)
    (st : Dallas × Nat × IdealBus) : Prop where
  /-- Only the chart and the route mask have changed. -/
  same : s0.sameBut st.1
  /-- Only the new chart entry has changed. -/
  chart : st.1.DallasChart =
    s0.DallasChart.set s0.DallasChartSize (st.1.DallasChart.getD s0.DallasChartSize [])
  /-- The new chart entry is 8 bytes. -/
  entry : isAddress (st.1.DallasChart.getD s0.DallasChartSize [])
  /-- The bus is at bit `p` with the devices selected that agree with the entry below `p`. -/
  bus : st.2.2 =
    searchingAt S (activeAt S (st.1.DallasChart.getD s0.DallasChartSize []) p) p
  /-- A device is still selected. -/
  active : activeAt S (st.1.DallasChart.getD s0.DallasChartSize []) p ≠ []
  /-- The local `fork` counts the forks met. -/
  fork : st.2.1 = forksBefore S (st.1.DallasChart.getD s0.DallasChartSize []) p
  /-- Only `RouteMask[Route]` has changed, and its bits are below `fork`. -/
  mask : ∃ m, st.1.RouteMask = s0.RouteMask.set s0.Route m ∧ m < 256 ∧
    ∀ j, m.testBit j = true → j < st.2.1
  /-- At every fork met, the direction taken is the bit of `Route` with the fork's number. -/
  bits : ∀ q < p, isForkAt S (st.1.DallasChart.getD s0.DallasChartSize []) q = true →
    addrBit (st.1.DallasChart.getD s0.DallasChartSize []) q =
      s0.Route.testBit (forksBefore S (st.1.DallasChart.getD s0.DallasChartSize []) q)

/-- The route `r` leads to the address `e`: at every fork on the way to `e` the
bit of `e` is the bit of `r` with the fork's number. -/
def leadsTo (S : List (List Nat)) (r : Nat) (e : List Nat) : Prop :=
  ∀ q < 64, isForkAt S e q = true → addrBit e q = r.testBit (forksBefore S e q)

/-- The test of the route check: `(Route & RouteMask[route]) == (route & RouteMask[route])`. -/
def doubling (RouteMask : List Nat) (Route route : Nat) : Prop :=
  Route &&& RouteMask.getD route 0 = route &&& RouteMask.getD route 0

/-- What holds between the discovery passes of a scan of the ideal bus carrying
`S`: every chart entry is a device reached by an explored route below `Route`
whose recorded mask covers only forks on the way to it, `Route` is not doubling
any explored route, the masks from `Route` on are still zero, and the entries
are pairwise distinct. -/
structure ScanInv (S : List (List Nat)) (s : Dallas) : Prop where
  /-- The chart has 8 entries. -/
  chartLen : s.DallasChart.length = 8
  /-- The route mask has 16 entries. -/
  maskLen : s.RouteMask.length = 16
  /-- `Route` is at most 16. -/
  route : s.Route ≤ 16
  /-- `DallasChartSize` is at most 8. -/
  size : s.DallasChartSize ≤ 8
  /-- The masks of the routes not yet reached are zero. -/
  fresh : ∀ q, s.Route ≤ q → s.RouteMask.getD q 0 = 0
  /-- Every entry was found by an explored route. -/
  found : ∀ i < s.DallasChartSize, ∃ q < s.Route,
    s.DallasChart.getD i [] ∈ S ∧ leadsTo S q (s.DallasChart.getD i []) ∧
    (∀ j, (s.RouteMask.getD q 0).testBit j = true →
      j < forksBefore S (s.DallasChart.getD i []) 64) ∧
    (s.Route < 16 → ¬ doubling s.RouteMask s.Route q)
  /-- The entries are pairwise distinct. -/
  nodup : (s.DallasChart.take s.DallasChartSize).Nodup

/-- The states and buses a scan of the ideal bus carrying `S` goes through: it
starts with `Route = 0` and goes on with the next call while `ScanNet` returns
false; between two calls the bus may be in any state with the same devices. -/
inductive ScanRun (S : List (List Nat)) : Dallas → IdealBus → Prop where
  | start (s : Dallas) (b : IdealBus) (hRoute : s.Route = 0)
      (hChart : s.DallasChart.length = 8) (hBus : b.devices = S) : ScanRun S s b
  | next (s : Dallas) (b b' : IdealBus) (h : ScanRun S s b)
      (hFalse : (ScanNet idealBus s b).1 = false) (hBus : b'.devices = S) :
      ScanRun S (ScanNet idealBus s b).2.1 b'

instance isAddress_decidable : DecidablePred isAddress := fun a => by
  unfold isAddress
  infer_instance

/-- Four family-0x28 devices whose serial numbers 0, 1, 3, 7 differ in the
first three bits of the second address byte: the first fork separates device 0
from the rest, the second device 1, the third devices 3 and 7. -/
def combOfFour : List (List Nat) :=
  [withCrc [0x28, 0, 0, 0, 0, 0, 0], withCrc [0x28, 1, 0, 0, 0, 0, 0],
   withCrc [0x28, 3, 0, 0, 0, 0, 0], withCrc [0x28, 7, 0, 0, 0, 0, 0]]

/-- Five family-0x28 devices with serial numbers 0 to 4. -/
def fiveDevices : List (List Nat) :=
  [withCrc [0x28, 0, 0, 0, 0, 0, 0], withCrc [0x28, 1, 0, 0, 0, 0, 0],
   withCrc [0x28, 2, 0, 0, 0, 0, 0], withCrc [0x28, 3, 0, 0, 0, 0, 0],
   withCrc [0x28, 4, 0, 0, 0, 0, 0]]

/-! ## Observers of the byte transport -/

/-- A recording bus: the state is the list of the bits written so far, in
order; probes succeed and read slots return 1 without changing it. -/
def recordBus : Bus (List Bool) where
  touchReset := fun t => (true, t)
  readBit := fun t => (true, t)
  writeBit := fun bit t => t ++ [bit]

/-- The results of `n` consecutive calls of `ReadBit()`, in order, with the
environment after the last one. -/
def readBits {σ : Type} (bus : Bus σ) : Nat → σ → List Bool × σ
  | 0, b => ([], b)
  | n + 1, b =>
    let r := bus.readBit b
    let rest := readBits bus n r.2
    (r.1 :: rest.1, rest.2)

/-! ## A bus with scripted faults -/

/-- A bus whose presence probes are scripted too: the state is the list of the
results of the probes still to come (a probe succeeds once the list is used
up) and the list of the bits the read slots return (1 once it is used up);
writes are ignored. -/
def faultBus : Bus (List Bool × List Bool) where
  touchReset := fun t => (t.1.headD true, (t.1.tail, t.2))
  readBit := fun t => (t.2.headD true, (t.1, t.2.tail))
  writeBit := fun _ t => t

/-- The bus with scripted faults, both timers always elapsed. -/
def faultWorld : World (List Bool × List Bool) where
  toBus := faultBus
  scanNetTimerElapsed := fun t => (true, t)
  scanNetTimerStart := fun _ t => t
  convertTimerElapsed := fun t => (true, t)
  convertTimerStart := fun _ t => t
  setOneWireData := fun _ t => t

/-- A state whose registry holds two temperature sensors, one of each family,
and equals the previous registry, with the step and the sensor cursor as
given. -/
def twoSensors (step : Step_t) (index : Nat) : Dallas :=
  { Dallas.new (List.replicate 16 0) 2 with
    Step := step
    FirstScan := false
    DallasChartSize := 2
    DallasChart := ((List.replicate 8 zeros8).set 0 (withCrc [0x28, 1, 0, 0, 0, 0, 0])).set 1
      (withCrc [0x10, 2, 0, 0, 0, 0, 0])
    LastDallasChartSize := 2
    LastDallasChart := ((List.replicate 8 zeros8).set 0 (withCrc [0x28, 1, 0, 0, 0, 0, 0])).set 1
      (withCrc [0x10, 2, 0, 0, 0, 0, 0])
    TmpSensorIndex := index }

/-! ## Observers of `ScanNet` -/

/-- All fields but the search cursor and the chart agree: `Route`,
`RouteMask`, `DallasChartSize` and `DallasChart` are the only fields the search
part of `ScanNet` writes. -/
def Dallas.sameButSearch (s s' : Dallas) : Prop :=
  s' = { s with Route := s'.Route, RouteMask := s'.RouteMask,
                DallasChartSize := s'.DallasChartSize, DallasChart := s'.DallasChart }

/-- The value of `renew || ForceRenew` that `ScanNet` tests after the check
whether the chart changed, for the driver state `s2` the search has left:
whether the call takes the renewal path. -/
def scanRenews (s2 : Dallas) : Bool :=
  (s2.DallasChartSize != s2.LastDallasChartSize ||
    chartDiffers s2.DallasChartSize s2.DallasChart s2.LastDallasChart) || s2.ForceRenew

/-- The bus traffic of the renewal as the specification words it: for the entries in
registry order, a presence probe for each entry of family 0x28 and, when it
succeeds, the bytes 0x55, the 8 address bytes in order, 0x4E, 0x00, 0x00,
0x1F. -/
def renewalTraffic {σ : Type} (bus : Bus σ) (size : Nat) (chart : List (List Nat)) (b : σ) : σ :=
  (List.range size).foldl (fun e i =>
    if getChartByte chart i 0 = 0x28 then
      if (bus.touchReset e).1 then
        WriteBytes bus ([0x55] ++ (chart.getD i []).take 8 ++ [0x4E, 0x00, 0x00, 0x1F])
          (bus.touchReset e).2
      else (bus.touchReset e).2
    else e) b

/-- The chart is 8 buffers of 8 bytes. -/
def chartWF (chart : List (List Nat)) : Prop :=
  chart.length = 8 ∧ ∀ e ∈ chart, e.length = 8

/-- The ideal simulated bus with both timers always elapsed. -/
def idealWorld : World IdealBus where
  toBus := idealBus
  scanNetTimerElapsed := fun t => (true, t)
  scanNetTimerStart := fun _ t => t
  convertTimerElapsed := fun t => (true, t)
  convertTimerStart := fun _ t => t
  setOneWireData := fun _ t => t

/-! ## The route check as the specification words it -/

/-- The route after a pass made with `Route = r` as the specification words it: the
smallest `r'` with `r < r' < 16` such that, for every route `q` in the list of
the routes explored in this scan, `r' AND RouteMask[q]` differs from
`q AND RouteMask[q]`; 16 when there is none. -/
def nextRouteClaimed (explored RouteMask : List Nat) (r : Nat) : Nat :=
  ((List.range 16).find? (fun r' =>
    decide (r < r') &&
      explored.all (fun q => (r' &&& RouteMask.getD q 0) != (q &&& RouteMask.getD q 0)))).getD 16

/-- The driver and the bus after the first `n` discovery passes of a fresh
scan of the ideal bus carrying `S`: each pass is the presence probe followed
by `discover`, as in the search cycle. -/
def idealPasses (S : List (List Nat)) : Nat → Dallas × IdealBus
  | 0 => (Dallas.new (List.replicate 16 0) 0, idealWith S)
  | n + 1 =>
    let r := discover idealBus routeFuel (idealPasses S n).1
      (idealBus.touchReset (idealPasses S n).2).2
    (r.1, r.2.2)

/-! ## Runs of the state machine -/

/-- The driver states reachable from the constructor state through calls of
`Execute`.  The environment handed to a call is arbitrary: between two ticks
the bus and the timers may have changed in any way. -/
inductive Reach {σ : Type} (w : World σ) : Dallas → Prop where
  | init (routeMask0 : List Nat) (tmpSensorCount0 : Nat) :
      Reach w (Dallas.new routeMask0 tmpSensorCount0)
  | step (s : Dallas) (b : σ) (h : Reach w s) : Reach w (Execute w s b).1

/-- The driver states reachable from the constructor state through calls of
`Execute` in none of which the first presence probe of a CONVERT_TMP tick
with a non-empty registry fails. -/
inductive ReachProbed {σ : Type} (w : World σ) : Dallas → Prop where
  | init (routeMask0 : List Nat) (tmpSensorCount0 : Nat) :
      ReachProbed w (Dallas.new routeMask0 tmpSensorCount0)
  | step (s : Dallas) (b : σ) (h : ReachProbed w s)
      (hp : s.Step = Step_t.CONVERT_TMP → s.DallasChartSize ≠ 0 → (w.touchReset b).1 = true) :
      ReachProbed w (Execute w s b).1

/-- A run on the ideal bus: with the two devices 00 and 01 attached, a tick
in SCAN_NET (the scan completes), one in CONVERT_TMP and one in READ_TMP (the
reading of the first sensor is accepted); then, the devices being detached, a
tick in CONVERT_TMP.  The environment each tick leaves is handed to the next,
but for the detachment. -/
def lostBusRun (n : Nat) : Dallas × IdealBus :=
  let t0 := (Dallas.new (List.replicate 16 0) 0, idealWith (combOfFour.take 2))
  let t1 := Execute idealWorld t0.1 t0.2
  let t2 := Execute idealWorld t1.1 t1.2
  let t3 := Execute idealWorld t2.1 t2.2
  match n with
  | 0 => t0
  | 1 => t1
  | 2 => t2
  | 3 => t3
  | _ => Execute idealWorld t3.1 (idealWith [])

/-! ## Completed scans -/

/-- A completed scan of the ideal bus carrying the devices `S`: calls of
`ScanNet` from the state `s`, repeated while they return false, the bus being
in any state with the devices `S` at each call.  The second state is the one
the call that returns true leaves, and the flag tells whether that call took
the renewal path. -/
inductive ScanCompletes (S : List (List Nat)) : Dallas → Dallas → Bool → Prop where
  | done (s : Dallas) (b : IdealBus) (hBus : b.devices = S)
      (hTrue : (ScanNet idealBus s b).1 = true) :
      ScanCompletes S s (ScanNet idealBus s b).2.1
        (scanRenews (scanSearch idealBus 4 routeFuel s b).1)
  | more (s : Dallas) (b : IdealBus) (t : Dallas) (renews : Bool) (hBus : b.devices = S)
      (hFalse : (ScanNet idealBus s b).1 = false)
      (rest : ScanCompletes S (ScanNet idealBus s b).2.1 t renews) :
      ScanCompletes S s t renews

/-- What one bit of a discovery pass computes from the route, the route mask,
the current byte of the new chart entry, the fork counter and the bus: the
new route mask, the new byte, the new fork counter and the bus after the
direction bit is written.  The branches are those of `searchBit`. -/
def bitOutcome {σ : Type} (bus : Bus σ) (bitNum Route : Nat) (RouteMask : List Nat)
    (cur fork : Nat) (b : σ) : List Nat × Nat × Nat × σ :=
  let r0 := bus.readBit b
  let r1 := bus.readBit r0.2
  if r0.1 = false ∧ r1.1 = true then
    (RouteMask, putBit cur bitNum false, fork, bus.writeBit false r1.2)
  else if r0.1 = true ∧ r1.1 = false then
    (RouteMask, putBit cur bitNum true, fork, bus.writeBit true r1.2)
  else
    let mask := RouteMask.set Route ((RouteMask.getD Route 0 ||| (1 <<< fork)) % 256)
    if Route &&& (1 <<< fork) ≠ 0 then
      (mask, putBit cur bitNum true, (fork + 1) % 256, bus.writeBit true r1.2)
    else
      (mask, putBit cur bitNum false, (fork + 1) % 256, bus.writeBit false r1.2)

/-- The two driver states hold the same search: same route, route mask and
chart size, charts of the same length, and the same chart entries below `n`. -/
structure SameUpTo (n : Nat) (u v : Dallas) : Prop where
  /-- Same `Route`. -/
  route : u.Route = v.Route
  /-- Same `RouteMask`. -/
  mask : u.RouteMask = v.RouteMask
  /-- Same `DallasChartSize`. -/
  size : u.DallasChartSize = v.DallasChartSize
  /-- Charts of the same length. -/
  len : u.DallasChart.length = v.DallasChart.length
  /-- Same entries below `n`. -/
  entries : ∀ i < n, u.DallasChart.getD i [] = v.DallasChart.getD i []

/-- The two driver states are at the same point of a scan: the same route
and, unless the next call starts a fresh scan (`Route = 0`), the same search. -/
def SameCall (u v : Dallas) : Prop :=
  u.Route = v.Route ∧ u.DallasChart.length = v.DallasChart.length ∧
    (u.Route ≠ 0 → SameUpTo u.DallasChartSize u v)

/-! ## The hardware operations of a bit slot -/

/-- One call to a hardware collaborator of the transport. -/
inductive HwOp where
  /-- The call `Hw->Set1WBusState(level)`. -/
  | set (level : Bool)
  /-- The call `Hw->Get1WBusState()`. -/
  | get
  /-- The call `Timer::DelayUs(us)`. -/
  | delay (us : Nat)
  /-- The call `Core::EnterCritical()`. -/
  | enter
  /-- The call `Core::ExitCritical()`. -/
  | exit
  deriving DecidableEq

/-- A recording hardware: the state is the list of the hardware operations
made so far, in order; the line always reads `level`. -/
def traceHw (level : Bool) : Hw (List HwOp) where
  Set1WBusState := fun l t => t ++ [HwOp.set l]
  Get1WBusState := fun t => (level, t ++ [HwOp.get])
  DelayUs := fun us t => t ++ [HwOp.delay us]
  EnterCritical := fun t => t ++ [HwOp.enter]
  ExitCritical := fun t => t ++ [HwOp.exit]

/-! ## The single-family driver (`ds18b20.cpp`) -/

/-- The fields of `class DS18B20` the scan uses. -/
structure DS18B20 where
  /-- Cooperation multitasking step. -/
  Step : Step_t
  /-- Dallas network addresses count (`uint8_t`). -/
  DallasChartSize : Nat
  /-- Dallas network addresses chart (`SensorCount` buffers of 8 bytes). -/
  DallasChart : List (List Nat)
  /-- Temperature sensors count (`uint8_t`). -/
  TmpSensorCount : Nat
  /-- Temperature sensor number (`uint8_t`). -/
  TmpSensorIndex : Nat
  deriving DecidableEq

/-- Constructor `DS18B20::DS18B20()`.  `SensorCount` is not declared anywhere
in the sources and is a parameter; `TmpSensorCount` is not initialised by the
constructor and its starting value is a parameter. -/
def DS18B20.new (SensorCount tmpSensorCount0 : Nat) : DS18B20 where
  Step := Step_t.SCAN_NET
  DallasChartSize := 0
  DallasChart := List.replicate SensorCount zeros8
  TmpSensorCount := tmpSensorCount0
  TmpSensorIndex := 0

/-- The state of the bit loops of the search of `DS18B20::ScanNet`: the chart,
the locals `forkByte` and `forkDigit` (`int8_t`) and the environment. -/
structure DS18B20.Search (σ : Type) where
  /-- The chart. -/
  DallasChart : List (List Nat)
  /-- The local `forkByte`. -/
  forkByte : Int
  /-- The local `forkDigit`. -/
  forkDigit : Int
  /-- The environment. -/
  env : σ

/-- Body of the loop `for(digit = 0; digit < 8; digit++)` of `DS18B20::ScanNet`:
two reads, then the three-way branch (`0->1 = 0`, `1->0 = 1`, fork).  In the
fork branch the local `bit` is `route[byte] & (1 << digit)`, a `uint8_t`; it is
handed to `WriteBit(bool)`, which writes 1 when it is not zero, and
`bit << digit` is OR-ed into the chart byte, a `char`. -/
def DS18B20.searchBit {σ : Type} (bus : Bus σ) (route : List Nat) (sensorNum byte digit : Nat)
    (st : DS18B20.Search σ) : DS18B20.Search σ :=
  let r0 := bus.readBit st.env
  let r1 := bus.readBit r0.2
  let bit0 := r0.1
  let bit1 := r1.1
  let b := r1.2
  let cur := getChartByte st.DallasChart sensorNum byte
  if bit0 = false ∧ bit1 = true then
    { st with env := bus.writeBit false b }
  else if bit0 = true ∧ bit1 = false then
    { st with DallasChart := setChartByte st.DallasChart sensorNum byte
                ((cur ||| (1 <<< digit)) % 256),
              env := bus.writeBit true b }
  else
    let bit := (route.getD byte 0 &&& (1 <<< digit)) % 256
    { DallasChart := setChartByte st.DallasChart sensorNum byte
        ((cur ||| (bit <<< digit)) % 256),
      forkByte := if bit = 0 then (byte : Int) else st.forkByte,
      forkDigit := if bit = 0 then (digit : Int) else st.forkDigit,
      env := bus.writeBit (bit != 0) b }

/-- The loops `for(byte = 0; byte < 8; byte++)` and `for(digit = 0; digit < 8;
digit++)` of `DS18B20::ScanNet`: one discovery pass over the 64 address bits. -/
def DS18B20.searchPass {σ : Type} (bus : Bus σ) (route : List Nat) (sensorNum : Nat)
    (st : DS18B20.Search σ) : DS18B20.Search σ :=
  (List.range 8).foldl (fun st byte =>
    (List.range 8).foldl (fun st digit => DS18B20.searchBit bus route sensorNum byte digit st)
      st) st

/-- The loop `for(sensorNum = 0; sensorNum < SensorCount; sensorNum++)` of
`DS18B20::ScanNet`, with the `break` when a pass leaves no fork.  The first
argument counts the values of `sensorNum` still to come (`SensorCount` at the
start, which a `uint8_t` counter reaches when it is below 256); the others
are `sensorNum`, the driver, the local `route` and the environment. -/
def DS18B20.searchLoop {σ : Type} (bus : Bus σ) :
    Nat → Nat → DS18B20 → List Nat → σ → DS18B20 × List Nat × σ
  | 0, _, s, route, b => (s, route, b)
  | n + 1, sensorNum, s, route, b =>
    let p := bus.touchReset b
    if p.1 then
      let chart1 := s.DallasChart.set sensorNum zeros8
      let b1 := WriteByte bus CMD_SEARCH_ROM p.2
      let r := DS18B20.searchPass bus route sensorNum
        { DallasChart := chart1, forkByte := -1, forkDigit := -1, env := b1 }
      let s1 := { s with DallasChart := r.DallasChart, DallasChartSize := (sensorNum + 1) % 256 }
      if r.forkByte = -1 ∧ r.forkDigit = -1 then (s1, route, r.env)
      else
        let route1 := route.set r.forkByte.toNat
          ((route.getD r.forkByte.toNat 0 ||| (1 <<< r.forkDigit.toNat)) % 256)
        DS18B20.searchLoop bus n (sensorNum + 1) s1 route1 r.env
    else DS18B20.searchLoop bus n (sensorNum + 1) s route p.2

/-- Body of the loop of `DS18B20::ScanNet` that checks the CRC of all devices:
an entry whose CRC is wrong is zeroed. -/
def DS18B20.checkCrcStep (chart : List (List Nat)) (dallasNum : Nat) : List (List Nat) :=
  if getChartByte chart dallasNum 7 ≠ CalcCRC (chart.getD dallasNum []) 7 then
    chart.set dallasNum zeros8
  else chart

/-- Body of the loop of `DS18B20::ScanNet` that finds all temperature sensors
and sets their resolution.  The state is `TmpSensorCount` and the environment. -/
def DS18B20.tuneStep {σ : Type} (bus : Bus σ) (chart : List (List Nat))
    (st : Nat × σ) (dallasNum : Nat) : Nat × σ :=
  let entry := chart.getD dallasNum []
  if entry.getD 0 0 = DS18B20_FAMILY_CODE then
    let p := bus.touchReset st.2
    if p.1 then
      let b1 := WriteByte bus CMD_MATCH_ROM p.2
      let b2 := WriteBytes bus (entry.take 8) b1
      let b3 := WriteByte bus CMD_WRITE_SCRATCHPAD b2
      let b4 := WriteByte bus 0x00 b3
      let b5 := WriteByte bus 0x00 b4
      ((st.1 + 1) % 256, WriteByte bus DS18B20_RES_9BIT b5)
    else (st.1, p.2)
  else st

/-- Dallas network scanning (`DS18B20::ScanNet`), for a chart of `SensorCount`
entries: the search loop from the all-zero route, the CRC check and the
tuning of the sensors. -/
def DS18B20.ScanNet {σ : Type} (bus : Bus σ) (SensorCount : Nat) (s : DS18B20) (b : σ) :
    DS18B20 × σ :=
  let r := DS18B20.searchLoop bus SensorCount 0 s (List.replicate 8 0) b
  let s1 := r.1
  let chart := (List.range s1.DallasChartSize).foldl DS18B20.checkCrcStep s1.DallasChart
  let t := (List.range s1.DallasChartSize).foldl (DS18B20.tuneStep bus chart) (0, r.2.2)
  ({ s1 with DallasChart := chart, TmpSensorCount := t.1 }, t.2)

/-- A bus that also records the bits written to it: the second component of
the state is the list of the bits written so far, in order. -/
def logBus {σ : Type} (bus : Bus σ) : Bus (σ × List Bool) where
  touchReset := fun t => ((bus.touchReset t.1).1, ((bus.touchReset t.1).2, t.2))
  readBit := fun t => ((bus.readBit t.1).1, ((bus.readBit t.1).2, t.2))
  writeBit := fun bit t => (bus.writeBit bit t.1, t.2 ++ [bit])

/-- Two sensors of family 0x28 whose addresses differ first at bit 1 of
byte 1: serial bytes 00.. and 02... -/
def forkPair : List (List Nat) :=
  [withCrc [0x28, 0, 0, 0, 0, 0, 0], withCrc [0x28, 2, 0, 0, 0, 0, 0]]

/-! ## Array accesses of the scan -/

/-- The driver states reachable from the constructor state through calls of
`Execute` and of `ScanNet`, in any order and with an arbitrary environment at
each call.  `RouteMask` is an array of 16 bytes, whatever it holds when the
constructor returns. -/
inductive ReachCalls {σ : Type} (w : World σ) : Dallas → Prop where
  | init (routeMask0 : List Nat) (tmpSensorCount0 : Nat) (h : routeMask0.length = 16) :
      ReachCalls w (Dallas.new routeMask0 tmpSensorCount0)
  | execute (s : Dallas) (b : σ) (h : ReachCalls w s) : ReachCalls w (Execute w s b).1
  | scanNet (s : Dallas) (b : σ) (h : ReachCalls w s) : ReachCalls w (ScanNet w.toBus s b).2.1

/-- An indexed access of the search part of `Dallas::ScanNet` to an array of
the driver. -/
inductive Access where
  /-- A write to `DallasChart[index]`: the `memset` of the entry or a store
  into one of its bytes. -/
  | chartWrite (index : Nat)
  /-- The update `RouteMask[index] |= (1 << fork)`. -/
  | maskWrite (index : Nat)
  /-- A read of `RouteMask[index]` in the check of the route for doubling. -/
  | maskRead (index : Nat)
  deriving DecidableEq

/-- The access is within the array: `DallasChart` has `MAX_SENSOR_COUNT`
entries and `RouteMask` has 16. -/
def Access.inRange : Access → Prop
  | Access.chartWrite index => index < MAX_SENSOR_COUNT
  | Access.maskWrite index => index < 16
  | Access.maskRead index => index < 16

/-- The array accesses of one run of the body of the bit loop (`searchBit`),
in order: in the branches `0 -> 1 = 0` and `1 -> 0 = 1` the store into a byte
of `DallasChart[DallasChartSize]`; in the fork branch the update of
`RouteMask[Route]` and then that store. -/
def searchBitAccesses {σ : Type} (bus : Bus σ) (st : Dallas × Nat × σ) : List Access :=
  let r0 := bus.readBit st.2.2
  let r1 := bus.readBit r0.2
  if r0.1 = false ∧ r1.1 = true then [Access.chartWrite st.1.DallasChartSize]
  else if r0.1 = true ∧ r1.1 = false then [Access.chartWrite st.1.DallasChartSize]
  else [Access.maskWrite st.1.Route, Access.chartWrite st.1.DallasChartSize]

/-- The discovery pass `searchPass` with the array accesses appended to a log:
the first component is the state of the pass, the second the accesses so
far. -/
def searchPassLogged {σ : Type} (bus : Bus σ) (x : (Dallas × Nat × σ) × List Access) :
    (Dallas × Nat × σ) × List Access :=
  (List.range 8).foldl (fun x byteNum =>
    (List.range 8).foldl (fun x bitNum =>
      (searchBit bus byteNum bitNum x.1, x.2 ++ searchBitAccesses bus x.1)) x) x

/-- The values of `route` at which the check of the route for doubling reads
`RouteMask[route]`, in order; the recursion is that of `routeAdvance`. -/
def routeAdvanceReads (RouteMask : List Nat) (limit : Nat) : Nat → Nat → Nat → List Nat
  | 0, _, _ => []
  | fuel + 1, Route, route =>
    if Route < 16 then
      if route > limit then []
      else if Route &&& RouteMask.getD route 0 = route &&& RouteMask.getD route 0 then
        route :: routeAdvanceReads RouteMask limit fuel ((Route + 1) % 256) 0
      else
        route :: routeAdvanceReads RouteMask limit fuel Route ((route + 1) % 256)
    else []

/-- The array accesses of `discover`, in order: the `memset` of
`DallasChart[DallasChartSize]`, the accesses of the pass and the reads of the
route check. -/
def discoverAccesses {σ : Type} (bus : Bus σ) (advFuel : Nat) (s : Dallas) (b : σ) :
    List Access :=
  let s1 := { s with DallasChart := s.DallasChart.set s.DallasChartSize zeros8 }
  let b1 := WriteByte bus CMD_SEARCH_ROM b
  let r := searchPassLogged bus ((s1, 0, b1), [Access.chartWrite s.DallasChartSize])
  let s2 := { r.1.1 with DallasChartSize := (r.1.1.DallasChartSize + 1) % 256 }
  r.2 ++ (routeAdvanceReads s2.RouteMask s2.Route advFuel ((s2.Route + 1) % 256) 0).map
    Access.maskRead

/-- The array accesses of the search cycle, in order; the recursion is that of
`searchCycle`. -/
def searchCycleAccesses {σ : Type} (bus : Bus σ) (advFuel dallasChartSize : Nat) :
    Nat → Dallas → Nat → σ → List Access
  | 0, _, _, _ => []
  | fuel + 1, s, fork, b =>
    if s.DallasChartSize - dallasChartSize < 4 ∧ s.Route < 16 ∧
        s.DallasChartSize < MAX_SENSOR_COUNT ∧ fork > 0 then
      let p := bus.touchReset b
      if p.1 then
        let r := discover bus advFuel s p.2
        discoverAccesses bus advFuel s p.2 ++
          searchCycleAccesses bus advFuel dallasChartSize fuel r.1 r.2.1 r.2.2
      else []
    else []

/-- The array accesses of the search part of a call of `Dallas::ScanNet`
(`scanSearch`), in order. -/
def scanAccesses {σ : Type} (bus : Bus σ) (s : Dallas) (b : σ) : List Access :=
  let s1 :=
    if s.Route = 0 then { s with RouteMask := List.replicate 16 0, DallasChartSize := 0 }
    else s
  searchCycleAccesses bus routeFuel s1.DallasChartSize 4 s1 0xFF b

/-- The bounds that hold at the head of the search cycle of `Dallas::ScanNet`,
whatever the number of rounds made: the chart size, the route and the sizes
of the chart and of the route mask. -/
def SearchBounds (s : Dallas) : Prop :=
  s.DallasChartSize ≤ 8 ∧ s.Route ≤ 16 ∧ chartWF s.DallasChart ∧ s.RouteMask.length = 16

/-- What the logged pass keeps: the chart size and the route of the driver, and
a log of accesses in range. -/
def LogInv {σ : Type} (size Route : Nat) (x : (Dallas × Nat × σ) × List Access) : Prop :=
  x.1.1.DallasChartSize = size ∧ x.1.1.Route = Route ∧ ∀ a ∈ x.2, a.inRange

/-! ## The cursor and the sensor count -/

/-- What every state reachable through calls of `Execute` satisfies: the
charts are 8 buffers of 8 bytes and their sizes at most 8; unless the last
registry is empty, TmpSensorCount is the number of its entries of family 0x10
or 0x28; outside SCAN_NET the registry is the last registry; in READ_TMP the
cursor is below the number of temperature sensors of the registry. -/
structure CursorInv (s : Dallas) : Prop where
  /-- The chart is 8 buffers of 8 bytes. -/
  chart : chartWF s.DallasChart
  /-- The last chart is 8 buffers of 8 bytes. -/
  last : chartWF s.LastDallasChart
  /-- The chart size is at most 8. -/
  size : s.DallasChartSize ≤ 8
  /-- The last chart size is at most 8. -/
  lastSize : s.LastDallasChartSize ≤ 8
  /-- The sensor count is that of the last registry, unless it is empty. -/
  count : s.LastDallasChartSize = 0 ∨
    s.TmpSensorCount = tmpRank s.LastDallasChart s.LastDallasChartSize
  /-- Outside SCAN_NET the registry is the last registry. -/
  promoted : s.Step ≠ Step_t.SCAN_NET →
    s.LastDallasChartSize = s.DallasChartSize ∧
      ∀ i < s.DallasChartSize, s.LastDallasChart.getD i [] = s.DallasChart.getD i []
  /-- In READ_TMP the cursor has a target. -/
  cursor : s.Step = Step_t.READ_TMP →
    s.TmpSensorIndex < tmpRank s.DallasChart s.DallasChartSize

/-- A run on the ideal bus with both timers elapsed at every tick: with the
three devices 00, 01 and 03 attached, a tick in SCAN_NET (the scan completes)
and then two rounds of CONVERT_TMP and READ_TMP and a tick in CONVERT_TMP for
the third sensor, which leave the machine in READ_TMP with the cursor at 2;
the environment each tick leaves is handed to the next. -/
def threeSensorRun : Nat → Dallas × IdealBus
  | 0 => (Dallas.new (List.replicate 16 0) 0, idealWith (combOfFour.take 3))
  | n + 1 => Execute idealWorld (threeSensorRun n).1 (threeSensorRun n).2

/-! ## Checksum: the table against the bitwise CRC-8 -/

set_option maxRecDepth 100000 in
theorem table_eq_bitwise : ∀ i < 256, DallasCrc8Table.getD i 0 = crc8BitStep^[8] i := by
  decide!

set_option maxRecDepth 100000 in
theorem table_length : DallasCrc8Table.length = 256 := by
  decide!

set_option maxRecDepth 100000 in
/-- One shift/XOR step can be undone on bytes: the top bit of the result tells
whether the polynomial was XORed in. -/
theorem crc8BitStep_undo : ∀ x < 256, crc8BitStep x < 256 ∧
    (if 128 ≤ crc8BitStep x then (crc8BitStep x ^^^ 0x8C) * 2 + 1 else crc8BitStep x * 2) = x := by
  decide!

theorem crc8BitStep_iterate_lt : ∀ (n : Nat) (x : Nat), x < 256 → crc8BitStep^[n] x < 256 := by
  intro n
  induction n with
  | zero => intro x h; exact h
  | succ n ih =>
    intro x h
    rw [Function.iterate_succ_apply]
    exact ih _ (crc8BitStep_undo x h).1

theorem table_lt : ∀ i < 256, DallasCrc8Table.getD i 0 < 256 := by
  intro i hi
  rw [table_eq_bitwise i hi]
  exact crc8BitStep_iterate_lt 8 i hi

theorem crc8BitStep_iterate_inj : ∀ (n : Nat) (a b : Nat), a < 256 → b < 256 →
    crc8BitStep^[n] a = crc8BitStep^[n] b → a = b := by
  intro n
  induction n with
  | zero => intro a b _ _ h; exact h
  | succ n ih =>
    intro a b ha hb h
    rw [Function.iterate_succ_apply, Function.iterate_succ_apply] at h
    have hs := ih _ _ (crc8BitStep_undo a ha).1 (crc8BitStep_undo b hb).1 h
    have h1 := (crc8BitStep_undo a ha).2
    have h2 := (crc8BitStep_undo b hb).2
    rw [hs] at h1
    exact h1.symm.trans h2

theorem table_inj {i j : Nat} (hi : i < 256) (hj : j < 256)
    (h : DallasCrc8Table.getD i 0 = DallasCrc8Table.getD j 0) : i = j := by
  rw [table_eq_bitwise i hi, table_eq_bitwise j hj] at h
  exact crc8BitStep_iterate_inj 8 i j hi hj h

theorem table_nodup : DallasCrc8Table.Nodup := by
  rw [List.nodup_iff_injective_get]
  intro a b h
  apply Fin.ext
  have ha : a.1 < 256 := lt_of_lt_of_eq a.2 table_length
  have hb : b.1 < 256 := lt_of_lt_of_eq b.2 table_length
  apply table_inj ha hb
  rw [List.getD_eq_getElem _ _ a.2, List.getD_eq_getElem _ _ b.2]
  exact h

theorem xor_byte_lt {a b : Nat} (ha : a < 256) (hb : b < 256) : a ^^^ b < 256 :=
  Nat.xor_lt_two_pow (n := 8) ha hb

theorem foldl_table_eq_ref (bytes : List Nat) (h : ∀ x ∈ bytes, x < 256) :
    ∀ r, r < 256 →
      bytes.foldl (fun result byte => DallasCrc8Table.getD (result ^^^ byte) 0) r
          = bytes.foldl crc8RefByte r ∧
        bytes.foldl crc8RefByte r < 256 := by
  induction bytes with
  | nil => intro r hr; exact ⟨rfl, hr⟩
  | cons x xs ih =>
    intro r hr
    have hx : x < 256 := h x (List.mem_cons_self _ _)
    have hi : r ^^^ x < 256 := xor_byte_lt hr hx
    have hstep : DallasCrc8Table.getD (r ^^^ x) 0 = crc8RefByte r x :=
      table_eq_bitwise _ hi
    have hlt : crc8RefByte r x < 256 := hstep ▸ table_lt _ hi
    simp only [List.foldl_cons, hstep]
    exact ih (fun y hy => h y (List.mem_cons_of_mem _ hy)) _ hlt

/-- C6. For every byte sequence `Dallas::CalcCRC` (table lookup
`result = DallasCrc8Table[result XOR byte]`, seeded at 0) equals the bitwise
reference CRC-8 with reflected polynomial 0x8C, initial value 0, no final XOR,
least-significant bit first; and each of the 256 table entries equals eight
shift/XOR steps applied to its index. -/
theorem CalcCRC_eq_crc8Ref (buffer : List Nat) (size : Nat)
    (h : ∀ x ∈ buffer, x < 256) :
    CalcCRC buffer size = crc8Ref (buffer.take size) ∧
      ∀ i < 256, DallasCrc8Table.getD i 0 = crc8BitStep^[8] i := by
  refine ⟨?_, table_eq_bitwise⟩
  have h2 : ∀ x ∈ buffer.take size, x < 256 := fun x hx => h x (List.mem_of_mem_take hx)
  exact (foldl_table_eq_ref _ h2 0 (by decide)).1

set_option maxRecDepth 100000 in
theorem CalcCRC_eq_crc8Ref_witness :
    (∀ x ∈ [0x28, 0x01, 0, 0, 0, 0, 0, 0x29], x < 256) ∧
      CalcCRC [0x28, 0x01, 0, 0, 0, 0, 0, 0x29] 7 =
        crc8Ref ([0x28, 0x01, 0, 0, 0, 0, 0, 0x29].take 7) :=
  ⟨by decide, (CalcCRC_eq_crc8Ref [0x28, 0x01, 0, 0, 0, 0, 0, 0x29] 7 (by decide)).1⟩

theorem crcStep_inj_left {r1 r2 x : Nat} (h1 : r1 < 256) (h2 : r2 < 256) (hx : x < 256)
    (h : DallasCrc8Table.getD (r1 ^^^ x) 0 = DallasCrc8Table.getD (r2 ^^^ x) 0) : r1 = r2 := by
  have := table_inj (xor_byte_lt h1 hx) (xor_byte_lt h2 hx) h
  exact Nat.xor_left_injective this

theorem crcStep_inj_right {r x1 x2 : Nat} (hr : r < 256) (h1 : x1 < 256) (h2 : x2 < 256)
    (h : DallasCrc8Table.getD (r ^^^ x1) 0 = DallasCrc8Table.getD (r ^^^ x2) 0) : x1 = x2 := by
  have := table_inj (xor_byte_lt hr h1) (xor_byte_lt hr h2) h
  exact Nat.xor_right_injective this

theorem crcFold_lt (bytes : List Nat) (h : ∀ x ∈ bytes, x < 256) (r : Nat) (hr : r < 256) :
    bytes.foldl (fun result byte => DallasCrc8Table.getD (result ^^^ byte) 0) r < 256 := by
  induction bytes generalizing r with
  | nil => exact hr
  | cons x xs ih =>
    simp only [List.foldl_cons]
    exact ih (fun y hy => h y (List.mem_cons_of_mem _ hy)) _
      (table_lt _ (xor_byte_lt hr (h x (List.mem_cons_self _ _))))

theorem crcFold_inj_seed (bytes : List Nat) (h : ∀ x ∈ bytes, x < 256) (r1 r2 : Nat)
    (h1 : r1 < 256) (h2 : r2 < 256) (hne : r1 ≠ r2) :
    bytes.foldl (fun result byte => DallasCrc8Table.getD (result ^^^ byte) 0) r1 ≠
      bytes.foldl (fun result byte => DallasCrc8Table.getD (result ^^^ byte) 0) r2 := by
  induction bytes generalizing r1 r2 with
  | nil => exact hne
  | cons x xs ih =>
    simp only [List.foldl_cons]
    have hx : x < 256 := h x (List.mem_cons_self _ _)
    exact ih (fun y hy => h y (List.mem_cons_of_mem _ hy)) _ _
      (table_lt _ (xor_byte_lt h1 hx)) (table_lt _ (xor_byte_lt h2 hx))
      (fun e => hne (crcStep_inj_left h1 h2 hx e))

/-- Replacing one byte of a buffer by a different byte changes the CRC. -/
theorem crcFold_set_ne (bytes : List Nat) (h : ∀ x ∈ bytes, x < 256) (i v : Nat)
    (hi : i < bytes.length) (hv : v < 256) (hne : v ≠ bytes.getD i 0) (r : Nat)
    (hr : r < 256) :
    (bytes.set i v).foldl (fun result byte => DallasCrc8Table.getD (result ^^^ byte) 0) r ≠
      bytes.foldl (fun result byte => DallasCrc8Table.getD (result ^^^ byte) 0) r := by
  induction bytes generalizing i r with
  | nil => simp at hi
  | cons x xs ih =>
    have hx : x < 256 := h x (List.mem_cons_self _ _)
    have hxs : ∀ y ∈ xs, y < 256 := fun y hy => h y (List.mem_cons_of_mem _ hy)
    cases i with
    | zero =>
      simp only [List.set_cons_zero, List.foldl_cons]
      simp only [List.getD_cons_zero] at hne
      exact crcFold_inj_seed xs hxs _ _ (table_lt _ (xor_byte_lt hr hv))
        (table_lt _ (xor_byte_lt hr hx)) (fun e => hne (crcStep_inj_right hr hv hx e))
    | succ j =>
      simp only [List.set_cons_succ, List.foldl_cons]
      simp only [List.getD_cons_succ] at hne
      exact ih hxs j (by simpa using hi) hne _ (table_lt _ (xor_byte_lt hr hx))

/-! ## Byte transport -/

theorem ReadByteLoop_lt {σ : Type} (bus : Bus σ) (n data : Nat) (b : σ) (h : data < 256) :
    (ReadByteLoop bus n data b).1 < 256 := by
  induction n generalizing data b with
  | zero => simpa [ReadByteLoop] using h
  | succ n ih =>
    simp only [ReadByteLoop]
    apply ih
    have h1 : data >>> 1 < 2 ^ 8 := by
      rw [Nat.shiftRight_eq_div_pow]; omega
    split
    · exact Nat.or_lt_two_pow h1 (by decide)
    · exact h1

theorem ReadByte_lt {σ : Type} (bus : Bus σ) (b : σ) : (ReadByte bus b).1 < 256 :=
  ReadByteLoop_lt bus 8 0 b (by decide)

theorem ReadBytes_lt {σ : Type} (bus : Bus σ) (n : Nat) (b : σ) :
    ∀ x ∈ (ReadBytes bus n b).1, x < 256 := by
  induction n generalizing b with
  | zero => simp [ReadBytes]
  | succ n ih =>
    intro x hx
    simp only [ReadBytes, List.mem_cons] at hx
    rcases hx with rfl | hx
    · exact ReadByte_lt bus b
    · exact ih _ x hx

theorem ReadBytes_two {σ : Type} (bus : Bus σ) (b : σ) :
    ReadBytes bus 2 b =
      ([(ReadByte bus b).1, (ReadByte bus (ReadByte bus b).2).1],
        (ReadByte bus (ReadByte bus b).2).2) := rfl

/-! ## The sensor loop of the READ step -/

theorem readLoop_target {σ : Type} (bus : Bus σ) (s : Dallas) (k : Nat)
    (hfam : isTmpFamily (getChartByte s.DallasChart k 0) = true)
    (hidx : s.TmpSensorIndex < 256) :
    ∀ (n dallasNum dallasIndex : Nat) (found : Bool) (b : σ),
      dallasNum ≤ k → k < dallasNum + n → dallasNum + n ≤ 256 →
      dallasIndex + (List.range' dallasNum (k - dallasNum)).countP
        (fun i => isTmpFamily (getChartByte s.DallasChart i 0)) = s.TmpSensorIndex →
      (bus.touchReset b).1 = true →
      readLoop bus s n dallasNum dallasIndex found b =
        { rejected :=
            !decide ((readTemperature bus (getChartByte s.DallasChart k 0)
              (addressForRead bus s k b)).1 < 85)
          found := true
          temperature :=
            some (readTemperature bus (getChartByte s.DallasChart k 0)
              (addressForRead bus s k b)).1
          env :=
            (readTemperature bus (getChartByte s.DallasChart k 0)
              (addressForRead bus s k b)).2 } := by
  intro n
  induction n with
  | zero => intro dallasNum dallasIndex found b h1 h2; omega
  | succ n ih =>
    intro dallasNum dallasIndex found b h1 h2 h3 h4 hp
    rcases Nat.eq_or_lt_of_le h1 with heq | hlt
    · subst heq
      simp only [Nat.sub_self, List.range'_zero, List.countP_nil, Nat.add_zero] at h4
      have hfam2 : isTmpFamily ((s.DallasChart.getD dallasNum []).getD 0 0) = true := hfam
      simp only [readLoop, hfam2, h4, hp, if_true, getChartByte, addressForRead]
      split <;> simp_all
    · have hk : k - dallasNum = (k - (dallasNum + 1)) + 1 := by omega
      rw [hk, List.range'_succ, List.countP_cons] at h4
      have hmod : (dallasNum + 1) % 256 = dallasNum + 1 := Nat.mod_eq_of_lt (by omega)
      simp only [readLoop, hmod]
      by_cases hf : isTmpFamily ((s.DallasChart.getD dallasNum []).getD 0 0) = true
      · have hf2 : isTmpFamily (getChartByte s.DallasChart dallasNum 0) = true := hf
        simp only [hf2, if_true] at h4
        have hne : dallasIndex ≠ s.TmpSensorIndex := by omega
        have hmod2 : (dallasIndex + 1) % 256 = dallasIndex + 1 := Nat.mod_eq_of_lt (by omega)
        simp only [hf, if_true, hne, if_false, hmod2]
        exact ih _ _ _ _ (by omega) (by omega) (by omega) (by omega) hp
      · have hf2 : ¬ isTmpFamily (getChartByte s.DallasChart dallasNum 0) = true := hf
        simp only [hf2, if_false, Nat.add_zero] at h4
        simp only [hf, if_false]
        exact ih _ _ _ _ (by omega) (by omega) (by omega) h4 hp

/-! ## Decoding -/

theorem toInt16_of_range {t : Int} (h1 : -32768 ≤ t) (h2 : t < 32768) : toInt16 t = t := by
  unfold toInt16; omega

theorem toInt16_range (n : Int) : -32768 ≤ toInt16 n ∧ toInt16 n < 32768 := by
  unfold toInt16; omega

theorem toInt16_shift (n : Int) (k : Nat) : toInt16 (toInt16 n >>> k) = toInt16 n >>> k := by
  have h := toInt16_range n
  have hpos : (0 : Int) < 2 ^ k := by positivity
  have hone : (1 : Int) ≤ 2 ^ k := by exact_mod_cast Nat.one_le_two_pow
  apply toInt16_of_range
  · rw [Int.shiftRight_eq_div_pow]
    have : (-32768 : Int) ≤ toInt16 n / 2 ^ k := by
      rw [Int.le_ediv_iff_mul_le hpos]
      nlinarith [h.1]
    simpa using this
  · rw [Int.shiftRight_eq_div_pow]
    have : toInt16 n / 2 ^ k < 32768 := by
      rw [Int.ediv_lt_iff_lt_mul hpos]
      nlinarith [h.2]
    simpa using this

theorem lor_shift8 {b0 b1 : Nat} (h0 : b0 < 256) : (b1 <<< 8) ||| b0 = 256 * b1 + b0 := by
  rw [Nat.shiftLeft_eq, Nat.mul_comm]
  exact (Nat.mul_add_lt_is_or (i := 8) h0 b1).symm

/-! ## The READ step -/

theorem tmpRank_le (chart : List (List Nat)) (k : Nat) : tmpRank chart k ≤ k := by
  unfold tmpRank
  calc (List.range' 0 k).countP (fun i => isTmpFamily (getChartByte chart i 0))
      ≤ (List.range' 0 k).length := List.countP_le_length _
    _ = k := List.length_range' _ _ _

theorem Execute_read_target {σ : Type} (w : World σ) (s : Dallas) (b : σ) (k : Nat)
    (hstep : s.Step = Step_t.READ_TMP) (hsize : s.DallasChartSize < 256)
    (hk : k < s.DallasChartSize)
    (hfam : isTmpFamily (getChartByte s.DallasChart k 0) = true)
    (hrank : tmpRank s.DallasChart k = s.TmpSensorIndex)
    (hel : (w.convertTimerElapsed b).1 = true)
    (hp : (w.touchReset (w.convertTimerElapsed b).2).1 = true) :
    Execute w s b =
      if (readTemperature w.toBus (getChartByte s.DallasChart k 0)
          (addressForRead w.toBus s k (w.convertTimerElapsed b).2)).1 < 85 then
        (advanceCursor s,
          (readTemperature w.toBus (getChartByte s.DallasChart k 0)
            (addressForRead w.toBus s k (w.convertTimerElapsed b).2)).2)
      else
        ({ s with ForceRenew := true, TmpSensorIndex := 0, Step := Step_t.SCAN_NET },
          (readTemperature w.toBus (getChartByte s.DallasChart k 0)
            (addressForRead w.toBus s k (w.convertTimerElapsed b).2)).2) := by
  have hne : s.DallasChartSize ≠ 0 := by omega
  have hidx : s.TmpSensorIndex < 256 := by
    have := tmpRank_le s.DallasChart k
    omega
  have hloop := readLoop_target w.toBus s k hfam hidx s.DallasChartSize 0 0 false
    (w.convertTimerElapsed b).2 (Nat.zero_le _) (by omega) (by omega)
    (by simpa [tmpRank] using hrank) hp
  unfold Execute
  simp only [hstep, hne, if_false, hel, if_true, hloop]
  by_cases ht : (readTemperature w.toBus (getChartByte s.DallasChart k 0)
      (addressForRead w.toBus s k (w.convertTimerElapsed b).2)).1 < 85 <;> simp [ht]

theorem readTemperature_legacy {σ : Type} (bus : Bus σ) (b : σ) :
    readTemperature bus DS1820_FAMILY_CODE b =
      if GetCRC (ReadBytes bus 9 b).1 8 = (ReadBytes bus 9 b).1.getD 8 0 then
        (toInt16 ((((ReadBytes bus 9 b).1.getD 1 0 <<< 8) |||
            (ReadBytes bus 9 b).1.getD 0 0 : Nat) : Int) >>> (1 : Nat), (ReadBytes bus 9 b).2)
      else (0x7FFF, (ReadBytes bus 9 b).2) := by
  unfold readTemperature
  simp only [if_true, toInt16_shift]

theorem readTemperature_configurable {σ : Type} (bus : Bus σ) (b : σ) :
    readTemperature bus DS18B20_FAMILY_CODE b =
      (toInt16 ((((ReadBytes bus 2 b).1.getD 0 0) |||
          ((ReadBytes bus 2 b).1.getD 1 0 <<< 8) : Nat) : Int) >>> (4 : Nat), (ReadBytes bus 2 b).2) := by
  unfold readTemperature
  have h : DS18B20_FAMILY_CODE ≠ DS1820_FAMILY_CODE := by decide
  simp only [h, if_false, if_true, toInt16_shift, ReadBytes_two, List.getD_cons_zero,
    List.getD_cons_succ]

/-- C7 (counterexample). A legacy scratchpad that starts with 0x50, 0x05 and
carries the right checksum decodes to 680, not to 85. -/
theorem legacy_example_not_85 :
    CalcCRC [0x50, 0x05, 0, 0, 0, 0, 0, 0, 0xD4] 8 = 0xD4 ∧
      (ReadBytes scriptBus 9 (bitsOfBytes [0x50, 0x05, 0, 0, 0, 0, 0, 0, 0xD4])).1 =
        [0x50, 0x05, 0, 0, 0, 0, 0, 0, 0xD4] ∧
      (readTemperature scriptBus DS1820_FAMILY_CODE
        (bitsOfBytes [0x50, 0x05, 0, 0, 0, 0, 0, 0, 0xD4])).1 = 680 ∧
      (readTemperature scriptBus DS1820_FAMILY_CODE
        (bitsOfBytes [0x50, 0x05, 0, 0, 0, 0, 0, 0, 0xD4])).1 ≠ 85 := by
  decide!

theorem toInt16_natCast (n : Nat) (h : n < 65536) :
    toInt16 (n : Int) = if n < 32768 then (n : Int) else (n : Int) - 65536 := by
  unfold toInt16
  split <;> omega

theorem shiftRight_eq_fdiv (t : Int) (k : Nat) : t >>> k = Int.fdiv t (2 ^ k) := by
  rw [Int.shiftRight_eq_div_pow, Int.fdiv_eq_ediv _ (by positivity)]
  norm_cast

/-- C7 (amended). In the READ step for a legacy-family device, a 9-byte
scratchpad whose ninth byte is the checksum of the first eight decodes to the
signed 16-bit value `(bytes[1] << 8 | bytes[0])` arithmetic-shifted right by 1
(floor division by 2); when the first two bytes are 0x50, 0x05 that is 680. -/
theorem legacy_decode {σ : Type} (bus : Bus σ) (b : σ)
    (hcrc : CalcCRC (ReadBytes bus 9 b).1 8 = (ReadBytes bus 9 b).1.getD 8 0) :
    (readTemperature bus DS1820_FAMILY_CODE b).1 =
        toInt16 ((((ReadBytes bus 9 b).1.getD 1 0 <<< 8) |||
          (ReadBytes bus 9 b).1.getD 0 0 : Nat) : Int) >>> (1 : Nat) ∧
      (readTemperature bus DS1820_FAMILY_CODE b).1 =
        Int.fdiv (toInt16 ((256 * (ReadBytes bus 9 b).1.getD 1 0 +
          (ReadBytes bus 9 b).1.getD 0 0 : Nat) : Int)) 2 ∧
      ((ReadBytes bus 9 b).1.getD 0 0 = 0x50 → (ReadBytes bus 9 b).1.getD 1 0 = 0x05 →
        (readTemperature bus DS1820_FAMILY_CODE b).1 = 680) := by
  have h0 : (ReadBytes bus 9 b).1.getD 0 0 < 256 := by
    have hmem : (ReadBytes bus 9 b).1.getD 0 0 ∈ (ReadBytes bus 9 b).1 := by
      simp [ReadBytes]
    exact ReadBytes_lt bus 9 b _ hmem
  have hval : (readTemperature bus DS1820_FAMILY_CODE b).1 =
      toInt16 ((((ReadBytes bus 9 b).1.getD 1 0 <<< 8) |||
        (ReadBytes bus 9 b).1.getD 0 0 : Nat) : Int) >>> (1 : Nat) := by
    have hcrc2 : GetCRC (ReadBytes bus 9 b).1 8 = (ReadBytes bus 9 b).1.getD 8 0 := hcrc
    rw [readTemperature_legacy, if_pos hcrc2]
  refine ⟨hval, ?_, ?_⟩
  · rw [hval, lor_shift8 h0, shiftRight_eq_fdiv]; rfl
  · intro e0 e1
    rw [hval, e0, e1]
    decide

theorem legacy_decode_witness :
    CalcCRC (ReadBytes scriptBus 9 (bitsOfBytes [0xAA, 0x00, 0x4B, 0x46, 0xFF, 0xFF, 0x0C, 0x10, 0x87])).1 8
        = (ReadBytes scriptBus 9
            (bitsOfBytes [0xAA, 0x00, 0x4B, 0x46, 0xFF, 0xFF, 0x0C, 0x10, 0x87])).1.getD 8 0 ∧
      (readTemperature scriptBus DS1820_FAMILY_CODE
        (bitsOfBytes [0xAA, 0x00, 0x4B, 0x46, 0xFF, 0xFF, 0x0C, 0x10, 0x87])).1 =
        Int.fdiv (toInt16 ((256 * 0 + 0xAA : Nat) : Int)) 2 :=
  ⟨by decide!,
    (legacy_decode scriptBus
      (bitsOfBytes [0xAA, 0x00, 0x4B, 0x46, 0xFF, 0xFF, 0x0C, 0x10, 0x87]) (by decide!)).2.1⟩

/-- C8. Corruption of a legacy scratchpad is always detected: when the ninth
byte of a 9-byte scratchpad is the CRC of its first eight bytes, replacing any
one of the first eight bytes by a different byte makes the CRC of the first
eight differ from the ninth; the READ step, reading such a scratchpad from a
found and present legacy-family target, keeps the invalid marker 0x7FFF and
discards the reading (ForceRenew set, cursor reset, back to SCAN_NET). -/
theorem legacy_corruption_detected {σ : Type} (w : World σ) (s : Dallas) (b : σ) (k : Nat)
    (sp : List Nat) (i v : Nat)
    (hlen : sp.length = 9) (hbytes : ∀ x ∈ sp, x < 256)
    (hcrc : CalcCRC sp 8 = sp.getD 8 0)
    (hi : i < 8) (hv : v < 256) (hne : v ≠ sp.getD i 0)
    (hstep : s.Step = Step_t.READ_TMP) (hsize : s.DallasChartSize < 256)
    (hk : k < s.DallasChartSize)
    (hfam : getChartByte s.DallasChart k 0 = DS1820_FAMILY_CODE)
    (hrank : tmpRank s.DallasChart k = s.TmpSensorIndex)
    (hel : (w.convertTimerElapsed b).1 = true)
    (hp : (w.touchReset (w.convertTimerElapsed b).2).1 = true)
    (hread : (ReadBytes w.toBus 9
      (addressForRead w.toBus s k (w.convertTimerElapsed b).2)).1 = sp.set i v) :
    CalcCRC (sp.set i v) 8 ≠ (sp.set i v).getD 8 0 ∧
      (readTemperature w.toBus DS1820_FAMILY_CODE
        (addressForRead w.toBus s k (w.convertTimerElapsed b).2)).1 = 0x7FFF ∧
      Execute w s b =
        ({ s with ForceRenew := true, TmpSensorIndex := 0, Step := Step_t.SCAN_NET },
          (ReadBytes w.toBus 9 (addressForRead w.toBus s k (w.convertTimerElapsed b).2)).2) := by
  have hbad : GetCRC (sp.set i v) 8 ≠ (sp.set i v).getD 8 0 := by
    have h8 : (sp.set i v).getD 8 0 = sp.getD 8 0 := by
      rw [List.getD_eq_getElem?_getD, List.getD_eq_getElem?_getD,
        List.getElem?_set_ne (by omega)]
    have hcrc2 : GetCRC sp 8 = sp.getD 8 0 := hcrc
    rw [h8, ← hcrc2]
    unfold GetCRC CalcCRC
    rw [List.set_take]
    have htake : ∀ x ∈ sp.take 8, x < 256 := fun x hx => hbytes x (List.mem_of_mem_take hx)
    have hget : (sp.take 8).getD i 0 = sp.getD i 0 := by
      rw [List.getD_eq_getElem?_getD, List.getD_eq_getElem?_getD, List.getElem?_take_of_lt hi]
    exact crcFold_set_ne (sp.take 8) htake i v (by simp [hlen]; omega) hv
      (by rw [hget]; exact hne) 0 (by decide)
  have htemp : readTemperature w.toBus DS1820_FAMILY_CODE
      (addressForRead w.toBus s k (w.convertTimerElapsed b).2) =
      (0x7FFF, (ReadBytes w.toBus 9
        (addressForRead w.toBus s k (w.convertTimerElapsed b).2)).2) := by
    rw [readTemperature_legacy, hread, if_neg hbad]
  refine ⟨hbad, by rw [htemp], ?_⟩
  have hfam2 : isTmpFamily (getChartByte s.DallasChart k 0) = true := by
    rw [hfam]; decide
  rw [Execute_read_target w s b k hstep hsize hk hfam2 hrank hel hp, hfam, htemp]
  simp

set_option maxRecDepth 100000 in
theorem legacy_corruption_detected_witness :
    CalcCRC [0xAA, 0x00, 0x4B, 0x46, 0xFF, 0xFF, 0x0C, 0x10, 0x87] 8 = 0x87 ∧
      Execute scriptWorld (oneSensor 0x10 1)
          (bitsOfBytes ([0xAA, 0x00, 0x4B, 0x46, 0xFF, 0xFF, 0x0C, 0x10, 0x87].set 0 0xAB)) =
        ({ oneSensor 0x10 1 with
            ForceRenew := true, TmpSensorIndex := 0, Step := Step_t.SCAN_NET }, []) :=
  ⟨by decide!,
    (legacy_corruption_detected scriptWorld (oneSensor 0x10 1)
      (bitsOfBytes ([0xAA, 0x00, 0x4B, 0x46, 0xFF, 0xFF, 0x0C, 0x10, 0x87].set 0 0xAB)) 0
      [0xAA, 0x00, 0x4B, 0x46, 0xFF, 0xFF, 0x0C, 0x10, 0x87] 0 0xAB
      (by decide) (by decide) (by decide!) (by decide) (by decide) (by decide)
      (by decide) (by decide) (by decide) (by decide!) (by decide!)
      (by decide) (by decide) (by decide!)).2.2⟩

theorem advanceCursor_ForceRenew (s : Dallas) : (advanceCursor s).ForceRenew = s.ForceRenew := by
  unfold advanceCursor
  dsimp only
  split <;> rfl

theorem advanceCursor_TmpSensorIndex (s : Dallas) (h : s.TmpSensorIndex < 255) :
    (advanceCursor s).TmpSensorIndex =
      if s.TmpSensorIndex + 1 = s.TmpSensorCount then 0 else s.TmpSensorIndex + 1 := by
  have hmod : (s.TmpSensorIndex + 1) % 256 = s.TmpSensorIndex + 1 := Nat.mod_eq_of_lt (by omega)
  unfold advanceCursor
  simp only [hmod]
  split <;> simp_all

theorem advanceCursor_Step (s : Dallas) (h : s.TmpSensorIndex < 255) :
    (advanceCursor s).Step =
      if s.TmpSensorIndex + 1 = s.TmpSensorCount then Step_t.SCAN_NET
      else Step_t.CONVERT_TMP := by
  have hmod : (s.TmpSensorIndex + 1) % 256 = s.TmpSensorIndex + 1 := Nat.mod_eq_of_lt (by omega)
  unfold advanceCursor
  simp only [hmod]
  split <;> simp_all

theorem ReadBytes_two_getD {σ : Type} (bus : Bus σ) (b : σ) (b0 b1 : Nat)
    (h : (ReadBytes bus 2 b).1 = [b0, b1]) :
    (ReadBytes bus 2 b).1.getD 0 0 = b0 ∧ (ReadBytes bus 2 b).1.getD 1 0 = b1 := by
  rw [h]; exact ⟨rfl, rfl⟩

set_option maxRecDepth 100000 in
/-- C9 (counterexample). With a single sensor of family 0x28 in the chart
(`TmpSensorCount = 1`, cursor at 0, Step READ_TMP) the bytes 0x91, 0x01 are
read, decode to 25 and the reading is accepted (ForceRenew stays false), but
the sensor cursor does not advance: it is 0 before the call and 0 after it, and
Step is SCAN_NET. -/
theorem configurable_reading_last_sensor_wraps :
    (ReadBytes scriptBus 2
        (addressForRead scriptBus (oneSensor 0x28 1) 0 (bitsOfBytes [0x91, 0x01]))).1 =
          [0x91, 0x01] ∧
      (readTemperature scriptBus DS18B20_FAMILY_CODE
        (addressForRead scriptBus (oneSensor 0x28 1) 0 (bitsOfBytes [0x91, 0x01]))).1 = 25 ∧
      (oneSensor 0x28 1).ForceRenew = false ∧
      (Execute scriptWorld (oneSensor 0x28 1) (bitsOfBytes [0x91, 0x01])).1.ForceRenew = false ∧
      (oneSensor 0x28 1).TmpSensorIndex = 0 ∧
      (Execute scriptWorld (oneSensor 0x28 1) (bitsOfBytes [0x91, 0x01])).1.TmpSensorIndex = 0 ∧
      (Execute scriptWorld (oneSensor 0x28 1) (bitsOfBytes [0x91, 0x01])).1.Step =
        Step_t.SCAN_NET := by
  decide!

/-- C9 (amended). Configurable-family decode: for every pair of bytes `b0`,
`b1` read from a family-0x28 device the decoded temperature is the signed
16-bit value `(b1 << 8 | b0)` arithmetic-shifted right by 4, which is its floor
division by 16; bytes 0x91, 0x01 decode to 25, and in the READ step on a found
and present target that reading is accepted: ForceRenew keeps its value and the
sensor cursor is incremented by one, after which, if it equals TmpSensorCount,
it is reset to 0 and Step becomes SCAN_NET, and otherwise Step becomes
CONVERT_TMP. -/
theorem configurable_decode {σ : Type} (w : World σ) (s : Dallas) (b : σ) (k : Nat)
    (hstep : s.Step = Step_t.READ_TMP) (hsize : s.DallasChartSize < 256)
    (hk : k < s.DallasChartSize)
    (hfam : getChartByte s.DallasChart k 0 = DS18B20_FAMILY_CODE)
    (hrank : tmpRank s.DallasChart k = s.TmpSensorIndex)
    (hel : (w.convertTimerElapsed b).1 = true)
    (hp : (w.touchReset (w.convertTimerElapsed b).2).1 = true) :
    (∀ (e : σ) (b0 b1 : Nat), (ReadBytes w.toBus 2 e).1 = [b0, b1] →
        (readTemperature w.toBus DS18B20_FAMILY_CODE e).1 =
            toInt16 ((b1 <<< 8 ||| b0 : Nat) : Int) >>> (4 : Nat) ∧
          (readTemperature w.toBus DS18B20_FAMILY_CODE e).1 =
            Int.fdiv (if 256 * b1 + b0 < 32768 then ((256 * b1 + b0 : Nat) : Int)
              else ((256 * b1 + b0 : Nat) : Int) - 65536) 16) ∧
      ((ReadBytes w.toBus 2 (addressForRead w.toBus s k (w.convertTimerElapsed b).2)).1
          = [0x91, 0x01] →
        (readTemperature w.toBus DS18B20_FAMILY_CODE
          (addressForRead w.toBus s k (w.convertTimerElapsed b).2)).1 = 25 ∧
        (readLoop w.toBus s s.DallasChartSize 0 0 false (w.convertTimerElapsed b).2).temperature
          = some 25 ∧
        Execute w s b = (advanceCursor s,
          (ReadBytes w.toBus 2 (addressForRead w.toBus s k (w.convertTimerElapsed b).2)).2) ∧
        (Execute w s b).1.ForceRenew = s.ForceRenew ∧
        (Execute w s b).1.TmpSensorIndex =
          (if s.TmpSensorIndex + 1 = s.TmpSensorCount then 0 else s.TmpSensorIndex + 1) ∧
        (Execute w s b).1.Step =
          (if s.TmpSensorIndex + 1 = s.TmpSensorCount then Step_t.SCAN_NET
           else Step_t.CONVERT_TMP)) := by
  have hidx : s.TmpSensorIndex < 255 := by
    have := tmpRank_le s.DallasChart k
    omega
  have hdec : ∀ (e : σ) (b0 b1 : Nat), (ReadBytes w.toBus 2 e).1 = [b0, b1] →
      (readTemperature w.toBus DS18B20_FAMILY_CODE e).1 =
        toInt16 ((b1 <<< 8 ||| b0 : Nat) : Int) >>> (4 : Nat) := by
    intro e b0 b1 h
    obtain ⟨h0, h1⟩ := ReadBytes_two_getD w.toBus e b0 b1 h
    rw [readTemperature_configurable, h0, h1, Nat.lor_comm]
  refine ⟨fun e b0 b1 h => ⟨hdec e b0 b1 h, ?_⟩, ?_⟩
  · have hb0 : b0 < 256 := ReadBytes_lt w.toBus 2 e b0 (by rw [h]; simp)
    have hb1 : b1 < 256 := ReadBytes_lt w.toBus 2 e b1 (by rw [h]; simp)
    rw [hdec e b0 b1 h, lor_shift8 hb0, shiftRight_eq_fdiv,
      toInt16_natCast _ (by omega)]
    rfl
  · intro h
    have ht := hdec _ _ _ h
    have ht25 : (readTemperature w.toBus DS18B20_FAMILY_CODE
        (addressForRead w.toBus s k (w.convertTimerElapsed b).2)).1 = 25 := by
      rw [ht]; decide
    have hfam2 : isTmpFamily (getChartByte s.DallasChart k 0) = true := by
      rw [hfam]; decide
    have hex : Execute w s b = (advanceCursor s,
        (ReadBytes w.toBus 2 (addressForRead w.toBus s k (w.convertTimerElapsed b).2)).2) := by
      rw [Execute_read_target w s b k hstep hsize hk hfam2 hrank hel hp, hfam,
        ht25, readTemperature_configurable]
      simp
    have hloop := readLoop_target w.toBus s k hfam2 (by omega) s.DallasChartSize 0 0 false
      (w.convertTimerElapsed b).2 (Nat.zero_le _) (by omega) (by omega)
      (by simpa [tmpRank] using hrank) hp
    refine ⟨ht25, by rw [hloop, hfam, ht25], hex, ?_, ?_, ?_⟩
    · rw [hex]; exact advanceCursor_ForceRenew s
    · rw [hex]; exact advanceCursor_TmpSensorIndex s hidx
    · rw [hex]; exact advanceCursor_Step s hidx

set_option maxRecDepth 100000 in
theorem configurable_decode_witness :
    (readTemperature scriptBus DS18B20_FAMILY_CODE (bitsOfBytes [0x5E, 0xFF])).1 =
        Int.fdiv (((256 * 0xFF + 0x5E : Nat) : Int) - 65536) 16 ∧
      (Execute scriptWorld (oneSensor 0x28 2) (bitsOfBytes [0x91, 0x01])).1.TmpSensorIndex = 1 :=
  ⟨((configurable_decode scriptWorld (oneSensor 0x28 2) (bitsOfBytes [0x91, 0x01]) 0
      (by decide) (by decide) (by decide) (by decide!) (by decide!)
      (by decide) (by decide)).1 (bitsOfBytes [0x5E, 0xFF]) 0x5E 0xFF (by decide!)).2,
    ((configurable_decode scriptWorld (oneSensor 0x28 2) (bitsOfBytes [0x91, 0x01]) 0
      (by decide) (by decide) (by decide) (by decide!) (by decide!)
      (by decide) (by decide)).2 (by decide!)).2.2.2.2.1⟩

/-- C10 (counterexample). With a single sensor in the chart (`TmpSensorCount = 1`,
cursor at 0) an accepted reading (bytes 0x91, 0x01, which decode to 25 < 85)
leaves the cursor at 0: it has not advanced by one. -/
theorem accepted_reading_cursor_wraps :
    (readTemperature scriptBus (getChartByte (oneSensor 0x28 1).DallasChart 0 0)
        (addressForRead scriptBus (oneSensor 0x28 1) 0 (bitsOfBytes [0x91, 0x01]))).1 = 25 ∧
      (oneSensor 0x28 1).TmpSensorIndex = 0 ∧
      (Execute scriptWorld (oneSensor 0x28 1) (bitsOfBytes [0x91, 0x01])).1.TmpSensorIndex = 0 ∧
      (Execute scriptWorld (oneSensor 0x28 1) (bitsOfBytes [0x91, 0x01])).1.TmpSensorIndex ≠
        (oneSensor 0x28 1).TmpSensorIndex + 1 := by
  decide!

/-- C10 (amended). Sentinel reading forces renewal: in the READ step, for a
found and present target, the reading is rejected exactly when the decoded
value (the local `temperature` of the sensor loop) is at least 85
(configurable-family bytes 0x50, 0x05 decode to 85): then ForceRenew becomes
true, TmpSensorIndex becomes 0 and Step becomes SCAN_NET.
When the decoded value is below 85, ForceRenew is left unchanged and the cursor
is incremented by one; if the incremented value equals TmpSensorCount the
cursor is reset to 0 and Step becomes SCAN_NET, otherwise Step becomes
CONVERT_TMP. -/
theorem sentinel_forces_renewal {σ : Type} (w : World σ) (s : Dallas) (b : σ) (k : Nat)
    (hstep : s.Step = Step_t.READ_TMP) (hsize : s.DallasChartSize < 256)
    (hk : k < s.DallasChartSize)
    (hfam : isTmpFamily (getChartByte s.DallasChart k 0) = true)
    (hrank : tmpRank s.DallasChart k = s.TmpSensorIndex)
    (hel : (w.convertTimerElapsed b).1 = true)
    (hp : (w.touchReset (w.convertTimerElapsed b).2).1 = true) :
    (readLoop w.toBus s s.DallasChartSize 0 0 false (w.convertTimerElapsed b).2).temperature =
        some (readTemperature w.toBus (getChartByte s.DallasChart k 0)
          (addressForRead w.toBus s k (w.convertTimerElapsed b).2)).1 ∧
    (85 ≤ (readTemperature w.toBus (getChartByte s.DallasChart k 0)
          (addressForRead w.toBus s k (w.convertTimerElapsed b).2)).1 →
        Execute w s b =
          ({ s with ForceRenew := true, TmpSensorIndex := 0, Step := Step_t.SCAN_NET },
            (readTemperature w.toBus (getChartByte s.DallasChart k 0)
              (addressForRead w.toBus s k (w.convertTimerElapsed b).2)).2)) ∧
      ((readTemperature w.toBus (getChartByte s.DallasChart k 0)
          (addressForRead w.toBus s k (w.convertTimerElapsed b).2)).1 < 85 →
        (Execute w s b).1.ForceRenew = s.ForceRenew ∧
        (Execute w s b).1.TmpSensorIndex =
          (if s.TmpSensorIndex + 1 = s.TmpSensorCount then 0 else s.TmpSensorIndex + 1) ∧
        (Execute w s b).1.Step =
          (if s.TmpSensorIndex + 1 = s.TmpSensorCount then Step_t.SCAN_NET
           else Step_t.CONVERT_TMP) ∧
        Execute w s b = (advanceCursor s,
          (readTemperature w.toBus (getChartByte s.DallasChart k 0)
            (addressForRead w.toBus s k (w.convertTimerElapsed b).2)).2)) ∧
      (getChartByte s.DallasChart k 0 = DS18B20_FAMILY_CODE →
        (ReadBytes w.toBus 2 (addressForRead w.toBus s k (w.convertTimerElapsed b).2)).1
          = [0x50, 0x05] →
        (readTemperature w.toBus (getChartByte s.DallasChart k 0)
          (addressForRead w.toBus s k (w.convertTimerElapsed b).2)).1 = 85) := by
  have hidx : s.TmpSensorIndex < 255 := by
    have := tmpRank_le s.DallasChart k
    omega
  have hex := Execute_read_target w s b k hstep hsize hk hfam hrank hel hp
  have hloop := readLoop_target w.toBus s k hfam (by omega) s.DallasChartSize 0 0 false
    (w.convertTimerElapsed b).2 (Nat.zero_le _) (by omega) (by omega)
    (by simpa [tmpRank] using hrank) hp
  refine ⟨by rw [hloop], fun h => ?_, fun h => ?_, fun hf hb => ?_⟩
  · rw [hex, if_neg (not_lt.mpr h)]
  · rw [if_pos h] at hex
    refine ⟨?_, ?_, ?_, hex⟩
    · rw [hex]; exact advanceCursor_ForceRenew s
    · rw [hex]; exact advanceCursor_TmpSensorIndex s hidx
    · rw [hex]; exact advanceCursor_Step s hidx
  · obtain ⟨h0, h1⟩ := ReadBytes_two_getD w.toBus _ _ _ hb
    rw [hf, readTemperature_configurable, h0, h1]
    show toInt16 ((0x50 ||| 0x05 <<< 8 : Nat) : Int) >>> (4 : Nat) = 85
    decide

set_option maxRecDepth 100000 in
theorem sentinel_forces_renewal_witness :
    Execute scriptWorld (oneSensor 0x28 3) (bitsOfBytes [0x50, 0x05]) =
      ({ oneSensor 0x28 3 with
          ForceRenew := true, TmpSensorIndex := 0, Step := Step_t.SCAN_NET }, []) :=
  (sentinel_forces_renewal scriptWorld (oneSensor 0x28 3) (bitsOfBytes [0x50, 0x05]) 0
    (by decide) (by decide) (by decide) (by decide!) (by decide!)
    (by decide) (by decide)).2.1 (by decide!)

/-! ## The search cycle: what a pass leaves alone -/

theorem Dallas.sameBut_refl (s : Dallas) : s.sameBut s := rfl

theorem Dallas.sameBut_trans {a b c : Dallas} (h1 : a.sameBut b) (h2 : b.sameBut c) :
    a.sameBut c := by
  unfold Dallas.sameBut at *
  rw [h2, h1]

theorem searchBit_sameBut {σ : Type} (bus : Bus σ) (byteNum bitNum : Nat)
    (st : Dallas × Nat × σ) : st.1.sameBut (searchBit bus byteNum bitNum st).1 := by
  unfold searchBit Dallas.sameBut
  dsimp only
  split
  · rfl
  · split
    · rfl
    · split <;> rfl

theorem foldl_sameBut {σ α : Type} (f : Dallas × Nat × σ → α → Dallas × Nat × σ)
    (hf : ∀ (st : Dallas × Nat × σ) (a : α), st.1.sameBut (f st a).1) (l : List α) (st : Dallas × Nat × σ) :
    st.1.sameBut (l.foldl f st).1 := by
  induction l generalizing st with
  | nil => exact Dallas.sameBut_refl _
  | cons a l ih => exact Dallas.sameBut_trans (hf st a) (ih _)

theorem searchByte_sameBut {σ : Type} (bus : Bus σ) (byteNum : Nat)
    (st : Dallas × Nat × σ) : st.1.sameBut (searchByte bus byteNum st).1 :=
  foldl_sameBut _ (fun st a => searchBit_sameBut bus byteNum a st) _ st

theorem searchPass_sameBut {σ : Type} (bus : Bus σ) (st : Dallas × Nat × σ) :
    st.1.sameBut (searchPass bus st).1 :=
  foldl_sameBut _ (fun st a => searchByte_sameBut bus a st) _ st

theorem sameBut_size {s s' : Dallas} (h : s.sameBut s') :
    s'.DallasChartSize = s.DallasChartSize := by
  rw [h]

theorem sameBut_Route {s s' : Dallas} (h : s.sameBut s') : s'.Route = s.Route := by
  rw [h]

theorem discover_size {σ : Type} (bus : Bus σ) (advFuel : Nat) (s : Dallas) (b : σ) :
    (discover bus advFuel s b).1.DallasChartSize = (s.DallasChartSize + 1) % 256 := by
  have h := sameBut_size (searchPass_sameBut bus
    ({ s with DallasChart := s.DallasChart.set s.DallasChartSize zeros8 }, 0,
      WriteByte bus CMD_SEARCH_ROM b))
  simp only [discover]
  rw [h]

/-! ## Fuel -/

theorem routeAdvance_fuel (RouteMask : List Nat) (limit : Nat) (hl : limit < 16) :
    ∀ (fuel k Route route : Nat), route ≤ limit + 1 →
      (16 - Route) * 17 + (limit + 1 - route) < fuel →
      routeAdvance RouteMask limit (fuel + k) Route route =
        routeAdvance RouteMask limit fuel Route route := by
  intro fuel
  induction fuel with
  | zero => intro k Route route _ h; omega
  | succ fuel ih =>
    intro k Route route hr hm
    rw [show fuel + 1 + k = (fuel + k) + 1 by omega]
    simp only [routeAdvance]
    by_cases h16 : Route < 16
    · simp only [h16, if_true]
      by_cases hgt : route > limit
      · simp only [hgt, if_true]
      · simp only [hgt, if_false]
        have hmod1 : (Route + 1) % 256 = Route + 1 := Nat.mod_eq_of_lt (by omega)
        have hmod2 : (route + 1) % 256 = route + 1 := Nat.mod_eq_of_lt (by omega)
        rw [hmod1, hmod2]
        split
        · exact ih k _ _ (by omega) (by omega)
        · exact ih k _ _ (by omega) (by omega)
    · simp only [h16, if_false]

theorem discover_fuel {σ : Type} (bus : Bus σ) (s : Dallas) (b : σ) (m : Nat)
    (hR : s.Route < 16) (hm : routeFuel ≤ m) :
    discover bus m s b = discover bus routeFuel s b := by
  have hroute := sameBut_Route (searchPass_sameBut bus
    ({ s with DallasChart := s.DallasChart.set s.DallasChartSize zeros8 }, 0,
      WriteByte bus CMD_SEARCH_ROM b))
  obtain ⟨k, rfl⟩ := Nat.exists_eq_add_of_le hm
  simp only [discover]
  rw [hroute]
  have hmod : (s.Route + 1) % 256 = s.Route + 1 := Nat.mod_eq_of_lt (by omega)
  simp only [hmod]
  rw [routeAdvance_fuel _ s.Route hR routeFuel k (s.Route + 1) 0 (by omega)
    (by unfold routeFuel; omega)]

theorem searchCycle_advFuel {σ : Type} (bus : Bus σ) (d m : Nat) (hm : routeFuel ≤ m) :
    ∀ (fuel : Nat) (s : Dallas) (fork : Nat) (b : σ),
      searchCycle bus m d fuel s fork b = searchCycle bus routeFuel d fuel s fork b := by
  intro fuel
  induction fuel with
  | zero => intro s fork b; rfl
  | succ fuel ih =>
    intro s fork b
    simp only [searchCycle]
    split
    · rename_i hg
      rw [discover_fuel bus s _ m hg.2.1 hm]
      split
      · exact ih _ _ _
      · rfl
    · rfl

theorem searchCycle_fuel {σ : Type} (bus : Bus σ) (advFuel d : Nat) :
    ∀ (fuel k : Nat) (s : Dallas) (fork : Nat) (b : σ),
      d ≤ s.DallasChartSize → 4 ≤ fuel + (s.DallasChartSize - d) →
      searchCycle bus advFuel d (fuel + k) s fork b =
        searchCycle bus advFuel d fuel s fork b := by
  intro fuel
  induction fuel with
  | zero =>
    intro k s fork b hd h
    cases k with
    | zero => rfl
    | succ k =>
      simp only [Nat.zero_add, searchCycle]
      rw [if_neg (by omega)]
  | succ fuel ih =>
    intro k s fork b hd h
    rw [show fuel + 1 + k = (fuel + k) + 1 by omega]
    simp only [searchCycle]
    split
    · rename_i hg
      have h8 : s.DallasChartSize < 8 := hg.2.2.1
      have h4 : s.DallasChartSize - d < 4 := hg.1
      split
      · have hsz : (discover bus advFuel s (bus.touchReset b).2).1.DallasChartSize =
            s.DallasChartSize + 1 := by
          rw [discover_size, Nat.mod_eq_of_lt (by omega)]
        apply ih
        · rw [hsz]; omega
        · rw [hsz]; omega
      · rfl
    · rfl

/-- The fuel of `ScanNet` is enough: more fuel for either loop changes nothing. -/
theorem ScanNetFuel_eq {σ : Type} (bus : Bus σ) (n m : Nat) (hn : 4 ≤ n)
    (hm : routeFuel ≤ m) (s : Dallas) (b : σ) :
    ScanNetFuel bus n m s b = ScanNet bus s b := by
  have h : scanSearch bus n m s b = scanSearch bus 4 routeFuel s b := by
    obtain ⟨k, rfl⟩ := Nat.exists_eq_add_of_le hn
    simp only [scanSearch]
    rw [searchCycle_advFuel bus _ m hm, searchCycle_fuel bus routeFuel _ 4 k _ _ _ (Nat.le_refl _) (by omega)]
  simp only [ScanNet, ScanNetFuel, h]

/-! ## Bounded work per call -/

theorem searchCycle_size_le {σ : Type} (bus : Bus σ) (advFuel d : Nat) :
    ∀ (fuel : Nat) (s : Dallas) (fork : Nat) (b : σ),
      d ≤ s.DallasChartSize → s.DallasChartSize ≤ d + 4 →
      s.DallasChartSize ≤ (searchCycle bus advFuel d fuel s fork b).1.DallasChartSize ∧
        (searchCycle bus advFuel d fuel s fork b).1.DallasChartSize ≤ d + 4 := by
  intro fuel
  induction fuel with
  | zero => intro s fork b _ h; exact ⟨Nat.le_refl _, h⟩
  | succ fuel ih =>
    intro s fork b hd h
    simp only [searchCycle]
    split
    · rename_i hg
      have h8 : s.DallasChartSize < 8 := hg.2.2.1
      have h4 : s.DallasChartSize - d < 4 := hg.1
      split
      · have hsz : (discover bus advFuel s (bus.touchReset b).2).1.DallasChartSize =
            s.DallasChartSize + 1 := by
          rw [discover_size, Nat.mod_eq_of_lt (by omega)]
        have := ih (discover bus advFuel s (bus.touchReset b).2).1
          (discover bus advFuel s (bus.touchReset b).2).2.1
          (discover bus advFuel s (bus.touchReset b).2).2.2
          (by rw [hsz]; omega) (by rw [hsz]; omega)
        rw [hsz] at this
        exact ⟨by omega, this.2⟩
      · exact ⟨Nat.le_refl _, h⟩
    · exact ⟨Nat.le_refl _, h⟩

theorem ScanNetFuel_size {σ : Type} (bus : Bus σ) (n m : Nat) (s : Dallas) (b : σ) :
    (ScanNetFuel bus n m s b).2.1.DallasChartSize =
      (scanSearch bus n m s b).1.DallasChartSize := by
  simp only [ScanNetFuel]
  split
  · rfl
  · split
    · rfl
    · split <;> rfl

theorem ScanNet_size_le {σ : Type} (bus : Bus σ) (s : Dallas) (b : σ) :
    (s.Route ≠ 0 →
        (ScanNet bus s b).2.1.DallasChartSize ≤ s.DallasChartSize + 4) ∧
      (s.Route = 0 → (ScanNet bus s b).2.1.DallasChartSize ≤ 4) := by
  refine ⟨fun h => ?_, fun h => ?_⟩
  · unfold ScanNet
    rw [ScanNetFuel_size]
    simp only [scanSearch, h, if_false]
    exact (searchCycle_size_le bus routeFuel _ 4 s 0xFF b (Nat.le_refl _) (by omega)).2
  · unfold ScanNet
    rw [ScanNetFuel_size]
    simp only [scanSearch, h, if_true]
    exact (searchCycle_size_le bus routeFuel _ 4 _ 0xFF b (Nat.le_refl _) (by simp)).2

/-- C4. Bounded work per call, for every starting state and every bus
behaviour: the search cycle of one call to `Dallas::ScanNet` runs at most 4
times (giving the loop more than 4 iterations of fuel changes nothing, and
each iteration makes at most one discovery pass), so at exit DallasChartSize is
at most its value at entry plus 4 when Route ≠ 0 at entry, and at most 4 when
the call starts a fresh scan (Route = 0 at entry). -/
theorem scan_bounded_work {σ : Type} (bus : Bus σ) (s : Dallas) (b : σ) :
    (∀ n m, 4 ≤ n → routeFuel ≤ m → ScanNetFuel bus n m s b = ScanNet bus s b) ∧
      (s.Route ≠ 0 →
        (ScanNet bus s b).2.1.DallasChartSize ≤ s.DallasChartSize + 4) ∧
      (s.Route = 0 → (ScanNet bus s b).2.1.DallasChartSize ≤ 4) :=
  ⟨fun n m hn hm => ScanNetFuel_eq bus n m hn hm s b, ScanNet_size_le bus s b⟩

/-! ## The CRC check of a finished search -/

theorem GetCRC_nil : GetCRC [] 7 = 0 := rfl

theorem checkCrcLoop_true :
    ∀ (n dallasNum : Nat) (chart chart' : List (List Nat)),
      checkCrcLoop n dallasNum chart = (true, chart') →
      chart' = chart ∧
        ∀ i, dallasNum ≤ i → i < dallasNum + n → addressValid (chart.getD i []) = true := by
  intro n
  induction n with
  | zero =>
    intro dallasNum chart chart' h
    simp only [checkCrcLoop, Prod.mk.injEq, true_and] at h
    exact ⟨h.symm, fun i h1 h2 => by omega⟩
  | succ n ih =>
    intro dallasNum chart chart' h
    simp only [checkCrcLoop] at h
    by_cases hbad : getChartByte chart dallasNum 7 ≠ GetCRC (chart.getD dallasNum []) 7
    · exfalso
      rw [if_pos hbad] at h
      have hlt : dallasNum < chart.length := by
        by_contra hge
        have : chart.getD dallasNum [] = [] := by
          rw [List.getD_eq_getElem?_getD, List.getElem?_eq_none (by omega)]; rfl
        apply hbad
        show (chart.getD dallasNum []).getD 7 0 = GetCRC (chart.getD dallasNum []) 7
        rw [this]
        rfl
      have hz : (chart.set dallasNum zeros8).getD dallasNum [] = zeros8 := by
        rw [List.getD_eq_getElem?_getD, List.getElem?_set_self hlt]; rfl
      rw [hz] at h
      simp [memEq8] at h
    · rw [if_neg hbad] at h
      by_cases hzero : memEq8 (chart.getD dallasNum []) zeros8 = true
      · rw [if_pos hzero] at h
        simp at h
      · rw [if_neg hzero] at h
        obtain ⟨h1, h2⟩ := ih _ _ _ h
        refine ⟨h1, fun i hi1 hi2 => ?_⟩
        rcases Nat.eq_or_lt_of_le hi1 with heq | hlt
        · subst heq
          simp only [addressValid, Bool.and_eq_true, decide_eq_true_eq, Bool.not_eq_true']
          refine ⟨?_, by simpa using hzero⟩
          have := not_not.mp hbad
          simpa [getChartByte] using this
        · exact h2 i (by omega) (by omega)

theorem checkCrcLoop_false :
    ∀ (n dallasNum : Nat) (chart chart' : List (List Nat)),
      checkCrcLoop n dallasNum chart = (false, chart') →
      ∃ j, dallasNum ≤ j ∧ j < dallasNum + n ∧
        (∀ i, dallasNum ≤ i → i < j → addressValid (chart.getD i []) = true) ∧
        addressValid (chart.getD j []) = false ∧
        memEq8 (chart'.getD j []) zeros8 = true ∧
        ∀ i, i ≠ j → chart'.getD i [] = chart.getD i [] := by
  intro n
  induction n with
  | zero =>
    intro dallasNum chart chart' h
    simp [checkCrcLoop] at h
  | succ n ih =>
    intro dallasNum chart chart' h
    simp only [checkCrcLoop] at h
    by_cases hbad : getChartByte chart dallasNum 7 ≠ GetCRC (chart.getD dallasNum []) 7
    · rw [if_pos hbad] at h
      have hlt : dallasNum < chart.length := by
        by_contra hge
        have : chart.getD dallasNum [] = [] := by
          rw [List.getD_eq_getElem?_getD, List.getElem?_eq_none (by omega)]; rfl
        apply hbad
        show (chart.getD dallasNum []).getD 7 0 = GetCRC (chart.getD dallasNum []) 7
        rw [this]
        rfl
      have hz : (chart.set dallasNum zeros8).getD dallasNum [] = zeros8 := by
        rw [List.getD_eq_getElem?_getD, List.getElem?_set_self hlt]; rfl
      rw [hz] at h
      have hm : memEq8 zeros8 zeros8 = true := by decide
      rw [if_pos hm] at h
      simp only [Prod.mk.injEq, true_and] at h
      subst h
      refine ⟨dallasNum, Nat.le_refl _, by omega, fun i h1 h2 => by omega, ?_, ?_, ?_⟩
      · simp only [addressValid, Bool.and_eq_false_iff, decide_eq_false_iff_not]
        left
        intro e
        exact hbad (by simpa [getChartByte] using e)
      · rw [hz]; exact hm
      · intro i hi
        rw [List.getD_eq_getElem?_getD, List.getD_eq_getElem?_getD,
          List.getElem?_set_ne (Ne.symm hi)]
    · rw [if_neg hbad] at h
      by_cases hzero : memEq8 (chart.getD dallasNum []) zeros8 = true
      · rw [if_pos hzero] at h
        simp only [Prod.mk.injEq, true_and] at h
        subst h
        refine ⟨dallasNum, Nat.le_refl _, by omega, fun i h1 h2 => by omega, ?_, hzero,
          fun i _ => rfl⟩
        unfold addressValid
        rw [hzero]
        simp
      · rw [if_neg hzero] at h
        obtain ⟨j, h1, h2, h3, h4⟩ := ih _ _ _ h
        refine ⟨j, by omega, by omega, fun i hi1 hi2 => ?_, h4⟩
        rcases Nat.eq_or_lt_of_le hi1 with heq | hlt
        · subst heq
          simp only [addressValid, Bool.and_eq_true, decide_eq_true_eq, Bool.not_eq_true']
          refine ⟨?_, by simpa using hzero⟩
          have := not_not.mp hbad
          simpa [getChartByte] using this
        · exact h3 i (by omega) hi2

/-- The three ways `ScanNet` ends: search not finished; finished with an
invalid entry; finished and memorised. -/
theorem ScanNet_cases {σ : Type} (bus : Bus σ) (s : Dallas) (b : σ) :
    (scanUnfinished (scanSearch bus 4 routeFuel s b).1 (scanSearch bus 4 routeFuel s b).2.1 = true ∧
        ScanNet bus s b =
          (false, (scanSearch bus 4 routeFuel s b).1, (scanSearch bus 4 routeFuel s b).2.2)) ∨
      (scanUnfinished (scanSearch bus 4 routeFuel s b).1 (scanSearch bus 4 routeFuel s b).2.1 = false ∧
        (checkCrcLoop (scanSearch bus 4 routeFuel s b).1.DallasChartSize 0
          (scanSearch bus 4 routeFuel s b).1.DallasChart).1 = false ∧
        ScanNet bus s b =
          (false,
            { (scanSearch bus 4 routeFuel s b).1 with
              Route := 0
              DallasChart := (checkCrcLoop (scanSearch bus 4 routeFuel s b).1.DallasChartSize 0
                (scanSearch bus 4 routeFuel s b).1.DallasChart).2 },
            (scanSearch bus 4 routeFuel s b).2.2)) ∨
      (scanUnfinished (scanSearch bus 4 routeFuel s b).1 (scanSearch bus 4 routeFuel s b).2.1 = false ∧
        (checkCrcLoop (scanSearch bus 4 routeFuel s b).1.DallasChartSize 0
          (scanSearch bus 4 routeFuel s b).1.DallasChart).1 = true ∧
        (ScanNet bus s b).1 = true ∧
        (ScanNet bus s b).2.1.Route = 0 ∧
        (ScanNet bus s b).2.1.DallasChartSize =
          (scanSearch bus 4 routeFuel s b).1.DallasChartSize ∧
        (ScanNet bus s b).2.1.DallasChart =
          (checkCrcLoop (scanSearch bus 4 routeFuel s b).1.DallasChartSize 0
            (scanSearch bus 4 routeFuel s b).1.DallasChart).2) := by
  unfold ScanNet ScanNetFuel
  dsimp only
  by_cases hu : scanUnfinished (scanSearch bus 4 routeFuel s b).1
      (scanSearch bus 4 routeFuel s b).2.1 = true
  · left
    exact ⟨hu, by rw [if_pos hu]⟩
  · right
    have hu2 : scanUnfinished (scanSearch bus 4 routeFuel s b).1
        (scanSearch bus 4 routeFuel s b).2.1 = false := by simpa using hu
    rw [if_neg hu]
    by_cases hc : (checkCrcLoop (scanSearch bus 4 routeFuel s b).1.DallasChartSize 0
        (scanSearch bus 4 routeFuel s b).1.DallasChart).1 = false
    · left
      exact ⟨hu2, hc, by rw [if_pos hc]⟩
    · right
      have hc2 : (checkCrcLoop (scanSearch bus 4 routeFuel s b).1.DallasChartSize 0
          (scanSearch bus 4 routeFuel s b).1.DallasChart).1 = true := by simpa using hc
      rw [if_neg hc]
      refine ⟨hu2, hc2, ?_⟩
      split <;> exact ⟨rfl, rfl, rfl, rfl⟩

/-- C3 (amended). Validity of a completed scan under any bus behaviour:
whenever `Dallas::ScanNet` returns true, every registry entry below
DallasChartSize has its eighth byte equal to the CRC of the first seven and is
not all-zero.  When the search is finished and some entry fails that test, the
call returns false with Route = 0, the first entry that fails the test is
all-zero afterwards (it is zeroed when its checksum is wrong), no other entry
is changed, and the next call restarts the scan from scratch: it clears
DallasChartSize and RouteMask before searching. -/
theorem scan_validity {σ : Type} (bus : Bus σ) (s : Dallas) (b : σ) :
    ((ScanNet bus s b).1 = true →
        ∀ i < (ScanNet bus s b).2.1.DallasChartSize,
          ((ScanNet bus s b).2.1.DallasChart.getD i []).getD 7 0 =
              CalcCRC ((ScanNet bus s b).2.1.DallasChart.getD i []) 7 ∧
            memEq8 ((ScanNet bus s b).2.1.DallasChart.getD i []) zeros8 = false) ∧
      (scanUnfinished (scanSearch bus 4 routeFuel s b).1
            (scanSearch bus 4 routeFuel s b).2.1 = false →
        ∀ i < (scanSearch bus 4 routeFuel s b).1.DallasChartSize,
          addressValid ((scanSearch bus 4 routeFuel s b).1.DallasChart.getD i []) = false →
          (ScanNet bus s b).1 = false ∧ (ScanNet bus s b).2.1.Route = 0 ∧
            (∃ j ≤ i,
              (∀ i' < j, addressValid
                ((scanSearch bus 4 routeFuel s b).1.DallasChart.getD i' []) = true) ∧
              addressValid ((scanSearch bus 4 routeFuel s b).1.DallasChart.getD j []) = false ∧
              memEq8 ((ScanNet bus s b).2.1.DallasChart.getD j []) zeros8 = true ∧
              ∀ i', i' ≠ j → (ScanNet bus s b).2.1.DallasChart.getD i' [] =
                (scanSearch bus 4 routeFuel s b).1.DallasChart.getD i' []) ∧
            ∀ b', scanSearch bus 4 routeFuel (ScanNet bus s b).2.1 b' =
              searchCycle bus routeFuel 0 4
                { (ScanNet bus s b).2.1 with
                  RouteMask := List.replicate 16 0, DallasChartSize := 0 } 0xFF b') := by
  constructor
  · intro htrue i hi
    rcases ScanNet_cases bus s b with ⟨_, h⟩ | ⟨_, _, h⟩ | ⟨_, hc, _, _, hsz, hch⟩
    · rw [h] at htrue; simp at htrue
    · rw [h] at htrue; simp at htrue
    · have hloop := checkCrcLoop_true _ 0 _ _ (Prod.ext hc rfl)
      rw [hsz] at hi
      have hv := hloop.2 i (Nat.zero_le _) (by omega)
      have hch2 : (ScanNet bus s b).2.1.DallasChart =
          (scanSearch bus 4 routeFuel s b).1.DallasChart := hch.trans hloop.1
      rw [hch2]
      simp only [addressValid, Bool.and_eq_true, decide_eq_true_eq, Bool.not_eq_true'] at hv
      exact hv
  · intro hfin i hi hbad
    rcases ScanNet_cases bus s b with ⟨hu, _⟩ | ⟨_, hc, h⟩ | ⟨_, hc, _, _, _, _⟩
    · rw [hfin] at hu; simp at hu
    · obtain ⟨j, _, hj2, hj3, hj4, hj5, hj6⟩ := checkCrcLoop_false _ 0 _ _ (Prod.ext hc rfl)
      have hji : j ≤ i := by
        by_contra hlt
        have := hj3 i (Nat.zero_le _) (by omega)
        rw [hbad] at this
        simp at this
      rw [h]
      refine ⟨rfl, rfl, ⟨j, hji, fun i' hi' => hj3 i' (Nat.zero_le _) hi', hj4, hj5, hj6⟩, ?_⟩
      intro b'
      simp [scanSearch]
    · exfalso
      have hloop := checkCrcLoop_true _ 0 _ _ (Prod.ext hc rfl)
      have := hloop.2 i (Nat.zero_le _) (by omega)
      rw [hbad] at this
      simp at this

set_option maxRecDepth 1000000 in
/-- C3 (counterexample). On a bus whose two passes record FE FF .. FF and
FF FF .. FF, the finished search holds two entries that fail the checksum; the
call returns false after zeroing the first, and the second one, which fails the
checksum too, is not zeroed. -/
theorem second_failing_entry_not_zeroed :
    scanUnfinished (scanSearch scriptBus 4 routeFuel (Dallas.new (List.replicate 16 0) 0)
        twoBadScript).1
      (scanSearch scriptBus 4 routeFuel (Dallas.new (List.replicate 16 0) 0)
        twoBadScript).2.1 = false ∧
    (ScanNet scriptBus (Dallas.new (List.replicate 16 0) 0) twoBadScript).1 = false ∧
    (ScanNet scriptBus (Dallas.new (List.replicate 16 0) 0) twoBadScript).2.1.DallasChartSize = 2 ∧
    (ScanNet scriptBus (Dallas.new (List.replicate 16 0) 0) twoBadScript).2.1.DallasChart.getD 1 []
      = [255, 255, 255, 255, 255, 255, 255, 255] ∧
    CalcCRC [255, 255, 255, 255, 255, 255, 255, 255] 7 ≠ 255 := by
  decide!

set_option maxRecDepth 1000000 in
theorem scan_validity_witness :
    (ScanNet scriptBus (Dallas.new (List.replicate 16 0) 0) twoBadScript).1 = false ∧
      (ScanNet scriptBus (Dallas.new (List.replicate 16 0) 0) twoBadScript).2.1.Route = 0 :=
  ⟨((scan_validity scriptBus (Dallas.new (List.replicate 16 0) 0) twoBadScript).2
      (by decide!) 1 (by decide!) (by decide!)).1,
    ((scan_validity scriptBus (Dallas.new (List.replicate 16 0) 0) twoBadScript).2
      (by decide!) 1 (by decide!) (by decide!)).2.1⟩

/-! ## Bits of bytes and addresses -/

theorem putBit_lt (x k : Nat) (w : Bool) : putBit x k w < 256 := by
  unfold putBit
  split <;> exact Nat.mod_lt _ (by decide)

theorem putBit_testBit (x k j : Nat) (w : Bool) (_hx : x < 256) (_hk : k < 8) (hj : j < 8) :
    (putBit x k w).testBit j = if j = k then w else x.testBit j := by
  unfold putBit
  have h256 : (256 : Nat) = 2 ^ 8 := rfl
  have hff : (0xFF : Nat) = 2 ^ 8 - 1 := rfl
  cases w
  · simp only [Bool.false_eq_true, if_false]
    rw [h256, Nat.testBit_mod_two_pow, Nat.testBit_and, Nat.testBit_xor, hff,
      Nat.testBit_two_pow_sub_one, Nat.one_shiftLeft, Nat.testBit_two_pow]
    by_cases e : j = k
    · subst e; simp [hj]
    · have : ¬ k = j := fun x => e x.symm
      simp [hj, e, this]
  · simp only [if_true]
    rw [h256, Nat.testBit_mod_two_pow, Nat.testBit_or, Nat.one_shiftLeft, Nat.testBit_two_pow]
    by_cases e : j = k
    · subst e; simp [hj]
    · have : ¬ k = j := fun x => e x.symm
      simp [hj, e, this]

theorem putBit_testBit_all : ∀ x < 256, ∀ k < 8, ∀ j < 8, ∀ w : Bool,
    (putBit x k w).testBit j = if j = k then w else x.testBit j :=
  fun x hx k hk j hj w => putBit_testBit x k j w hx hk hj

theorem land_shift_ne_zero (r f : Nat) : (r &&& (1 <<< f) ≠ 0) ↔ r.testBit f = true := by
  rw [Nat.one_shiftLeft, Nat.and_two_pow]
  cases h : r.testBit f <;> simp [h]

theorem byte_eq_of_testBit {x y : Nat} (hx : x < 256) (hy : y < 256)
    (h : ∀ j < 8, x.testBit j = y.testBit j) : x = y := by
  apply Nat.eq_of_testBit_eq
  intro j
  by_cases hj : j < 8
  · exact h j hj
  · have h1 : x < 2 ^ j := lt_of_lt_of_le hx
      (by
        have : (256 : Nat) = 2 ^ 8 := by norm_num
        rw [this]; exact Nat.pow_le_pow_right (by decide) (by omega))
    have h2 : y < 2 ^ j := lt_of_lt_of_le hy
      (by
        have : (256 : Nat) = 2 ^ 8 := by norm_num
        rw [this]; exact Nat.pow_le_pow_right (by decide) (by omega))
    rw [Nat.testBit_lt_two_pow h1, Nat.testBit_lt_two_pow h2]

theorem addrBit_set (e : List Nat) (byteNum bitNum q : Nat) (w : Bool)
    (hlen : byteNum < e.length) (hb : ∀ x ∈ e, x < 256) (hbit : bitNum < 8) :
    addrBit (e.set byteNum (putBit (e.getD byteNum 0) bitNum w)) q =
      if q = 8 * byteNum + bitNum then w else addrBit e q := by
  unfold addrBit
  by_cases hq : q / 8 = byteNum
  · have hget : (e.set byteNum (putBit (e.getD byteNum 0) bitNum w)).getD (q / 8) 0 =
        putBit (e.getD byteNum 0) bitNum w := by
      rw [hq, List.getD_eq_getElem?_getD, List.getElem?_set_self hlen]; rfl
    have hx : e.getD byteNum 0 < 256 := by
      rw [List.getD_eq_getElem _ _ hlen]
      exact hb _ (List.getElem_mem _)
    rw [hget, putBit_testBit _ _ _ _ hx hbit (Nat.mod_lt _ (by decide)), hq]
    by_cases h2 : q % 8 = bitNum
    · rw [if_pos h2, if_pos (by omega)]
    · rw [if_neg h2, if_neg (by omega)]
  · have hget : (e.set byteNum (putBit (e.getD byteNum 0) bitNum w)).getD (q / 8) 0 =
        e.getD (q / 8) 0 := by
      simp only [List.getD_eq_getElem?_getD]
      rw [List.getElem?_set_ne (Ne.symm hq)]
    rw [hget, if_neg (by omega)]

theorem isAddress_set (e : List Nat) (byteNum v : Nat) (h : isAddress e) (hv : v < 256) :
    isAddress (e.set byteNum v) := by
  refine ⟨by rw [List.length_set]; exact h.1, fun x hx => ?_⟩
  rcases List.mem_or_eq_of_mem_set hx with h1 | h1
  · exact h.2 x h1
  · rw [h1]; exact hv

theorem address_eq_of_bits {a e : List Nat} (ha : isAddress a) (he : isAddress e)
    (h : ∀ q < 64, addrBit a q = addrBit e q) : a = e := by
  apply List.ext_getElem (by rw [ha.1, he.1])
  intro i h1 h2
  have hi : i < 8 := by rw [ha.1] at h1; exact h1
  apply byte_eq_of_testBit (ha.2 _ (List.getElem_mem _)) (he.2 _ (List.getElem_mem _))
  intro j hj
  have := h (8 * i + j) (by omega)
  unfold addrBit at this
  have e1 : (8 * i + j) / 8 = i := by omega
  have e2 : (8 * i + j) % 8 = j := by omega
  rw [e1, e2, List.getD_eq_getElem _ _ h1, List.getD_eq_getElem _ _ h2] at this
  exact this

/-! ## The way to an address through the devices on the bus -/

theorem agreeBelow_succ (a e : List Nat) (p : Nat) :
    agreeBelow a e (p + 1) = (agreeBelow a e p && (addrBit a p == addrBit e p)) := by
  unfold agreeBelow
  rw [List.range_succ, List.all_append]
  simp

theorem agreeBelow_iff (a e : List Nat) (p : Nat) :
    agreeBelow a e p = true ↔ ∀ q < p, addrBit a q = addrBit e q := by
  unfold agreeBelow
  simp [List.all_eq_true]

theorem agreeBelow_congr (a e e' : List Nat) (p : Nat)
    (h : ∀ q < p, addrBit e q = addrBit e' q) : agreeBelow a e p = agreeBelow a e' p := by
  rw [Bool.eq_iff_iff, agreeBelow_iff, agreeBelow_iff]
  constructor
  · intro h1 q hq; rw [h1 q hq, h q hq]
  · intro h1 q hq; rw [h1 q hq, h q hq]

theorem activeAt_congr (S : List (List Nat)) (e e' : List Nat) (p : Nat)
    (h : ∀ q < p, addrBit e q = addrBit e' q) : activeAt S e p = activeAt S e' p := by
  unfold activeAt
  congr 1
  funext a
  exact agreeBelow_congr a e e' p h

theorem activeAt_succ (S : List (List Nat)) (e : List Nat) (p : Nat) :
    activeAt S e (p + 1) = (activeAt S e p).filter (fun a => addrBit a p == addrBit e p) := by
  unfold activeAt
  rw [List.filter_filter]
  congr 1
  funext a
  rw [agreeBelow_succ, Bool.and_comm]

theorem activeAt_zero (S : List (List Nat)) (e : List Nat) : activeAt S e 0 = S := by
  unfold activeAt agreeBelow
  simp

theorem isForkAt_congr (S : List (List Nat)) (e e' : List Nat) (p : Nat)
    (h : ∀ q < p, addrBit e q = addrBit e' q) : isForkAt S e p = isForkAt S e' p := by
  unfold isForkAt
  rw [activeAt_congr S e e' p h]

theorem forksBefore_succ (S : List (List Nat)) (e : List Nat) (p : Nat) :
    forksBefore S e (p + 1) = forksBefore S e p + (if isForkAt S e p = true then 1 else 0) := by
  unfold forksBefore
  rw [List.range_succ, List.countP_append, List.countP_singleton]

theorem forksBefore_le (S : List (List Nat)) (e : List Nat) (p : Nat) :
    forksBefore S e p ≤ p := by
  unfold forksBefore
  calc (List.range p).countP (isForkAt S e) ≤ (List.range p).length := List.countP_le_length _
    _ = p := List.length_range p

theorem forksBefore_congr (S : List (List Nat)) (e e' : List Nat) (p : Nat)
    (h : ∀ q < p, addrBit e q = addrBit e' q) : forksBefore S e p = forksBefore S e' p := by
  induction p with
  | zero => rfl
  | succ p ih =>
    rw [forksBefore_succ, forksBefore_succ, ih (fun q hq => h q (by omega)),
      isForkAt_congr S e e' p (fun q hq => h q (by omega))]

theorem forksBefore_mono (S : List (List Nat)) (e : List Nat) {p q : Nat} (h : p ≤ q) :
    forksBefore S e p ≤ forksBefore S e q := by
  induction q with
  | zero => rw [Nat.le_zero.mp h]
  | succ q ih =>
    rcases Nat.eq_or_lt_of_le h with h1 | h1
    · rw [h1]
    · have := ih (by omega)
      rw [forksBefore_succ]; omega

/-- Every fork number below the count is the number of some fork position. -/
theorem exists_fork_position (S : List (List Nat)) (e : List Nat) (p j : Nat)
    (h : j < forksBefore S e p) :
    ∃ q < p, isForkAt S e q = true ∧ forksBefore S e q = j := by
  induction p with
  | zero => simp [forksBefore] at h
  | succ p ih =>
    rw [forksBefore_succ] at h
    by_cases hj : j < forksBefore S e p
    · obtain ⟨q, hq, h1, h2⟩ := ih hj
      exact ⟨q, by omega, h1, h2⟩
    · by_cases hf : isForkAt S e p = true
      · rw [if_pos hf] at h
        exact ⟨p, by omega, hf, by omega⟩
      · rw [if_neg hf] at h
        omega

/-! ## One bit of a discovery pass on the ideal bus -/

theorem ideal_read_read_write (S A : List (List Nat)) (p : Nat) (w : Bool) (hp : p < 64) :
    (idealBus.readBit (searchingAt S A p)).1 = A.all (fun a => addrBit a p) ∧
      (idealBus.readBit (idealBus.readBit (searchingAt S A p)).2).1 =
        A.all (fun a => !addrBit a p) ∧
      idealBus.writeBit w (idealBus.readBit (idealBus.readBit (searchingAt S A p)).2).2 =
        searchingAt S (A.filter (fun a => addrBit a p == w)) (p + 1) := by
  simp [idealBus, idealReadBit, idealWriteBit, searchingAt, hp]

theorem searchBit_ideal_zero (s : Dallas) (fork : Nat) (S A : List (List Nat))
    (p byteNum bitNum : Nat) (hp : p < 64)
    (h0 : A.all (fun a => addrBit a p) = false) (h1 : A.all (fun a => !addrBit a p) = true) :
    searchBit idealBus byteNum bitNum (s, fork, searchingAt S A p) =
      ({ s with
          DallasChart := (s.DallasChart.set s.DallasChartSize
            ((s.DallasChart.getD s.DallasChartSize []).set byteNum
              (putBit ((s.DallasChart.getD s.DallasChartSize []).getD byteNum 0) bitNum false))) },
        fork, searchingAt S (A.filter (fun a => addrBit a p == false)) (p + 1)) := by
  obtain ⟨r0, r1, r2⟩ := ideal_read_read_write S A p false hp
  simp only [searchBit, r0, r1, h0, h1, and_self, if_true, r2, setChartByte, getChartByte, putBit]
  simp

theorem searchBit_ideal_one (s : Dallas) (fork : Nat) (S A : List (List Nat))
    (p byteNum bitNum : Nat) (hp : p < 64)
    (h0 : A.all (fun a => addrBit a p) = true) (h1 : A.all (fun a => !addrBit a p) = false) :
    searchBit idealBus byteNum bitNum (s, fork, searchingAt S A p) =
      ({ s with
          DallasChart := (s.DallasChart.set s.DallasChartSize
            ((s.DallasChart.getD s.DallasChartSize []).set byteNum
              (putBit ((s.DallasChart.getD s.DallasChartSize []).getD byteNum 0) bitNum true))) },
        fork, searchingAt S (A.filter (fun a => addrBit a p == true)) (p + 1)) := by
  obtain ⟨r0, r1, r2⟩ := ideal_read_read_write S A p true hp
  simp only [searchBit, r0, r1, h0, h1, and_self, if_true, r2, setChartByte, getChartByte, putBit]
  simp

theorem searchBit_ideal_fork (s : Dallas) (fork : Nat) (S A : List (List Nat))
    (p byteNum bitNum : Nat) (hp : p < 64)
    (h : A.all (fun a => addrBit a p) = A.all (fun a => !addrBit a p)) :
    searchBit idealBus byteNum bitNum (s, fork, searchingAt S A p) =
      ({ s with
          RouteMask := (s.RouteMask.set s.Route
            ((s.RouteMask.getD s.Route 0 ||| (1 <<< fork)) % 256))
          DallasChart := (s.DallasChart.set s.DallasChartSize
            ((s.DallasChart.getD s.DallasChartSize []).set byteNum
              (putBit ((s.DallasChart.getD s.DallasChartSize []).getD byteNum 0) bitNum
                (s.Route.testBit fork)))) },
        (fork + 1) % 256,
        searchingAt S (A.filter (fun a => addrBit a p == s.Route.testBit fork)) (p + 1)) := by
  obtain ⟨r0, r1, r2⟩ := ideal_read_read_write S A p (s.Route.testBit fork) hp
  obtain ⟨_, _, r3⟩ := ideal_read_read_write S A p true hp
  obtain ⟨_, _, r4⟩ := ideal_read_read_write S A p false hp
  have hn1 : ¬ (A.all (fun a => addrBit a p) = false ∧ A.all (fun a => !addrBit a p) = true) := by
    rw [h]; intro ⟨a, b⟩; rw [a] at b; exact Bool.noConfusion b
  have hn2 : ¬ (A.all (fun a => addrBit a p) = true ∧ A.all (fun a => !addrBit a p) = false) := by
    rw [h]; intro ⟨a, b⟩; rw [a] at b; exact Bool.noConfusion b
  simp only [searchBit, r0, r1, hn1, hn2, if_false, setChartByte, getChartByte]
  by_cases ht : s.Route.testBit fork = true
  · have hne : s.Route &&& 1 <<< fork ≠ 0 := (land_shift_ne_zero _ _).2 ht
    rw [if_pos hne, r3, ht]
    simp [putBit]
  · have hne : ¬ (s.Route &&& 1 <<< fork ≠ 0) := fun e => ht ((land_shift_ne_zero _ _).1 e)
    have ht2 : s.Route.testBit fork = false := by simpa using ht
    rw [if_neg hne, r4, ht2]
    simp [putBit]

theorem getD_set_self {α : Type} (l : List α) (i : Nat) (x d : α) (h : i < l.length) :
    (l.set i x).getD i d = x := by
  rw [List.getD_eq_getElem?_getD, List.getElem?_set_self h]; rfl

theorem getD_set_ne {α : Type} (l : List α) (i j : Nat) (x d : α) (h : i ≠ j) :
    (l.set i x).getD j d = l.getD j d := by
  simp only [List.getD_eq_getElem?_getD]
  rw [List.getElem?_set_ne h]

/-- One more bit of a discovery pass on the ideal bus: the invariant goes from
bit `8 * byteNum + bitNum` to the next, whatever branch wrote the direction `w`. -/
theorem passInv_step (S : List (List Nat)) (s0 : Dallas) (byteNum bitNum : Nat)
    (st st' : Dallas × Nat × IdealBus) (w isFork : Bool)
    (hbyte : byteNum < 8) (hbit : bitNum < 8)
    (hn : s0.DallasChartSize < s0.DallasChart.length)
    (hr : s0.Route < s0.RouteMask.length)
    (inv : PassInv S s0 (8 * byteNum + bitNum) st)
    (hfork : isForkAt S (st.1.DallasChart.getD s0.DallasChartSize [])
      (8 * byteNum + bitNum) = isFork)
    (hw : ∃ a ∈ activeAt S (st.1.DallasChart.getD s0.DallasChartSize [])
      (8 * byteNum + bitNum), addrBit a (8 * byteNum + bitNum) = w)
    (hroute : isFork = true → w = s0.Route.testBit st.2.1)
    (hsame : st.1.sameBut st'.1)
    (hchart : st'.1.DallasChart = st.1.DallasChart.set s0.DallasChartSize
      ((st.1.DallasChart.getD s0.DallasChartSize []).set byteNum
        (putBit ((st.1.DallasChart.getD s0.DallasChartSize []).getD byteNum 0) bitNum w)))
    (hmask : st'.1.RouteMask =
      if isFork = true then
        st.1.RouteMask.set s0.Route ((st.1.RouteMask.getD s0.Route 0 ||| (1 <<< st.2.1)) % 256)
      else st.1.RouteMask)
    (hf : st'.2.1 = if isFork = true then (st.2.1 + 1) % 256 else st.2.1)
    (hbus : st'.2.2 = searchingAt S
      ((activeAt S (st.1.DallasChart.getD s0.DallasChartSize [])
        (8 * byteNum + bitNum)).filter
          (fun a => addrBit a (8 * byteNum + bitNum) == w)) (8 * byteNum + bitNum + 1)) :
    PassInv S s0 (8 * byteNum + bitNum + 1) st' := by
  obtain ⟨isame, ichart, ientry, _, _, ifork, ⟨m, im1, im2, im3⟩, ibits⟩ := inv
  have hlen : s0.DallasChartSize < st.1.DallasChart.length := by
    rw [ichart, List.length_set]; exact hn
  have he' : st'.1.DallasChart.getD s0.DallasChartSize [] =
      (st.1.DallasChart.getD s0.DallasChartSize []).set byteNum
        (putBit ((st.1.DallasChart.getD s0.DallasChartSize []).getD byteNum 0) bitNum w) := by
    rw [hchart, getD_set_self _ _ _ _ hlen]
  have hbits : ∀ q, addrBit (st'.1.DallasChart.getD s0.DallasChartSize []) q =
      if q = 8 * byteNum + bitNum then w
      else addrBit (st.1.DallasChart.getD s0.DallasChartSize []) q := by
    intro q
    rw [he']
    exact addrBit_set _ byteNum bitNum q w (by rw [ientry.1]; exact hbyte) ientry.2 hbit
  have hlow : ∀ q < 8 * byteNum + bitNum,
      addrBit (st'.1.DallasChart.getD s0.DallasChartSize []) q =
        addrBit (st.1.DallasChart.getD s0.DallasChartSize []) q := by
    intro q hq
    rw [hbits q, if_neg (by omega)]
  have hact : activeAt S (st'.1.DallasChart.getD s0.DallasChartSize [])
      (8 * byteNum + bitNum + 1) =
      (activeAt S (st.1.DallasChart.getD s0.DallasChartSize [])
        (8 * byteNum + bitNum)).filter (fun a => addrBit a (8 * byteNum + bitNum) == w) := by
    rw [activeAt_succ, activeAt_congr S _ _ _ hlow, hbits, if_pos rfl]
  have hfb : forksBefore S (st'.1.DallasChart.getD s0.DallasChartSize [])
      (8 * byteNum + bitNum + 1) = st.2.1 + (if isFork = true then 1 else 0) := by
    rw [forksBefore_succ, forksBefore_congr S _ _ _ hlow, isForkAt_congr S _ _ _ hlow, hfork,
      ← ifork]
  have hfle : st.2.1 ≤ 8 * byteNum + bitNum := by rw [ifork]; exact forksBefore_le _ _ _
  have hfmod : (st.2.1 + 1) % 256 = st.2.1 + 1 := Nat.mod_eq_of_lt (by omega)
  rw [hfmod] at hf
  refine ⟨Dallas.sameBut_trans isame hsame, ?_, ?_, ?_, ?_, ?_, ?_, ?_⟩
  · rw [he', hchart, ichart, List.set_set]
  · rw [he']; exact isAddress_set _ _ _ ientry (putBit_lt _ _ _)
  · rw [hbus, hact]
  · rw [hact]
    obtain ⟨a, ha1, ha2⟩ := hw
    intro hnil
    have : a ∈ (activeAt S (st.1.DallasChart.getD s0.DallasChartSize [])
        (8 * byteNum + bitNum)).filter (fun a => addrBit a (8 * byteNum + bitNum) == w) := by
      rw [List.mem_filter]; exact ⟨ha1, by simp [ha2]⟩
    rw [hnil] at this
    exact List.not_mem_nil _ this
  · rw [hf, hfb]
    split <;> rfl
  · by_cases hF : isFork = true
    · rw [if_pos hF] at hmask hf
      refine ⟨(st.1.RouteMask.getD s0.Route 0 ||| (1 <<< st.2.1)) % 256, ?_,
        Nat.mod_lt _ (by decide), ?_⟩
      · rw [hmask, im1, List.set_set]
      · intro j hj
        rw [im1, getD_set_self _ _ _ _ hr] at hj
        have h256 : (256 : Nat) = 2 ^ 8 := by norm_num
        rw [h256, Nat.testBit_mod_two_pow, Nat.testBit_or, Nat.one_shiftLeft,
          Nat.testBit_two_pow] at hj
        simp only [Bool.and_eq_true, Bool.or_eq_true, decide_eq_true_eq] at hj
        rw [hf]
        rcases hj.2 with h1 | h1
        · have := im3 j h1; omega
        · omega
    · rw [if_neg hF] at hmask hf
      exact ⟨m, by rw [hmask, im1], im2, fun j hj => by rw [hf]; exact im3 j hj⟩
  · intro q hq hfq
    rcases Nat.eq_or_lt_of_le (Nat.le_of_lt_succ hq) with h1 | h1
    · subst h1
      rw [isForkAt_congr S _ _ _ hlow, hfork] at hfq
      rw [hbits, if_pos rfl, forksBefore_congr S _ _ _ hlow, ← ifork]
      exact hroute hfq
    · have hlow2 : ∀ t < q, addrBit (st'.1.DallasChart.getD s0.DallasChartSize []) t =
          addrBit (st.1.DallasChart.getD s0.DallasChartSize []) t :=
        fun t ht => hlow t (by omega)
      rw [isForkAt_congr S _ _ _ hlow2] at hfq
      rw [hlow q h1, forksBefore_congr S _ _ _ hlow2]
      exact ibits q h1 hfq

theorem exists_of_all_false {α : Type} (l : List α) (f : α → Bool) (h : l.all f = false) :
    ∃ a ∈ l, f a = false := by
  have : ¬ (l.all f = true) := by rw [h]; exact Bool.noConfusion
  rw [List.all_eq_true] at this
  push_neg at this
  obtain ⟨a, ha, hfa⟩ := this
  exact ⟨a, ha, by simpa using hfa⟩

/-- The body of the bit loop keeps the pass invariant on the ideal bus. -/
theorem passInv_searchBit (S : List (List Nat)) (s0 : Dallas) (byteNum bitNum : Nat)
    (st : Dallas × Nat × IdealBus)
    (hbyte : byteNum < 8) (hbit : bitNum < 8)
    (hn : s0.DallasChartSize < s0.DallasChart.length)
    (hr : s0.Route < s0.RouteMask.length)
    (inv : PassInv S s0 (8 * byteNum + bitNum) st) :
    PassInv S s0 (8 * byteNum + bitNum + 1) (searchBit idealBus byteNum bitNum st) := by
  obtain ⟨s, fork, b⟩ := st
  have hsz : s.DallasChartSize = s0.DallasChartSize := sameBut_size inv.same
  have hRt : s.Route = s0.Route := sameBut_Route inv.same
  have hb : b = searchingAt S (activeAt S (s.DallasChart.getD s0.DallasChartSize [])
      (8 * byteNum + bitNum)) (8 * byteNum + bitNum) := inv.bus
  have hp : 8 * byteNum + bitNum < 64 := by omega
  have hsame := searchBit_sameBut idealBus byteNum bitNum (s, fork, b)
  obtain ⟨a0, ha0⟩ := List.exists_mem_of_ne_nil _ inv.active
  cases h0 : (activeAt S (s.DallasChart.getD s0.DallasChartSize [])
      (8 * byteNum + bitNum)).all (fun a => addrBit a (8 * byteNum + bitNum)) <;>
    cases h1 : (activeAt S (s.DallasChart.getD s0.DallasChartSize [])
      (8 * byteNum + bitNum)).all (fun a => !addrBit a (8 * byteNum + bitNum))
  · -- both reads 0: fork
    have hres := searchBit_ideal_fork s fork S _ _ byteNum bitNum hp (h0.trans h1.symm)
    rw [← hb, hsz, hRt] at hres
    refine passInv_step S s0 byteNum bitNum (s, fork, b) _ (s0.Route.testBit fork) true
      hbyte hbit hn hr inv ?_ ?_ (fun _ => rfl) hsame ?_ ?_ ?_ ?_
    · simp only [isForkAt, h0, h1]; rfl
    · obtain ⟨a, ha, hfa⟩ := exists_of_all_false _ _ h0
      obtain ⟨a', ha', hfa'⟩ := exists_of_all_false _ _ h1
      cases hw : s0.Route.testBit fork
      · exact ⟨a, ha, hfa⟩
      · exact ⟨a', ha', by simpa using hfa'⟩
    · rw [hres]
    · rw [hres]; rfl
    · rw [hres]; rfl
    · rw [hres]
  · -- 0 then 1: every device has a 0
    have hres := searchBit_ideal_zero s fork S _ _ byteNum bitNum hp h0 h1
    rw [← hb, hsz] at hres
    refine passInv_step S s0 byteNum bitNum (s, fork, b) _ false false
      hbyte hbit hn hr inv ?_ ?_ (fun h => Bool.noConfusion h) hsame ?_ ?_ ?_ ?_
    · simp only [isForkAt, h0, h1]; rfl
    · rw [List.all_eq_true] at h1
      exact ⟨a0, ha0, by simpa using h1 a0 ha0⟩
    · rw [hres]
    · rw [hres]; rfl
    · rw [hres]; rfl
    · rw [hres]
  · -- 1 then 0: every device has a 1
    have hres := searchBit_ideal_one s fork S _ _ byteNum bitNum hp h0 h1
    rw [← hb, hsz] at hres
    refine passInv_step S s0 byteNum bitNum (s, fork, b) _ true false
      hbyte hbit hn hr inv ?_ ?_ (fun h => Bool.noConfusion h) hsame ?_ ?_ ?_ ?_
    · simp only [isForkAt, h0, h1]; rfl
    · rw [List.all_eq_true] at h0
      exact ⟨a0, ha0, h0 a0 ha0⟩
    · rw [hres]
    · rw [hres]; rfl
    · rw [hres]; rfl
    · rw [hres]
  · -- both reads 1 cannot happen while a device is selected
    exfalso
    rw [List.all_eq_true] at h0 h1
    have e0 := h0 a0 ha0
    have e1 := h1 a0 ha0
    rw [e0] at e1
    exact Bool.noConfusion e1

/-- Invariant rule for the counting `for` loops, which are folds over `List.range`. -/
theorem foldl_range_inv {α : Type} (P : Nat → α → Prop) (f : α → Nat → α) (n : Nat) (x : α)
    (h0 : P 0 x) (hstep : ∀ i < n, ∀ y, P i y → P (i + 1) (f y i)) :
    P n ((List.range n).foldl f x) := by
  induction n with
  | zero => exact h0
  | succ n ih =>
    rw [List.range_succ, List.foldl_append]
    exact hstep n (Nat.lt_succ_self n) _ (ih (fun i hi y hy => hstep i (by omega) y hy))

theorem passInv_searchByte (S : List (List Nat)) (s0 : Dallas) (byteNum : Nat)
    (st : Dallas × Nat × IdealBus) (hbyte : byteNum < 8)
    (hn : s0.DallasChartSize < s0.DallasChart.length)
    (hr : s0.Route < s0.RouteMask.length)
    (inv : PassInv S s0 (8 * byteNum) st) :
    PassInv S s0 (8 * (byteNum + 1)) (searchByte idealBus byteNum st) := by
  have h := foldl_range_inv (fun j y => PassInv S s0 (8 * byteNum + j) y)
    (fun y bitNum => searchBit idealBus byteNum bitNum y) 8 st inv
    (fun i hi y hy => passInv_searchBit S s0 byteNum i y hbyte hi hn hr hy)
  exact h

theorem passInv_searchPass (S : List (List Nat)) (s0 : Dallas)
    (st : Dallas × Nat × IdealBus)
    (hn : s0.DallasChartSize < s0.DallasChart.length)
    (hr : s0.Route < s0.RouteMask.length)
    (inv : PassInv S s0 0 st) :
    PassInv S s0 64 (searchPass idealBus st) := by
  have h := foldl_range_inv (fun i y => PassInv S s0 (8 * i) y)
    (fun y byteNum => searchByte idealBus byteNum y) 8 st inv
    (fun i hi y hy => passInv_searchByte S s0 i y hi hn hr hy)
  exact h

/-! ## The start of a pass on the ideal bus -/

theorem set_getD_self {α : Type} (l : List α) (i : Nat) (d : α) :
    l.set i (l.getD i d) = l := by
  induction l generalizing i with
  | nil => rfl
  | cons x xs ih =>
    cases i with
    | zero => rfl
    | succ j => simp only [List.getD_cons_succ, List.set_cons_succ, ih]

theorem ideal_search_command (S : List (List Nat)) (b : IdealBus) (h : b.devices = S) :
    WriteByte idealBus CMD_SEARCH_ROM (idealBus.touchReset b).2 = searchingAt S S 0 := by
  simp [WriteByte, WriteByteLoop, idealBus, idealTouchReset, idealWriteBit, searchingAt, h,
    CMD_SEARCH_ROM]

theorem ideal_touchReset (b : IdealBus) :
    (idealBus.touchReset b).1 = !b.devices.isEmpty ∧
      (idealBus.touchReset b).2.devices = b.devices := ⟨rfl, rfl⟩

theorem isAddress_zeros8 : isAddress zeros8 := by
  refine ⟨rfl, ?_⟩
  intro x hx
  simp [zeros8] at hx
  omega

theorem passInv_start (S : List (List Nat)) (s : Dallas) (hS : S ≠ [])
    (hn : s.DallasChartSize < s.DallasChart.length)
    (hm : s.RouteMask.getD s.Route 0 = 0) :
    PassInv S { s with DallasChart := s.DallasChart.set s.DallasChartSize zeros8 } 0
      ({ s with DallasChart := s.DallasChart.set s.DallasChartSize zeros8 }, 0,
        searchingAt S S 0) := by
  have he : (s.DallasChart.set s.DallasChartSize zeros8).getD s.DallasChartSize [] = zeros8 :=
    getD_set_self _ _ _ _ hn
  refine ⟨Dallas.sameBut_refl _, ?_, ?_, ?_, ?_, rfl, ⟨0, ?_, by decide, ?_⟩, ?_⟩
  · exact (set_getD_self _ _ _).symm
  · show isAddress ((s.DallasChart.set s.DallasChartSize zeros8).getD s.DallasChartSize [])
    rw [he]; exact isAddress_zeros8
  · show searchingAt S S 0 = searchingAt S (activeAt S _ 0) 0
    rw [activeAt_zero]
  · show activeAt S _ 0 ≠ []
    rw [activeAt_zero]; exact hS
  · show s.RouteMask = s.RouteMask.set s.Route 0
    rw [← hm]; exact (set_getD_self _ _ _).symm
  · intro j hj; simp at hj
  · intro q hq; omega

/-! ## The route check -/

theorem routeAdvance_spec (RouteMask : List Nat) (limit : Nat) (hl : limit < 16) :
    ∀ (fuel Route route : Nat), route ≤ limit + 1 → Route ≤ 16 →
      (16 - Route) * 17 + (limit + 1 - route) < fuel →
      (∀ q < route, ¬ doubling RouteMask Route q) →
      Route ≤ routeAdvance RouteMask limit fuel Route route ∧
        routeAdvance RouteMask limit fuel Route route ≤ 16 ∧
        (routeAdvance RouteMask limit fuel Route route < 16 →
          ∀ q ≤ limit, ¬ doubling RouteMask (routeAdvance RouteMask limit fuel Route route) q) := by
  intro fuel
  induction fuel with
  | zero => intro Route route _ _ h; omega
  | succ fuel ih =>
    intro Route route hr hR hm hq
    simp only [routeAdvance]
    by_cases h16 : Route < 16
    · simp only [h16, if_true]
      by_cases hgt : route > limit
      · simp only [hgt, if_true]
        exact ⟨Nat.le_refl _, hR, fun _ q hql => hq q (by omega)⟩
      · simp only [hgt, if_false]
        have hmod1 : (Route + 1) % 256 = Route + 1 := Nat.mod_eq_of_lt (by omega)
        have hmod2 : (route + 1) % 256 = route + 1 := Nat.mod_eq_of_lt (by omega)
        rw [hmod1, hmod2]
        by_cases hd : Route &&& RouteMask.getD route 0 = route &&& RouteMask.getD route 0
        · rw [if_pos hd]
          obtain ⟨h1, h2, h3⟩ := ih (Route + 1) 0 (by omega) (by omega) (by omega)
            (fun q hq0 => by omega)
          exact ⟨by omega, h2, h3⟩
        · rw [if_neg hd]
          refine ih Route (route + 1) (by omega) hR (by omega) (fun q hq1 => ?_)
          rcases Nat.eq_or_lt_of_le (Nat.le_of_lt_succ hq1) with e | e
          · rw [e]; exact hd
          · exact hq q e
    · simp only [h16, if_false]
      exact ⟨Nat.le_refl _, hR, fun h => h.elim⟩

/-! ## The ideal bus keeps its devices -/

theorem idealReadBit_devices (b : IdealBus) : (idealReadBit b).2.devices = b.devices := by
  unfold idealReadBit
  split
  · split
    · rfl
    · split <;> rfl
  · rfl

theorem idealWriteBit_devices (w : Bool) (b : IdealBus) :
    (idealWriteBit w b).devices = b.devices := by
  unfold idealWriteBit
  split
  · rfl
  · split <;> rfl

theorem WriteByteLoop_devices (n byte : Nat) (b : IdealBus) :
    (WriteByteLoop idealBus n byte b).devices = b.devices := by
  induction n generalizing byte b with
  | zero => rfl
  | succ n ih =>
    simp only [WriteByteLoop]
    rw [ih]
    exact idealWriteBit_devices _ _

theorem WriteByte_devices (byte : Nat) (b : IdealBus) :
    (WriteByte idealBus byte b).devices = b.devices :=
  WriteByteLoop_devices 8 byte b

theorem WriteBytes_devices (bytes : List Nat) (b : IdealBus) :
    (WriteBytes idealBus bytes b).devices = b.devices := by
  induction bytes generalizing b with
  | nil => rfl
  | cons x xs ih =>
    simp only [WriteBytes]
    rw [ih, WriteByte_devices]

theorem same_leaf_doubling (S : List (List Nat)) (q r : Nat) (e : List Nat) (mq : Nat)
    (hq : leadsTo S q e) (hr : leadsTo S r e)
    (hm : ∀ j, mq.testBit j = true → j < forksBefore S e 64) :
    r &&& mq = q &&& mq := by
  apply Nat.eq_of_testBit_eq
  intro j
  rw [Nat.testBit_and, Nat.testBit_and]
  cases hj : mq.testBit j
  · simp
  · obtain ⟨t, ht, hf, hn⟩ := exists_fork_position S e 64 j (hm j hj)
    have h1 := hq t ht hf
    have h2 := hr t ht hf
    rw [hn] at h1 h2
    rw [← h1, ← h2]

theorem passInv_entry_mem (S : List (List Nat)) (s0 : Dallas) (st : Dallas × Nat × IdealBus)
    (hS : ∀ a ∈ S, isAddress a) (inv : PassInv S s0 64 st) :
    st.1.DallasChart.getD s0.DallasChartSize [] ∈ S := by
  obtain ⟨a, ha⟩ := List.exists_mem_of_ne_nil _ inv.active
  unfold activeAt at ha
  rw [List.mem_filter, agreeBelow_iff] at ha
  have := address_eq_of_bits (hS a ha.1) inv.entry ha.2
  rw [← this]
  exact ha.1

/-! ## One discovery pass within a scan of the ideal bus -/

theorem take_succ_set {α : Type} (l : List α) (n : Nat) (x : α) (h : n < l.length) :
    (l.set n x).take (n + 1) = l.take n ++ [x] := by
  induction l generalizing n with
  | nil => simp at h
  | cons y ys ih =>
    cases n with
    | zero => simp
    | succ k =>
      simp only [List.set_cons_succ, List.take_succ_cons, List.cons_append]
      rw [ih k (by simpa using h)]

theorem mem_take_getD {α : Type} (l : List α) (n : Nat) (x d : α) (h : x ∈ l.take n) :
    ∃ i < n, i < l.length ∧ l.getD i d = x := by
  obtain ⟨i, hi, hx⟩ := List.getElem_of_mem h
  rw [List.length_take] at hi
  rw [List.getElem_take] at hx
  exact ⟨i, by omega, by omega, by rw [List.getD_eq_getElem _ _ (by omega)]; exact hx⟩

theorem discover_scanInv (S : List (List Nat)) (hSaddr : ∀ a ∈ S, isAddress a) (hS : S ≠ [])
    (s : Dallas) (b : IdealBus) (hb : b.devices = S) (inv : ScanInv S s)
    (hR : s.Route < 16) (hn : s.DallasChartSize < 8) :
    ScanInv S (discover idealBus routeFuel s (idealBus.touchReset b).2).1 ∧
      (discover idealBus routeFuel s (idealBus.touchReset b).2).2.2.devices = S ∧
      (discover idealBus routeFuel s (idealBus.touchReset b).2).1.DallasChartSize =
        s.DallasChartSize + 1 := by
  have hnlen : s.DallasChartSize < s.DallasChart.length := by rw [inv.chartLen]; exact hn
  have hrlen : s.Route < s.RouteMask.length := by rw [inv.maskLen]; exact hR
  have P0 := passInv_start S s hS hnlen (inv.fresh s.Route (Nat.le_refl _))
  have P64 := passInv_searchPass S
    { s with DallasChart := s.DallasChart.set s.DallasChartSize zeros8 } _
    (by show s.DallasChartSize < (s.DallasChart.set s.DallasChartSize zeros8).length
        rw [List.length_set]; exact hnlen)
    hrlen P0
  have hcmd := ideal_search_command S b hb
  -- name the state after the 64 bits
  generalize hst : searchPass idealBus
    ({ s with DallasChart := s.DallasChart.set s.DallasChartSize zeros8 }, 0,
      searchingAt S S 0) = st at P64
  have hdisc : discover idealBus routeFuel s (idealBus.touchReset b).2 =
      ({ st.1 with
          DallasChartSize := (st.1.DallasChartSize + 1) % 256
          Route := routeAdvance st.1.RouteMask st.1.Route routeFuel
            ((st.1.Route + 1) % 256) 0 }, st.2.1, st.2.2) := by
    simp only [discover, hcmd, hst]
  have hmem : st.1.DallasChart.getD s.DallasChartSize [] ∈ S :=
    passInv_entry_mem S { s with DallasChart := s.DallasChart.set s.DallasChartSize zeros8 }
      st hSaddr P64
  obtain ⟨psame, pchart, pentry, pbus, pactive, pfork, ⟨m, pm1, pm2, pm3⟩, pbits⟩ := P64
  dsimp only at pchart pentry pbus pactive pfork pm1 pbits
  have hsz : st.1.DallasChartSize = s.DallasChartSize := sameBut_size psame
  have hRt : st.1.Route = s.Route := sameBut_Route psame
  have hchart : st.1.DallasChart =
      s.DallasChart.set s.DallasChartSize (st.1.DallasChart.getD s.DallasChartSize []) := by
    have := pchart
    simp only [List.set_set] at this
    exact this
  have hmask : st.1.RouteMask = s.RouteMask.set s.Route m := pm1
  have hleads : leadsTo S s.Route (st.1.DallasChart.getD s.DallasChartSize []) := pbits
  have hmbits : ∀ j, m.testBit j = true →
      j < forksBefore S (st.1.DallasChart.getD s.DallasChartSize []) 64 := by
    intro j hj
    have := pm3 j hj
    rw [pfork] at this
    exact this
  have hmod1 : (s.DallasChartSize + 1) % 256 = s.DallasChartSize + 1 :=
    Nat.mod_eq_of_lt (by omega)
  have hmod2 : (s.Route + 1) % 256 = s.Route + 1 := Nat.mod_eq_of_lt (by omega)
  obtain ⟨a1, a2, a3⟩ := routeAdvance_spec st.1.RouteMask s.Route hR routeFuel (s.Route + 1) 0
    (by omega) (by omega) (by unfold routeFuel; omega) (fun q hq => by omega)
  rw [hdisc, hsz, hRt, hmod1, hmod2]
  -- the new entry differs from the entries found before
  have hnew : st.1.DallasChart.getD s.DallasChartSize [] ∉
      s.DallasChart.take s.DallasChartSize := by
    intro hin
    obtain ⟨i, hi, _, hx⟩ := mem_take_getD _ _ _ [] hin
    obtain ⟨q, _, _, hq2, hq3, hq4⟩ := inv.found i hi
    rw [hx] at hq2 hq3
    exact hq4 hR (same_leaf_doubling S q s.Route _ _ hq2 hleads hq3)
  refine ⟨⟨?_, ?_, a2, by show s.DallasChartSize + 1 ≤ 8; omega, ?_, ?_, ?_⟩, ?_, rfl⟩
  · show st.1.DallasChart.length = 8
    rw [hchart, List.length_set]; exact inv.chartLen
  · show st.1.RouteMask.length = 16
    rw [hmask, List.length_set]; exact inv.maskLen
  · intro q hq
    show st.1.RouteMask.getD q 0 = 0
    have hq' : routeAdvance st.1.RouteMask s.Route routeFuel (s.Route + 1) 0 ≤ q := hq
    rw [hmask, getD_set_ne _ _ _ _ _ (by omega)]
    exact inv.fresh q (by omega)
  · intro i hi
    have hi' : i < s.DallasChartSize + 1 := hi
    show ∃ q < routeAdvance st.1.RouteMask s.Route routeFuel (s.Route + 1) 0,
      st.1.DallasChart.getD i [] ∈ S ∧ leadsTo S q (st.1.DallasChart.getD i []) ∧
      (∀ j, (st.1.RouteMask.getD q 0).testBit j = true →
        j < forksBefore S (st.1.DallasChart.getD i []) 64) ∧
      (routeAdvance st.1.RouteMask s.Route routeFuel (s.Route + 1) 0 < 16 →
        ¬ doubling st.1.RouteMask
          (routeAdvance st.1.RouteMask s.Route routeFuel (s.Route + 1) 0) q)
    rcases Nat.eq_or_lt_of_le (Nat.le_of_lt_succ hi') with e | e
    · subst e
      refine ⟨s.Route, by omega, hmem, hleads, ?_, fun h => a3 h s.Route (Nat.le_refl _)⟩
      intro j hj
      rw [hmask, getD_set_self _ _ _ _ hrlen] at hj
      exact hmbits j hj
    · obtain ⟨q, hq1, hq2, hq3, hq4, _⟩ := inv.found i e
      have hent : st.1.DallasChart.getD i [] = s.DallasChart.getD i [] := by
        rw [hchart, getD_set_ne _ _ _ _ _ (by omega)]
      have hmq : st.1.RouteMask.getD q 0 = s.RouteMask.getD q 0 := by
        rw [hmask, getD_set_ne _ _ _ _ _ (by omega)]
      refine ⟨q, by omega, ?_, ?_, ?_, fun h => a3 h q (by omega)⟩
      · rw [hent]; exact hq2
      · rw [hent]; exact hq3
      · rw [hent, hmq]; exact hq4
  · show (st.1.DallasChart.take (s.DallasChartSize + 1)).Nodup
    rw [hchart, take_succ_set _ _ _ hnlen]
    rw [List.nodup_append]
    refine ⟨inv.nodup, List.nodup_singleton _, ?_⟩
    intro x hx1 hx2
    rw [List.mem_singleton] at hx2
    rw [hx2] at hx1
    exact hnew hx1
  · show st.2.2.devices = S
    rw [pbus]; rfl

/-! ## The search cycle on the ideal bus -/

theorem searchCycle_ideal (S : List (List Nat)) (hSaddr : ∀ a ∈ S, isAddress a) (d : Nat) :
    ∀ (fuel : Nat) (s : Dallas) (fork : Nat) (b : IdealBus),
      ScanInv S s → b.devices = S →
      ScanInv S (searchCycle idealBus routeFuel d fuel s fork b).1 ∧
        (searchCycle idealBus routeFuel d fuel s fork b).2.2.devices = S ∧
        (S = [] → (searchCycle idealBus routeFuel d fuel s fork b).2.1 = fork) ∧
        (S ≠ [] → d ≤ s.DallasChartSize → 4 ≤ fuel + (s.DallasChartSize - d) →
          ¬ ((searchCycle idealBus routeFuel d fuel s fork b).1.DallasChartSize - d < 4 ∧
            (searchCycle idealBus routeFuel d fuel s fork b).1.Route < 16 ∧
            (searchCycle idealBus routeFuel d fuel s fork b).1.DallasChartSize < 8 ∧
            (searchCycle idealBus routeFuel d fuel s fork b).2.1 > 0)) := by
  intro fuel
  induction fuel with
  | zero =>
    intro s fork b inv hb
    refine ⟨inv, hb, fun _ => rfl, fun _ hd h4 hg => ?_⟩
    have : s.DallasChartSize - d < 4 := hg.1
    omega
  | succ fuel ih =>
    intro s fork b inv hb
    simp only [searchCycle]
    by_cases hg : s.DallasChartSize - d < 4 ∧ s.Route < 16 ∧
        s.DallasChartSize < MAX_SENSOR_COUNT ∧ fork > 0
    · rw [if_pos hg]
      have hpres : (idealBus.touchReset b).1 = !S.isEmpty := by
        rw [(ideal_touchReset b).1, hb]
      by_cases hS : S = []
      · have hfalse : (idealBus.touchReset b).1 = false := by rw [hpres, hS]; rfl
        rw [hfalse, if_neg Bool.false_ne_true]
        refine ⟨inv, ?_, fun _ => rfl, fun h => absurd hS h⟩
        rw [(ideal_touchReset b).2, hb]
      · have htrue : (idealBus.touchReset b).1 = true := by
          rw [hpres]
          cases S with
          | nil => exact absurd rfl hS
          | cons a l => rfl
        rw [htrue, if_pos rfl]
        obtain ⟨d1, d2, d3⟩ := discover_scanInv S hSaddr hS s b hb inv hg.2.1 hg.2.2.1
        obtain ⟨i1, i2, i3, i4⟩ := ih _ (discover idealBus routeFuel s
          (idealBus.touchReset b).2).2.1 _ d1 d2
        refine ⟨i1, i2, fun h => absurd h hS, fun _ hd h4 => ?_⟩
        apply i4 hS
        · rw [d3]; omega
        · rw [d3]; omega
    · rw [if_neg hg]
      exact ⟨inv, hb, fun _ => rfl, fun _ _ _ => hg⟩

theorem replicate_getD_zero (n q : Nat) : (List.replicate n 0).getD q 0 = 0 := by
  rw [List.getD_eq_getElem?_getD]
  by_cases h : q < n
  · rw [List.getElem?_replicate_of_lt h]; rfl
  · rw [List.getElem?_eq_none (by simpa using h)]; rfl

theorem scanInv_fresh (S : List (List Nat)) (s : Dallas) (h : s.DallasChart.length = 8)
    (h0 : s.Route = 0) :
    ScanInv S { s with RouteMask := List.replicate 16 0, DallasChartSize := 0 } := by
  refine ⟨h, by simp, by show s.Route ≤ 16; omega, Nat.zero_le _,
    fun q _ => replicate_getD_zero 16 q, fun i hi => ?_, ?_⟩
  · exact absurd hi (Nat.not_lt_zero i)
  · show (s.DallasChart.take 0).Nodup
    simp

/-- The search part of a call within a scan of the ideal bus. -/
theorem scanSearch_ideal (S : List (List Nat)) (hSaddr : ∀ a ∈ S, isAddress a)
    (s : Dallas) (b : IdealBus) (hb : b.devices = S) (hChart : s.DallasChart.length = 8)
    (hinv : s.Route ≠ 0 → ScanInv S s) :
    ScanInv S (scanSearch idealBus 4 routeFuel s b).1 ∧
      (scanSearch idealBus 4 routeFuel s b).2.2.devices = S ∧
      (S = [] → (scanSearch idealBus 4 routeFuel s b).2.1 = 0xFF) ∧
      (S ≠ [] →
        ¬ ((scanSearch idealBus 4 routeFuel s b).1.DallasChartSize -
              (if s.Route = 0 then 0 else s.DallasChartSize) < 4 ∧
          (scanSearch idealBus 4 routeFuel s b).1.Route < 16 ∧
          (scanSearch idealBus 4 routeFuel s b).1.DallasChartSize < 8 ∧
          (scanSearch idealBus 4 routeFuel s b).2.1 > 0)) := by
  unfold scanSearch
  by_cases h0 : s.Route = 0
  · simp only [if_pos h0]
    obtain ⟨a1, a2, a3, a4⟩ := searchCycle_ideal S hSaddr 0 4
      { s with RouteMask := List.replicate 16 0, DallasChartSize := 0 } 0xFF b
      (scanInv_fresh S s hChart h0) hb
    exact ⟨a1, a2, a3, fun hS => a4 hS (Nat.le_refl _) (by simp)⟩
  · simp only [if_neg h0]
    obtain ⟨a1, a2, a3, a4⟩ := searchCycle_ideal S hSaddr s.DallasChartSize 4 s 0xFF b
      (hinv h0) hb
    exact ⟨a1, a2, a3, fun hS => a4 hS (Nat.le_refl _) (by omega)⟩

/-! ## Scans of the ideal bus -/

theorem checkCrcLoop_length :
    ∀ (n dallasNum : Nat) (chart : List (List Nat)),
      (checkCrcLoop n dallasNum chart).2.length = chart.length := by
  intro n
  induction n with
  | zero => intro dallasNum chart; rfl
  | succ n ih =>
    intro dallasNum chart
    simp only [checkCrcLoop]
    split
    · split
      · simp
      · rw [ih]; simp
    · split
      · rfl
      · rw [ih]

theorem scanRun_pre (S : List (List Nat)) (hSaddr : ∀ a ∈ S, isAddress a)
    (s : Dallas) (b : IdealBus) (run : ScanRun S s b) :
    b.devices = S ∧ s.DallasChart.length = 8 ∧ (s.Route ≠ 0 → ScanInv S s) := by
  induction run with
  | start s b hRoute hChart hBus => exact ⟨hBus, hChart, fun h => absurd hRoute h⟩
  | next s b b' _ hFalse hBus ih =>
    obtain ⟨hb, hc, hinv⟩ := ih
    obtain ⟨m1, _, _, _⟩ := scanSearch_ideal S hSaddr s b hb hc hinv
    rcases ScanNet_cases idealBus s b with ⟨_, h⟩ | ⟨_, _, h⟩ | ⟨_, _, h, _⟩
    · rw [h]
      exact ⟨hBus, m1.chartLen, fun _ => m1⟩
    · rw [h]
      refine ⟨hBus, ?_, fun hne => absurd rfl hne⟩
      show (checkCrcLoop _ 0 _).2.length = 8
      rw [checkCrcLoop_length]
      exact m1.chartLen
    · rw [h] at hFalse
      exact Bool.noConfusion hFalse

/-- C2. Soundness and distinctness of enumeration: on the ideal simulated bus
carrying the devices `S`, when a scan (calls to `Dallas::ScanNet` from
`Route = 0`, repeated while they return false) completes with a call that
returns true, every registry entry below DallasChartSize is the address of a
device of `S`, and no two entries are equal. -/
theorem scan_sound_distinct (S : List (List Nat)) (hSaddr : ∀ a ∈ S, isAddress a)
    (s : Dallas) (b : IdealBus) (run : ScanRun S s b)
    (htrue : (ScanNet idealBus s b).1 = true) :
    (∀ i < (ScanNet idealBus s b).2.1.DallasChartSize,
        (ScanNet idealBus s b).2.1.DallasChart.getD i [] ∈ S) ∧
      ∀ i j, i < (ScanNet idealBus s b).2.1.DallasChartSize →
        j < (ScanNet idealBus s b).2.1.DallasChartSize → i ≠ j →
        (ScanNet idealBus s b).2.1.DallasChart.getD i [] ≠
          (ScanNet idealBus s b).2.1.DallasChart.getD j [] := by
  obtain ⟨hb, hc, hinv⟩ := scanRun_pre S hSaddr s b run
  obtain ⟨m1, _, _, _⟩ := scanSearch_ideal S hSaddr s b hb hc hinv
  rcases ScanNet_cases idealBus s b with ⟨_, h⟩ | ⟨_, _, h⟩ | ⟨_, hcrc, _, _, hsz, hch⟩
  · rw [h] at htrue; exact Bool.noConfusion htrue
  · rw [h] at htrue; exact Bool.noConfusion htrue
  · have hloop := checkCrcLoop_true _ 0 _ _ (Prod.ext hcrc rfl)
    have hch2 : (ScanNet idealBus s b).2.1.DallasChart =
        (scanSearch idealBus 4 routeFuel s b).1.DallasChart := hch.trans hloop.1
    rw [hsz, hch2]
    refine ⟨fun i hi => ?_, fun i j hi hj hij heq => ?_⟩
    · obtain ⟨q, _, hq, _⟩ := m1.found i hi
      exact hq
    · have hnd := m1.nodup
      have hlen := m1.chartLen
      have hsize := m1.size
      have hi2 : i < ((scanSearch idealBus 4 routeFuel s b).1.DallasChart.take
          (scanSearch idealBus 4 routeFuel s b).1.DallasChartSize).length := by
        rw [List.length_take]; omega
      have hj2 : j < ((scanSearch idealBus 4 routeFuel s b).1.DallasChart.take
          (scanSearch idealBus 4 routeFuel s b).1.DallasChartSize).length := by
        rw [List.length_take]; omega
      apply hij
      apply (@List.Nodup.getElem_inj_iff _ _ hnd i hi2 j hj2).1
      rw [List.getElem_take, List.getElem_take]
      rw [List.getD_eq_getElem _ _ (by omega), List.getD_eq_getElem _ _ (by omega)] at heq
      exact heq

set_option maxRecDepth 1000000 in
theorem scan_sound_distinct_witness :
    (ScanNet idealBus
        (ScanNet idealBus (Dallas.new (List.replicate 16 0) 0) (idealWith fiveDevices)).2.1
        (ScanNet idealBus (Dallas.new (List.replicate 16 0) 0)
          (idealWith fiveDevices)).2.2).1 = true ∧
      ∀ i < (ScanNet idealBus
          (ScanNet idealBus (Dallas.new (List.replicate 16 0) 0) (idealWith fiveDevices)).2.1
          (ScanNet idealBus (Dallas.new (List.replicate 16 0) 0)
            (idealWith fiveDevices)).2.2).2.1.DallasChartSize,
        (ScanNet idealBus
          (ScanNet idealBus (Dallas.new (List.replicate 16 0) 0) (idealWith fiveDevices)).2.1
          (ScanNet idealBus (Dallas.new (List.replicate 16 0) 0)
            (idealWith fiveDevices)).2.2).2.1.DallasChart.getD i [] ∈ fiveDevices :=
  ⟨by decide!,
    (scan_sound_distinct fiveDevices (by decide!) _ _
      (ScanRun.next _ _ _
        (ScanRun.start (Dallas.new (List.replicate 16 0) 0) (idealWith fiveDevices) rfl rfl rfl)
        (by decide!) (by decide!))
      (by decide!)).1⟩

/-- A finished search of the ideal bus with valid devices passes the CRC check. -/
theorem finished_scan_true (S : List (List Nat)) (hvalid : ∀ a ∈ S, addressValid a = true)
    (s : Dallas) (b : IdealBus) (inv : ScanInv S (scanSearch idealBus 4 routeFuel s b).1)
    (hfin : scanUnfinished (scanSearch idealBus 4 routeFuel s b).1
      (scanSearch idealBus 4 routeFuel s b).2.1 = false) :
    (ScanNet idealBus s b).1 = true := by
  rcases ScanNet_cases idealBus s b with ⟨hu, _⟩ | ⟨_, hc, _⟩ | ⟨_, _, h, _⟩
  · rw [hfin] at hu; exact Bool.noConfusion hu
  · exfalso
    obtain ⟨j, _, hj2, _, hj4, _⟩ := checkCrcLoop_false _ 0 _ _ (Prod.ext hc rfl)
    obtain ⟨q, _, hq, _⟩ := inv.found j (by omega)
    rw [hvalid _ hq] at hj4
    exact Bool.noConfusion hj4
  · exact h

/-- C5. Termination within a bounded number of calls: on the ideal simulated
bus carrying devices `S` whose addresses are valid (checksum right, not
all-zero), starting from `Route = 0`, both loops of `Dallas::ScanNet` end by
their own guards (more fuel changes nothing, for every state and bus state),
and `ScanNet` returns true at the first call or, the first call having left
exactly 4 entries in the registry, at the second, whatever state the bus with
these devices is in by then. -/
theorem scan_done_in_two_calls (S : List (List Nat)) (hSaddr : ∀ a ∈ S, isAddress a)
    (hvalid : ∀ a ∈ S, addressValid a = true)
    (s : Dallas) (b : IdealBus) (hRoute : s.Route = 0) (hChart : s.DallasChart.length = 8)
    (hb : b.devices = S) :
    (∀ (n m : Nat) (s' : Dallas) (b' : IdealBus), 4 ≤ n → routeFuel ≤ m →
        ScanNetFuel idealBus n m s' b' = ScanNet idealBus s' b') ∧
      ((ScanNet idealBus s b).1 = true ∨
        ((ScanNet idealBus s b).2.1.DallasChartSize = 4 ∧
          ∀ b' : IdealBus, b'.devices = S →
            (ScanNet idealBus (ScanNet idealBus s b).2.1 b').1 = true)) := by
  refine ⟨fun n m s' b' hn hm => ScanNetFuel_eq idealBus n m hn hm s' b', ?_⟩
  obtain ⟨m1, m2, m3, m4⟩ := scanSearch_ideal S hSaddr s b hb hChart
    (fun h => absurd hRoute h)
  by_cases hu : scanUnfinished (scanSearch idealBus 4 routeFuel s b).1
      (scanSearch idealBus 4 routeFuel s b).2.1 = true
  · right
    -- the first call is not finished: it has made 4 passes
    have hu' := hu
    simp only [scanUnfinished, decide_eq_true_eq, MAX_SENSOR_COUNT] at hu'
    have hS : S ≠ [] := by
      intro h
      have := m3 h
      omega
    have hge := m4 hS
    rw [if_pos hRoute] at hge
    have hle := (ScanNet_size_le idealBus s b).2 hRoute
    have hcall : ScanNet idealBus s b =
        (false, (scanSearch idealBus 4 routeFuel s b).1,
          (scanSearch idealBus 4 routeFuel s b).2.2) := by
      rcases ScanNet_cases idealBus s b with ⟨_, h⟩ | ⟨h, _⟩ | ⟨h, _⟩
      · exact h
      · rw [hu] at h; exact Bool.noConfusion h
      · rw [hu] at h; exact Bool.noConfusion h
    rw [hcall] at hle
    have hsz : (scanSearch idealBus 4 routeFuel s b).1.DallasChartSize = 4 := by
      have : (scanSearch idealBus 4 routeFuel s b).1.DallasChartSize ≤ 4 := hle
      omega
    rw [hcall]
    refine ⟨hsz, fun b' hb' => ?_⟩
    -- the second call
    have hR1 : (scanSearch idealBus 4 routeFuel s b).1.Route ≠ 0 := by
      obtain ⟨q, hq, _⟩ := m1.found 0 (by omega)
      omega
    obtain ⟨n1, _, _, n4⟩ := scanSearch_ideal S hSaddr (scanSearch idealBus 4 routeFuel s b).1
      b' hb' m1.chartLen (fun _ => m1)
    apply finished_scan_true S hvalid _ _ n1
    have hge2 := n4 hS
    rw [if_neg hR1, hsz] at hge2
    by_contra hcon
    have hcon2 : scanUnfinished
        (scanSearch idealBus 4 routeFuel (scanSearch idealBus 4 routeFuel s b).1 b').1
        (scanSearch idealBus 4 routeFuel (scanSearch idealBus 4 routeFuel s b).1 b').2.1
          = true := by
      simpa using hcon
    simp only [scanUnfinished, decide_eq_true_eq, MAX_SENSOR_COUNT] at hcon2
    apply hge2
    refine ⟨?_, hcon2.1, hcon2.2.1, hcon2.2.2.1⟩
    omega
  · left
    exact finished_scan_true S hvalid s b m1 (by simpa using hu)

set_option maxRecDepth 1000000 in
theorem scan_done_in_two_calls_witness :
    (ScanNet idealBus (Dallas.new (List.replicate 16 0) 0) (idealWith fiveDevices)).1 = true ∨
      ((ScanNet idealBus (Dallas.new (List.replicate 16 0) 0)
          (idealWith fiveDevices)).2.1.DallasChartSize = 4 ∧
        ∀ b' : IdealBus, b'.devices = fiveDevices →
          (ScanNet idealBus
            (ScanNet idealBus (Dallas.new (List.replicate 16 0) 0)
              (idealWith fiveDevices)).2.1 b').1 = true) :=
  (scan_done_in_two_calls fiveDevices (by decide!) (by decide!)
    (Dallas.new (List.replicate 16 0) 0) (idealWith fiveDevices) rfl rfl rfl).2

set_option maxRecDepth 1000000 in
/-- C1 (the code at the failing input). On the ideal bus carrying the four
valid, pairwise distinct devices of `combOfFour`, the first call to
`Dallas::ScanNet` from the constructor state returns true with
DallasChartSize = 3: the device with serial number 7 is not in the registry.
The routes explored are 0, 1 and 3; the route check then runs `Route` up to 16
because `RouteMask[2]`, the mask of the route it skipped, is still 0 and the
test `(Route & 0) == (2 & 0)` holds for every `Route`; a pass with `Route = 7`
would have found the missing device. -/
theorem comb_of_four_scan_misses_device :
    combOfFour.length = 4 ∧ combOfFour.Nodup ∧
      (∀ a ∈ combOfFour, isAddress a ∧ addressValid a = true) ∧
      (ScanNet idealBus (Dallas.new (List.replicate 16 0) 0) (idealWith combOfFour)).1 = true ∧
      (ScanNet idealBus (Dallas.new (List.replicate 16 0) 0)
        (idealWith combOfFour)).2.1.DallasChartSize = 3 ∧
      [0x28, 7, 0, 0, 0, 0, 0, 155] ∈ combOfFour ∧
      [0x28, 7, 0, 0, 0, 0, 0, 155] ∉
        (ScanNet idealBus (Dallas.new (List.replicate 16 0) 0)
          (idealWith combOfFour)).2.1.DallasChart.take 3 ∧
      (ScanNet idealBus (Dallas.new (List.replicate 16 0) 0)
        (idealWith combOfFour)).2.1.RouteMask =
          [1, 3, 0, 7, 0, 0, 0, 0, 0, 0, 0, 0, 0, 0, 0, 0] ∧
      routeAdvance [1, 3, 0, 7, 0, 0, 0, 0, 0, 0, 0, 0, 0, 0, 0, 0] 3 routeFuel 4 0 = 16 ∧
      (discover idealBus routeFuel
        { (ScanNet idealBus (Dallas.new (List.replicate 16 0) 0)
            (idealWith combOfFour)).2.1 with Route := 7 }
        (idealBus.touchReset (idealWith combOfFour)).2).1.DallasChart.getD 3 [] =
          [0x28, 7, 0, 0, 0, 0, 0, 155] := by
  decide!

/-! ## Byte transport -/

theorem and_one_ne_zero (x : Nat) : (x &&& 1 != 0) = x.testBit 0 := by
  rw [Nat.testBit, Nat.shiftRight_zero, Nat.and_comm]

theorem WriteByteLoop_eq_foldl {σ : Type} (bus : Bus σ) :
    ∀ (n k byte : Nat) (b : σ),
      WriteByteLoop bus n (byte >>> k) b =
        ((List.range' k n).map byte.testBit).foldl (fun e bit => bus.writeBit bit e) b := by
  intro n
  induction n with
  | zero => intro k byte b; rfl
  | succ n ih =>
    intro k byte b
    simp only [WriteByteLoop, List.range'_succ, List.map_cons, List.foldl_cons]
    rw [← Nat.shiftRight_add, ih (k + 1) byte]
    congr 2
    rw [Nat.testBit, Nat.and_comm]

theorem WriteByte_eq_foldl {σ : Type} (bus : Bus σ) (byte : Nat) (b : σ) :
    WriteByte bus byte b = (bitsOfByte byte).foldl (fun e bit => bus.writeBit bit e) b := by
  have h := WriteByteLoop_eq_foldl bus 8 0 byte b
  rw [Nat.shiftRight_zero] at h
  rw [WriteByte, h, bitsOfByte, List.range_eq_range']

theorem recordBus_foldl (bits t : List Bool) :
    bits.foldl (fun e bit => recordBus.writeBit bit e) t = t ++ bits := by
  induction bits generalizing t with
  | nil => simp
  | cons x xs ih =>
    rw [List.foldl_cons, ih]
    show (t ++ [x]) ++ xs = t ++ x :: xs
    simp

/-- The value `ReadByte` builds from eight bits read in order. -/
theorem readByte_bits : ∀ r0 r1 r2 r3 r4 r5 r6 r7 : Bool,
    ∀ i < 8,
      ([r0, r1, r2, r3, r4, r5, r6, r7].foldl
        (fun (data : Nat) (bit : Bool) => if bit then (data >>> 1) ||| 0x80 else data >>> 1) 0).testBit i =
        [r0, r1, r2, r3, r4, r5, r6, r7].getD i false := by
  decide

theorem ReadByteLoop_eq_foldl {σ : Type} (bus : Bus σ) :
    ∀ (n data : Nat) (b : σ),
      ReadByteLoop bus n data b =
        ((readBits bus n b).1.foldl
          (fun (data : Nat) (bit : Bool) => if bit then (data >>> 1) ||| 0x80 else data >>> 1) data,
          (readBits bus n b).2) := by
  intro n
  induction n with
  | zero => intro data b; rfl
  | succ n ih =>
    intro data b
    simp only [ReadByteLoop, readBits, List.foldl_cons]
    rw [ih]

theorem readBits_length {σ : Type} (bus : Bus σ) :
    ∀ (n : Nat) (b : σ), (readBits bus n b).1.length = n := by
  intro n
  induction n with
  | zero => intro b; rfl
  | succ n ih => intro b; simp only [readBits, List.length_cons, ih]

theorem ReadByte_testBit {σ : Type} (bus : Bus σ) (b : σ) (i : Nat) (hi : i < 8) :
    (ReadByte bus b).1.testBit i = (readBits bus 8 b).1.getD i false := by
  have hlen := readBits_length bus 8 b
  rw [ReadByte, ReadByteLoop_eq_foldl]
  generalize (readBits bus 8 b).1 = l at hlen
  match l, hlen with
  | [r0, r1, r2, r3, r4, r5, r6, r7], _ => exact readByte_bits r0 r1 r2 r3 r4 r5 r6 r7 i hi

theorem scriptBus_readBits (bits rest : List Bool) :
    readBits scriptBus bits.length (bits ++ rest) = (bits, rest) := by
  induction bits with
  | nil => rfl
  | cons x xs ih =>
    simp only [List.length_cons, readBits, List.cons_append]
    show (x :: (readBits scriptBus xs.length (xs ++ rest)).1,
      (readBits scriptBus xs.length (xs ++ rest)).2) = (x :: xs, rest)
    rw [ih]

theorem bitsOfByte_length (x : Nat) : (bitsOfByte x).length = 8 := by
  simp [bitsOfByte]

theorem bitsOfByte_getD (x i : Nat) (hi : i < 8) : (bitsOfByte x).getD i false = x.testBit i := by
  unfold bitsOfByte
  rw [List.getD_eq_getElem _ _ (by simpa using hi)]
  simp

/-- C19. Byte transport is least-significant-bit first and round-trips.  On
every bus, `WriteByte(byte)` is the eight calls `WriteBit` of bit 0, bit 1, ...,
bit 7 of the byte, in that order; `ReadByte()` is eight calls `ReadBit` and
its result is the byte below 256 whose bit `i` is the `i`-th bit read; the
bits that `WriteByte(byte)` puts on a recording bus, fed to `ReadByte()` as
the bits read, give back the byte. -/
theorem byte_transport_lsb_first {σ : Type} (bus : Bus σ) (byte : Nat) (b : σ)
    (hbyte : byte < 256) :
    (WriteByte bus byte b = (bitsOfByte byte).foldl (fun e bit => bus.writeBit bit e) b ∧
        (bitsOfByte byte).length = 8 ∧
        ∀ i < 8, (bitsOfByte byte).getD i false = byte.testBit i) ∧
      ((ReadByte bus b).2 = (readBits bus 8 b).2 ∧
        (readBits bus 8 b).1.length = 8 ∧
        (ReadByte bus b).1 < 256 ∧
        ∀ i < 8, (ReadByte bus b).1.testBit i = (readBits bus 8 b).1.getD i false) ∧
      (WriteByte recordBus byte [] = bitsOfByte byte ∧
        ∀ rest : List Bool,
          ReadByte scriptBus (WriteByte recordBus byte [] ++ rest) = (byte, rest)) := by
  have hrec : WriteByte recordBus byte [] = bitsOfByte byte := by
    rw [WriteByte_eq_foldl, recordBus_foldl]; rfl
  refine ⟨⟨WriteByte_eq_foldl bus byte b, bitsOfByte_length byte, bitsOfByte_getD byte⟩,
    ⟨?_, readBits_length bus 8 b, ReadByte_lt bus b, ReadByte_testBit bus b⟩, hrec, ?_⟩
  · rw [ReadByte, ReadByteLoop_eq_foldl]
  · intro rest
    rw [hrec]
    have hbits : readBits scriptBus 8 (bitsOfByte byte ++ rest) = (bitsOfByte byte, rest) := by
      have := scriptBus_readBits (bitsOfByte byte) rest
      rw [bitsOfByte_length] at this
      exact this
    apply Prod.ext
    · apply Nat.eq_of_testBit_eq
      intro i
      by_cases hi : i < 8
      · rw [ReadByte_testBit scriptBus _ i hi, hbits]
        exact bitsOfByte_getD byte i hi
      · have h1 : (ReadByte scriptBus (bitsOfByte byte ++ rest)).1 < 2 ^ i :=
          lt_of_lt_of_le (ReadByte_lt scriptBus _)
            (by calc 256 = 2 ^ 8 := rfl
                  _ ≤ 2 ^ i := Nat.pow_le_pow_right (by omega) (by omega))
        have h2 : byte < 2 ^ i :=
          lt_of_lt_of_le hbyte
            (by calc 256 = 2 ^ 8 := rfl
                  _ ≤ 2 ^ i := Nat.pow_le_pow_right (by omega) (by omega))
        rw [Nat.testBit_lt_two_pow h1, Nat.testBit_lt_two_pow h2]
    · show (ReadByte scriptBus (bitsOfByte byte ++ rest)).2 = rest
      rw [ReadByte, ReadByteLoop_eq_foldl, hbits]

set_option maxRecDepth 100000 in
theorem byte_transport_lsb_first_witness :
    WriteByte recordBus 0xA5 [] = [true, false, true, false, false, true, false, true] ∧
      ReadByte scriptBus ([true, false, true, false, false, true, false, true] ++ [false]) =
        (0xA5, [false]) :=
  ⟨by decide!,
    by
      have h := (byte_transport_lsb_first recordBus 0xA5 [] (by decide)).2.2.2 [false]
      rw [show WriteByte recordBus 0xA5 [] =
        [true, false, true, false, false, true, false, true] by decide!] at h
      exact h⟩

/-! ## The CONVERT step -/

theorem tmpRank_succ (chart : List (List Nat)) (n : Nat) :
    tmpRank chart (n + 1) =
      tmpRank chart n + (if isTmpFamily (getChartByte chart n 0) = true then 1 else 0) := by
  unfold tmpRank
  rw [List.range'_1_concat, List.countP_append]
  simp [List.countP_cons]

/-- When the chart holds more temperature sensors than the cursor's value, the
entry the cursor points to exists. -/
theorem exists_target (chart : List (List Nat)) (idx : Nat) :
    ∀ n, idx < tmpRank chart n →
      ∃ k < n, isTmpFamily (getChartByte chart k 0) = true ∧ tmpRank chart k = idx := by
  intro n
  induction n with
  | zero => intro h; simp [tmpRank] at h
  | succ n ih =>
    intro h
    rw [tmpRank_succ] at h
    by_cases hlt : idx < tmpRank chart n
    · obtain ⟨k, hk, h1, h2⟩ := ih hlt
      exact ⟨k, by omega, h1, h2⟩
    · by_cases hf : isTmpFamily (getChartByte chart n 0) = true
      · rw [if_pos hf] at h
        exact ⟨n, by omega, hf, by omega⟩
      · rw [if_neg hf] at h
        omega

theorem WriteBytes_append {σ : Type} (bus : Bus σ) (xs ys : List Nat) (b : σ) :
    WriteBytes bus (xs ++ ys) b = WriteBytes bus ys (WriteBytes bus xs b) := by
  induction xs generalizing b with
  | nil => rfl
  | cons x xs ih =>
    show WriteBytes bus (xs ++ ys) (WriteByte bus x b) = _
    rw [ih]
    rfl

theorem take8_eq_map (e : List Nat) (h : e.length = 8) :
    e.take 8 = (List.range 8).map (fun i => e.getD i 0) := by
  match e, h with
  | [a0, a1, a2, a3, a4, a5, a6, a7], _ => rfl

theorem convertLoop_target {σ : Type} (w : World σ) (s : Dallas) (k : Nat)
    (hfam : isTmpFamily (getChartByte s.DallasChart k 0) = true)
    (hidx : s.TmpSensorIndex < 256) :
    ∀ (n dallasNum dallasIndex : Nat) (found : Bool) (b : σ),
      dallasNum ≤ k → k < dallasNum + n → dallasNum + n ≤ 256 →
      dallasIndex + (List.range' dallasNum (k - dallasNum)).countP
        (fun i => isTmpFamily (getChartByte s.DallasChart i 0)) = s.TmpSensorIndex →
      (w.touchReset b).1 = true →
      convertLoop w s n dallasNum dallasIndex found b =
        { found := true
          started := true
          env := w.convertTimerStart
            (if getChartByte s.DallasChart k 0 = DS1820_FAMILY_CODE then DS1820_CONVERT_TIMEOUT
             else DS18B20_CONVERT_TIMEOUT_9BIT)
            (w.setOneWireData true
              (WriteByte w.toBus CMD_CONVERT_TMP
                (WriteBytes w.toBus ((s.DallasChart.getD k []).take 8)
                  (WriteByte w.toBus CMD_MATCH_ROM (w.touchReset b).2)))) } := by
  intro n
  induction n with
  | zero => intro dallasNum dallasIndex found b h1 h2; omega
  | succ n ih =>
    intro dallasNum dallasIndex found b h1 h2 h3 h4 hp
    rcases Nat.eq_or_lt_of_le h1 with heq | hlt
    · subst heq
      simp only [Nat.sub_self, List.range'_zero, List.countP_nil, Nat.add_zero] at h4
      have hfam2 : isTmpFamily ((s.DallasChart.getD dallasNum []).getD 0 0) = true := hfam
      simp only [convertLoop, hfam2, h4, hp, if_true, getChartByte]
    · have hk : k - dallasNum = (k - (dallasNum + 1)) + 1 := by omega
      rw [hk, List.range'_succ, List.countP_cons] at h4
      have hmod : (dallasNum + 1) % 256 = dallasNum + 1 := Nat.mod_eq_of_lt (by omega)
      simp only [convertLoop, hmod]
      by_cases hf : isTmpFamily ((s.DallasChart.getD dallasNum []).getD 0 0) = true
      · have hf2 : isTmpFamily (getChartByte s.DallasChart dallasNum 0) = true := hf
        simp only [hf2, if_true] at h4
        have hne : dallasIndex ≠ s.TmpSensorIndex := by omega
        have hmod2 : (dallasIndex + 1) % 256 = dallasIndex + 1 := Nat.mod_eq_of_lt (by omega)
        simp only [hf, if_true, hne, if_false, hmod2]
        exact ih _ _ _ _ (by omega) (by omega) (by omega) (by omega) hp
      · have hf2 : ¬ isTmpFamily (getChartByte s.DallasChart dallasNum 0) = true := hf
        simp only [hf2, if_false, Nat.add_zero] at h4
        simp only [hf, if_false]
        exact ih _ _ _ _ (by omega) (by omega) (by omega) h4 hp

/-- C18. CONVERT addresses the cursor's target and starts the right timer: in
state CONVERT_TMP with a registry of well-formed entries that holds more than
TmpSensorIndex entries of family 0x10 or 0x28, when the presence probe of the
step and the probe at the target succeed, `Dallas::Execute` finds the entry
`k` that is the TmpSensorIndex-th of these in registry order, writes to the
bus exactly the bytes 0x55, the 8 bytes of that entry from index 0 to 7 and
0x44, calls `SetOneWireData(true)`, starts the conversion timer with 750 when
the family of the entry is 0x10 and with 100 otherwise, sets Step to READ_TMP
and changes nothing else of the driver state. -/
theorem convert_addresses_target {σ : Type} (w : World σ) (s : Dallas) (b : σ)
    (hstep : s.Step = Step_t.CONVERT_TMP) (hsize : s.DallasChartSize < 256)
    (hwf : ∀ i < s.DallasChartSize, (s.DallasChart.getD i []).length = 8)
    (hcount : s.TmpSensorIndex < tmpRank s.DallasChart s.DallasChartSize)
    (hp1 : (w.touchReset b).1 = true)
    (hp2 : (w.touchReset (w.touchReset b).2).1 = true) :
    ∃ k < s.DallasChartSize,
      isTmpFamily (getChartByte s.DallasChart k 0) = true ∧
      tmpRank s.DallasChart k = s.TmpSensorIndex ∧
      Execute w s b =
        ({ s with Step := Step_t.READ_TMP },
          w.convertTimerStart
            (if getChartByte s.DallasChart k 0 = 0x10 then 750 else 100)
            (w.setOneWireData true
              (WriteBytes w.toBus
                ([0x55] ++ (List.range 8).map (fun i => getChartByte s.DallasChart k i) ++ [0x44])
                (w.touchReset (w.touchReset b).2).2))) := by
  obtain ⟨k, hk, hfam, hrank⟩ := exists_target s.DallasChart s.TmpSensorIndex _ hcount
  refine ⟨k, hk, hfam, hrank, ?_⟩
  have hne : s.DallasChartSize ≠ 0 := by omega
  have hidx : s.TmpSensorIndex < 256 := by
    have := tmpRank_le s.DallasChart k
    omega
  have hloop := convertLoop_target w s k hfam hidx s.DallasChartSize 0 0 false
    (w.touchReset b).2 (Nat.zero_le _) (by omega) (by omega)
    (by simpa [tmpRank] using hrank) hp2
  have hbytes : WriteBytes w.toBus
      ([0x55] ++ (List.range 8).map (fun i => getChartByte s.DallasChart k i) ++ [0x44])
      (w.touchReset (w.touchReset b).2).2 =
      WriteByte w.toBus CMD_CONVERT_TMP
        (WriteBytes w.toBus ((s.DallasChart.getD k []).take 8)
          (WriteByte w.toBus CMD_MATCH_ROM (w.touchReset (w.touchReset b).2).2)) := by
    rw [WriteBytes_append, WriteBytes_append, take8_eq_map _ (hwf k hk)]
    rfl
  unfold Execute
  simp only [hstep, hne, ne_eq, not_false_eq_true, if_true, hp1, hloop, Bool.not_true,
    Bool.false_eq_true, if_false, hbytes]
  rfl

set_option maxRecDepth 100000 in
theorem convert_addresses_target_witness :
    ∃ k < 2,
      isTmpFamily (getChartByte (twoSensors Step_t.CONVERT_TMP 1).DallasChart k 0) = true ∧
      tmpRank (twoSensors Step_t.CONVERT_TMP 1).DallasChart k = 1 ∧
      Execute scriptWorld (twoSensors Step_t.CONVERT_TMP 1) [] =
        ({ twoSensors Step_t.CONVERT_TMP 1 with Step := Step_t.READ_TMP },
          scriptWorld.convertTimerStart
            (if getChartByte (twoSensors Step_t.CONVERT_TMP 1).DallasChart k 0 = 0x10
              then 750 else 100)
            (scriptWorld.setOneWireData true
              (WriteBytes scriptWorld.toBus
                ([0x55] ++
                  (List.range 8).map
                    (fun i => getChartByte (twoSensors Step_t.CONVERT_TMP 1).DallasChart k i) ++
                  [0x44])
                (scriptWorld.touchReset (scriptWorld.touchReset []).2).2))) :=
  convert_addresses_target scriptWorld (twoSensors Step_t.CONVERT_TMP 1) [] (by decide)
    (by decide) (by decide!) (by decide!) (by decide) (by decide)

/-! ## Presence faults in the CONVERT and READ steps -/

set_option maxRecDepth 100000 in
/-- C11 (counterexample). With two temperature sensors in the registry and a
bus whose presence probes are scripted: when the first probe of a CONVERT_TMP
tick fails with the cursor at 1, Step becomes SCAN_NET and the cursor stays 1;
when the first probe succeeds and the probe at the target fails, Step stays
CONVERT_TMP; when the probe of a READ_TMP tick fails with the cursor at 0, the
cursor moves on to 1 and Step becomes CONVERT_TMP. -/
theorem probe_fault_keeps_cursor :
    (twoSensors Step_t.CONVERT_TMP 1).DallasChartSize ≠ 0 ∧
      (faultWorld.touchReset ([false], [])).1 = false ∧
      (Execute faultWorld (twoSensors Step_t.CONVERT_TMP 1) ([false], [])).1.Step =
        Step_t.SCAN_NET ∧
      (Execute faultWorld (twoSensors Step_t.CONVERT_TMP 1) ([false], [])).1.TmpSensorIndex = 1 ∧
      (faultWorld.touchReset (faultWorld.touchReset ([true, false], [])).2).1 = false ∧
      Execute faultWorld (twoSensors Step_t.CONVERT_TMP 1) ([true, false], []) =
        (twoSensors Step_t.CONVERT_TMP 1, ([], [])) ∧
      (faultWorld.convertTimerElapsed ([false], [])).1 = true ∧
      Execute faultWorld (twoSensors Step_t.READ_TMP 0) ([false], []) =
        (twoSensors Step_t.CONVERT_TMP 1, ([], [])) := by
  decide!

/-- C11 (amended). Fault fallback of CONVERT: in state CONVERT_TMP with a
non-empty registry, when the first presence probe of the call fails,
`Dallas::Execute` sets Step to SCAN_NET and changes nothing else: the call
does nothing more on the bus, and TmpSensorIndex keeps its value. -/
theorem convert_probe_fault {σ : Type} (w : World σ) (s : Dallas) (b : σ)
    (hstep : s.Step = Step_t.CONVERT_TMP) (hsize : s.DallasChartSize ≠ 0)
    (hp : (w.touchReset b).1 = false) :
    Execute w s b = ({ s with Step := Step_t.SCAN_NET }, (w.touchReset b).2) ∧
      (Execute w s b).1.Step = Step_t.SCAN_NET ∧
      (Execute w s b).1.TmpSensorIndex = s.TmpSensorIndex := by
  have h : Execute w s b = ({ s with Step := Step_t.SCAN_NET }, (w.touchReset b).2) := by
    unfold Execute
    simp only [hstep, hsize, ne_eq, not_false_eq_true, if_true, hp, Bool.false_eq_true,
      if_false]
  rw [h]
  exact ⟨rfl, rfl, rfl⟩

set_option maxRecDepth 100000 in
theorem convert_probe_fault_witness :
    (Execute faultWorld (twoSensors Step_t.CONVERT_TMP 1) ([false], [])).1.Step =
        Step_t.SCAN_NET ∧
      (Execute faultWorld (twoSensors Step_t.CONVERT_TMP 1) ([false], [])).1.TmpSensorIndex =
        (twoSensors Step_t.CONVERT_TMP 1).TmpSensorIndex :=
  (convert_probe_fault faultWorld (twoSensors Step_t.CONVERT_TMP 1) ([false], [])
    (by decide) (by decide) (by decide)).2

/-! ## What `ScanNet` leaves alone -/

theorem Dallas.sameButSearch_refl (s : Dallas) : s.sameButSearch s := rfl

theorem Dallas.sameButSearch_trans {a b c : Dallas} (h1 : a.sameButSearch b)
    (h2 : b.sameButSearch c) : a.sameButSearch c := by
  unfold Dallas.sameButSearch at *
  rw [h2, h1]

theorem Dallas.sameBut_search {s s' : Dallas} (h : s.sameBut s') : s.sameButSearch s' := by
  unfold Dallas.sameBut at h
  unfold Dallas.sameButSearch
  rw [h]

theorem discover_sameButSearch {σ : Type} (bus : Bus σ) (advFuel : Nat) (s : Dallas) (b : σ) :
    s.sameButSearch (discover bus advFuel s b).1 := by
  have h := searchPass_sameBut bus
    ({ s with DallasChart := s.DallasChart.set s.DallasChartSize zeros8 }, 0,
      WriteByte bus CMD_SEARCH_ROM b)
  unfold Dallas.sameBut at h
  simp only [discover]
  unfold Dallas.sameButSearch
  rw [h]

theorem searchCycle_sameButSearch {σ : Type} (bus : Bus σ) (advFuel d : Nat) :
    ∀ (fuel : Nat) (s : Dallas) (fork : Nat) (b : σ),
      s.sameButSearch (searchCycle bus advFuel d fuel s fork b).1 := by
  intro fuel
  induction fuel with
  | zero => intro s fork b; exact Dallas.sameButSearch_refl s
  | succ fuel ih =>
    intro s fork b
    simp only [searchCycle]
    split
    · split
      · exact Dallas.sameButSearch_trans (discover_sameButSearch bus advFuel s _) (ih _ _ _)
      · exact Dallas.sameButSearch_refl s
    · exact Dallas.sameButSearch_refl s

theorem scanSearch_sameButSearch {σ : Type} (bus : Bus σ) (s : Dallas) (b : σ) :
    s.sameButSearch (scanSearch bus 4 routeFuel s b).1 := by
  unfold scanSearch
  dsimp only
  split
  · have h1 : s.sameButSearch { s with RouteMask := List.replicate 16 0, DallasChartSize := 0 } :=
      rfl
    exact Dallas.sameButSearch_trans h1 (searchCycle_sameButSearch bus routeFuel _ 4 _ 0xFF b)
  · exact searchCycle_sameButSearch bus routeFuel _ 4 s 0xFF b

/-- A call of `ScanNet` that returns false has written only the search cursor
and the chart. -/
theorem ScanNet_false_frame {σ : Type} (bus : Bus σ) (s : Dallas) (b : σ)
    (h : (ScanNet bus s b).1 = false) : s.sameButSearch (ScanNet bus s b).2.1 := by
  have hs := scanSearch_sameButSearch bus s b
  rcases ScanNet_cases bus s b with ⟨_, e⟩ | ⟨_, _, e⟩ | ⟨_, _, e, _⟩
  · rw [e]; exact hs
  · rw [e]
    exact Dallas.sameButSearch_trans hs rfl
  · rw [e] at h; exact Bool.noConfusion h

/-- A call of `ScanNet` that returns true, in full: the search has finished,
the chart has passed the CRC check unchanged, and the rest of the state is as
the renewal test leaves it. -/
theorem ScanNet_true {σ : Type} (bus : Bus σ) (s : Dallas) (b : σ)
    (h : (ScanNet bus s b).1 = true) :
    scanUnfinished (scanSearch bus 4 routeFuel s b).1 (scanSearch bus 4 routeFuel s b).2.1
        = false ∧
      (∀ i < (scanSearch bus 4 routeFuel s b).1.DallasChartSize,
        addressValid ((scanSearch bus 4 routeFuel s b).1.DallasChart.getD i []) = true) ∧
      ScanNet bus s b =
        if scanRenews (scanSearch bus 4 routeFuel s b).1 = true then
          (true,
            { (scanSearch bus 4 routeFuel s b).1 with
              Route := 0
              LastDallasChartSize := (scanSearch bus 4 routeFuel s b).1.DallasChartSize
              LastDallasChart :=
                memorizeChart (scanSearch bus 4 routeFuel s b).1.DallasChartSize
                  (scanSearch bus 4 routeFuel s b).1.DallasChart
                  (scanSearch bus 4 routeFuel s b).1.LastDallasChart
              ForceRenew := false
              TmpSensorCount :=
                (tuneLoop bus (scanSearch bus 4 routeFuel s b).1.DallasChartSize
                  (scanSearch bus 4 routeFuel s b).1.DallasChart
                  (scanSearch bus 4 routeFuel s b).2.2).1
              FirstScan := false },
            (tuneLoop bus (scanSearch bus 4 routeFuel s b).1.DallasChartSize
              (scanSearch bus 4 routeFuel s b).1.DallasChart
              (scanSearch bus 4 routeFuel s b).2.2).2)
        else
          (true,
            { (scanSearch bus 4 routeFuel s b).1 with
              Route := 0
              LastDallasChartSize := (scanSearch bus 4 routeFuel s b).1.DallasChartSize
              LastDallasChart :=
                memorizeChart (scanSearch bus 4 routeFuel s b).1.DallasChartSize
                  (scanSearch bus 4 routeFuel s b).1.DallasChart
                  (scanSearch bus 4 routeFuel s b).1.LastDallasChart },
            (scanSearch bus 4 routeFuel s b).2.2) := by
  rcases ScanNet_cases bus s b with ⟨_, e⟩ | ⟨_, _, e⟩ | ⟨hu, hc, _, _, _, _⟩
  · rw [e] at h; exact Bool.noConfusion h
  · rw [e] at h; exact Bool.noConfusion h
  · have hloop := checkCrcLoop_true _ 0 _ _ (Prod.ext hc rfl)
    refine ⟨hu, fun i hi => hloop.2 i (Nat.zero_le _) (by omega), ?_⟩
    have hu' : ¬ scanUnfinished (scanSearch bus 4 routeFuel s b).1
        (scanSearch bus 4 routeFuel s b).2.1 = true := by rw [hu]; exact Bool.false_ne_true
    have hc' : ¬ (checkCrcLoop (scanSearch bus 4 routeFuel s b).1.DallasChartSize 0
        (scanSearch bus 4 routeFuel s b).1.DallasChart).1 = false := by
      rw [hc]; exact Bool.noConfusion
    unfold ScanNet ScanNetFuel
    dsimp only
    rw [if_neg hu', if_neg hc']
    have hl := hloop.1
    simp only [hl]
    unfold scanRenews
    split <;> rfl

/-! ## Shape of the chart -/

theorem chartWF_set (c : List (List Nat)) (i : Nat) (e : List Nat) (h : chartWF c)
    (he : e.length = 8) : chartWF (c.set i e) := by
  refine ⟨by rw [List.length_set]; exact h.1, fun a ha => ?_⟩
  rcases List.mem_or_eq_of_mem_set ha with h1 | h1
  · exact h.2 a h1
  · rw [h1]; exact he

theorem chartWF_getD (c : List (List Nat)) (i : Nat) (h : chartWF c) (hi : i < 8) :
    (c.getD i []).length = 8 := by
  have hlt : i < c.length := by rw [h.1]; exact hi
  rw [List.getD_eq_getElem _ _ hlt]
  exact h.2 _ (List.getElem_mem hlt)

theorem chartWF_setChartByte (c : List (List Nat)) (i j v : Nat) (h : chartWF c) :
    chartWF (setChartByte c i j v) := by
  unfold setChartByte
  by_cases hi : i < c.length
  · apply chartWF_set c i _ h
    rw [List.length_set]
    exact chartWF_getD c i h (by rw [← h.1]; exact hi)
  · rw [List.set_eq_of_length_le (by omega)]
    exact h

theorem searchBit_chartWF {σ : Type} (bus : Bus σ) (byteNum bitNum : Nat)
    (st : Dallas × Nat × σ) (h : chartWF st.1.DallasChart) :
    chartWF (searchBit bus byteNum bitNum st).1.DallasChart := by
  unfold searchBit
  dsimp only
  split
  · exact chartWF_setChartByte _ _ _ _ h
  · split
    · exact chartWF_setChartByte _ _ _ _ h
    · split <;> exact chartWF_setChartByte _ _ _ _ h

theorem foldl_chartWF {σ α : Type} (f : Dallas × Nat × σ → α → Dallas × Nat × σ)
    (hf : ∀ (st : Dallas × Nat × σ) (a : α), chartWF st.1.DallasChart →
      chartWF (f st a).1.DallasChart) (l : List α) (st : Dallas × Nat × σ)
    (h : chartWF st.1.DallasChart) : chartWF (l.foldl f st).1.DallasChart := by
  induction l generalizing st with
  | nil => exact h
  | cons a l ih => exact ih _ (hf st a h)

theorem searchPass_chartWF {σ : Type} (bus : Bus σ) (st : Dallas × Nat × σ)
    (h : chartWF st.1.DallasChart) : chartWF (searchPass bus st).1.DallasChart :=
  foldl_chartWF _ (fun st byteNum h =>
    foldl_chartWF _ (fun st bitNum h => searchBit_chartWF bus byteNum bitNum st h) _ st h) _ st h

theorem discover_chartWF {σ : Type} (bus : Bus σ) (advFuel : Nat) (s : Dallas) (b : σ)
    (h : chartWF s.DallasChart) : chartWF (discover bus advFuel s b).1.DallasChart := by
  simp only [discover]
  exact searchPass_chartWF bus _ (chartWF_set _ _ _ h rfl)

theorem searchCycle_chartWF {σ : Type} (bus : Bus σ) (advFuel d : Nat) :
    ∀ (fuel : Nat) (s : Dallas) (fork : Nat) (b : σ), chartWF s.DallasChart →
      chartWF (searchCycle bus advFuel d fuel s fork b).1.DallasChart := by
  intro fuel
  induction fuel with
  | zero => intro s fork b h; exact h
  | succ fuel ih =>
    intro s fork b h
    simp only [searchCycle]
    split
    · split
      · exact ih _ _ _ (discover_chartWF bus advFuel s _ h)
      · exact h
    · exact h

theorem scanSearch_chartWF {σ : Type} (bus : Bus σ) (s : Dallas) (b : σ)
    (h : chartWF s.DallasChart) : chartWF (scanSearch bus 4 routeFuel s b).1.DallasChart := by
  unfold scanSearch
  dsimp only
  split
  · exact searchCycle_chartWF bus routeFuel _ 4 _ 0xFF b h
  · exact searchCycle_chartWF bus routeFuel _ 4 s 0xFF b h

theorem searchCycle_size_le_max {σ : Type} (bus : Bus σ) (advFuel d : Nat) :
    ∀ (fuel : Nat) (s : Dallas) (fork : Nat) (b : σ), s.DallasChartSize ≤ 8 →
      (searchCycle bus advFuel d fuel s fork b).1.DallasChartSize ≤ 8 := by
  intro fuel
  induction fuel with
  | zero => intro s fork b h; exact h
  | succ fuel ih =>
    intro s fork b h
    simp only [searchCycle]
    split
    · rename_i hg
      have h8 : s.DallasChartSize < 8 := hg.2.2.1
      split
      · apply ih
        rw [discover_size, Nat.mod_eq_of_lt (by omega)]
        omega
      · exact h
    · exact h

theorem scanSearch_size_le_max {σ : Type} (bus : Bus σ) (s : Dallas) (b : σ)
    (h : s.Route ≠ 0 → s.DallasChartSize ≤ 8) :
    (scanSearch bus 4 routeFuel s b).1.DallasChartSize ≤ 8 := by
  unfold scanSearch
  dsimp only
  split
  · exact searchCycle_size_le_max bus routeFuel _ 4 _ 0xFF b (Nat.zero_le _)
  · rename_i h0
    exact searchCycle_size_le_max bus routeFuel _ 4 s 0xFF b (h h0)

/-! ## The promotion of the registry -/

theorem memcpy8_wf (dst src : List Nat) (hd : dst.length = 8) (hs : src.length = 8) :
    memcpy8 dst src = src := by
  unfold memcpy8
  rw [List.take_of_length_le (by omega), List.drop_of_length_le (by omega), List.append_nil]

theorem memorizeChart_spec (chart last : List (List Nat)) (size : Nat) (hsz : size ≤ last.length) :
    (memorizeChart size chart last).length = last.length ∧
      (∀ i < size, (memorizeChart size chart last).getD i [] =
        memcpy8 (last.getD i []) (chart.getD i [])) ∧
      ∀ i, size ≤ i → (memorizeChart size chart last).getD i [] = last.getD i [] := by
  unfold memorizeChart
  have h := foldl_range_inv
    (fun n (l : List (List Nat)) => n ≤ size → (l.length = last.length ∧
      (∀ i < n, l.getD i [] = memcpy8 (last.getD i []) (chart.getD i [])) ∧
      ∀ i, n ≤ i → l.getD i [] = last.getD i []))
    (fun l dallasNum => l.set dallasNum (memcpy8 (l.getD dallasNum []) (chart.getD dallasNum [])))
    size last
    (fun _ => ⟨rfl, fun i hi => absurd hi (Nat.not_lt_zero i), fun i _ => rfl⟩)
    (fun n hn l ih hle => by
      obtain ⟨h1, h2, h3⟩ := ih (by omega)
      refine ⟨by rw [List.length_set]; exact h1, fun i hi => ?_, fun i hi => ?_⟩
      · rcases Nat.eq_or_lt_of_le (Nat.le_of_lt_succ hi) with e | e
        · subst e
          rw [getD_set_self _ _ _ _ (by omega), h3 i (Nat.le_refl _)]
        · rw [getD_set_ne _ _ _ _ _ (by omega)]
          exact h2 i e
      · rw [getD_set_ne _ _ _ _ _ (by omega)]
        exact h3 i (by omega))
  exact h (Nat.le_refl _)

/-- A call of `ScanNet` that returns true has copied the registry into the
previous registry. -/
theorem ScanNet_promotes {σ : Type} (bus : Bus σ) (s : Dallas) (b : σ)
    (hchart : chartWF s.DallasChart) (hlast : chartWF s.LastDallasChart)
    (hsize : s.Route ≠ 0 → s.DallasChartSize ≤ 8) (h : (ScanNet bus s b).1 = true) :
    (ScanNet bus s b).2.1.LastDallasChartSize = (ScanNet bus s b).2.1.DallasChartSize ∧
      ∀ i < (ScanNet bus s b).2.1.DallasChartSize,
        (ScanNet bus s b).2.1.LastDallasChart.getD i [] =
          (ScanNet bus s b).2.1.DallasChart.getD i [] := by
  obtain ⟨_, _, e⟩ := ScanNet_true bus s b h
  have hs := scanSearch_sameButSearch bus s b
  have hwf := scanSearch_chartWF bus s b hchart
  have hle := scanSearch_size_le_max bus s b hsize
  have hlast2 : (scanSearch bus 4 routeFuel s b).1.LastDallasChart = s.LastDallasChart := by
    unfold Dallas.sameButSearch at hs
    rw [hs]
  have hm := memorizeChart_spec (scanSearch bus 4 routeFuel s b).1.DallasChart
    (scanSearch bus 4 routeFuel s b).1.LastDallasChart
    (scanSearch bus 4 routeFuel s b).1.DallasChartSize
    (by rw [hlast2, hlast.1]; exact hle)
  have hentry : ∀ i < (scanSearch bus 4 routeFuel s b).1.DallasChartSize,
      (memorizeChart (scanSearch bus 4 routeFuel s b).1.DallasChartSize
        (scanSearch bus 4 routeFuel s b).1.DallasChart
        (scanSearch bus 4 routeFuel s b).1.LastDallasChart).getD i [] =
      (scanSearch bus 4 routeFuel s b).1.DallasChart.getD i [] := by
    intro i hi
    rw [hm.2.1 i hi, hlast2]
    exact memcpy8_wf _ _ (chartWF_getD _ i hlast (by omega)) (chartWF_getD _ i hwf (by omega))
  rw [e]
  split
  · exact ⟨rfl, hentry⟩
  · exact ⟨rfl, hentry⟩

/-- C16. The previous registry is replaced only by a successful scan, for
every bus behaviour and every state whose two charts are 8 buffers of 8 bytes
(with DallasChartSize at most 8 when a scan is resumed): when
`Dallas::ScanNet` returns false, LastDallasChart, LastDallasChartSize,
TmpSensorCount and ForceRenew are as they were at entry; when it returns
true, LastDallasChartSize equals DallasChartSize and each of the first
DallasChartSize entries of LastDallasChart equals the entry of DallasChart at
the same index. -/
theorem last_registry_promotion {σ : Type} (bus : Bus σ) (s : Dallas) (b : σ)
    (hchart : chartWF s.DallasChart) (hlast : chartWF s.LastDallasChart)
    (hsize : s.Route ≠ 0 → s.DallasChartSize ≤ 8) :
    ((ScanNet bus s b).1 = false →
        (ScanNet bus s b).2.1.LastDallasChart = s.LastDallasChart ∧
        (ScanNet bus s b).2.1.LastDallasChartSize = s.LastDallasChartSize ∧
        (ScanNet bus s b).2.1.TmpSensorCount = s.TmpSensorCount ∧
        (ScanNet bus s b).2.1.ForceRenew = s.ForceRenew) ∧
      ((ScanNet bus s b).1 = true →
        (ScanNet bus s b).2.1.LastDallasChartSize = (ScanNet bus s b).2.1.DallasChartSize ∧
        ∀ i < (ScanNet bus s b).2.1.DallasChartSize,
          (ScanNet bus s b).2.1.LastDallasChart.getD i [] =
            (ScanNet bus s b).2.1.DallasChart.getD i []) := by
  constructor
  · intro h
    have hf := ScanNet_false_frame bus s b h
    unfold Dallas.sameButSearch at hf
    rw [hf]
    exact ⟨rfl, rfl, rfl, rfl⟩
  · exact ScanNet_promotes bus s b hchart hlast hsize

set_option maxRecDepth 1000000 in
theorem last_registry_promotion_witness :
    (ScanNet idealBus (Dallas.new (List.replicate 16 0) 0)
        (idealWith (combOfFour.take 1))).2.1.LastDallasChartSize =
      (ScanNet idealBus (Dallas.new (List.replicate 16 0) 0)
        (idealWith (combOfFour.take 1))).2.1.DallasChartSize :=
  ((last_registry_promotion idealBus (Dallas.new (List.replicate 16 0) 0) (idealWith (combOfFour.take 1))
    (by unfold chartWF; decide) (by unfold chartWF; decide) (fun h => absurd rfl h)).2
      (by decide!)).1

/-! ## The renewal -/

theorem chartDiffers_iff (size : Nat) (chart last : List (List Nat)) :
    chartDiffers size chart last = true ↔
      ∃ i < size, (chart.getD i []).take 8 ≠ (last.getD i []).take 8 := by
  unfold chartDiffers memEq8
  simp only [List.any_eq_true, List.mem_range, Bool.not_eq_true', beq_eq_false_iff_ne, ne_eq]

theorem tuneStep_spec {σ : Type} (bus : Bus σ) (chart : List (List Nat)) (st : Nat × σ)
    (i : Nat) :
    tuneStep bus chart st i =
      ((if isTmpFamily (getChartByte chart i 0) = true then (st.1 + 1) % 256 else st.1),
        if getChartByte chart i 0 = 0x28 then
          if (bus.touchReset st.2).1 then
            WriteBytes bus ([0x55] ++ (chart.getD i []).take 8 ++ [0x4E, 0x00, 0x00, 0x1F])
              (bus.touchReset st.2).2
          else (bus.touchReset st.2).2
        else st.2) := by
  unfold tuneStep
  dsimp only
  by_cases hf : isTmpFamily ((chart.getD i []).getD 0 0) = true
  · have hf2 : isTmpFamily (getChartByte chart i 0) = true := hf
    rw [if_pos hf, if_pos hf2]
    by_cases h28 : (chart.getD i []).getD 0 0 = DS18B20_FAMILY_CODE
    · have h28' : getChartByte chart i 0 = 0x28 := h28
      rw [if_pos h28, if_pos h28']
      by_cases hp : (bus.touchReset st.2).1 = true
      · rw [if_pos hp, if_pos hp, WriteBytes_append, WriteBytes_append]
        rfl
      · rw [if_neg hp, if_neg hp]
    · have h28' : ¬ getChartByte chart i 0 = 0x28 := h28
      rw [if_neg h28, if_neg h28']
  · have hf2 : ¬ isTmpFamily (getChartByte chart i 0) = true := hf
    have h28 : ¬ getChartByte chart i 0 = 0x28 := by
      intro e
      apply hf2
      rw [e]
      rfl
    rw [if_neg hf, if_neg hf2, if_neg h28]

theorem tuneLoop_spec {σ : Type} (bus : Bus σ) (size : Nat) (chart : List (List Nat)) (b : σ) :
    tuneLoop bus size chart b =
      (tmpRank chart size % 256, renewalTraffic bus size chart b) := by
  unfold tuneLoop
  have h := foldl_range_inv
    (fun n (st : Nat × σ) => st = (tmpRank chart n % 256, renewalTraffic bus n chart b))
    (tuneStep bus chart) size (0, b) rfl
    (fun n _ st ih => by
      rw [tuneStep_spec, ih]
      apply Prod.ext
      · show (if isTmpFamily (getChartByte chart n 0) = true then
            (tmpRank chart n % 256 + 1) % 256 else tmpRank chart n % 256) =
          tmpRank chart (n + 1) % 256
        rw [tmpRank_succ]
        split
        · omega
        · rfl
      · show _ = renewalTraffic bus (n + 1) chart b
        unfold renewalTraffic
        rw [List.range_succ, List.foldl_append]
        rfl)
  exact h

/-- C14. Renewal fires exactly on change or on the pending flag.  In a call
to `Dallas::ScanNet` that returns true, the renewal path is taken if and only
if DallasChartSize differs from the LastDallasChartSize of entry, or some
entry below DallasChartSize differs in its 8 bytes from the entry of the
previous registry at the same index, or ForceRenew was set at entry.  When it
is taken, ForceRenew is cleared, TmpSensorCount becomes the number of entries
of family 0x10 or 0x28 (as a `uint8_t`), and the bus sees, after the search,
a presence probe for each entry of family 0x28 in registry order and, when
the probe succeeds, the bytes 0x55, the 8 address bytes, 0x4E, 0x00, 0x00,
0x1F.  Otherwise nothing happens on the bus after the search and
TmpSensorCount and ForceRenew are untouched. -/
theorem renewal_iff_changed {σ : Type} (bus : Bus σ) (s : Dallas) (b : σ)
    (h : (ScanNet bus s b).1 = true) :
    (scanRenews (scanSearch bus 4 routeFuel s b).1 = true ↔
        ((ScanNet bus s b).2.1.DallasChartSize ≠ s.LastDallasChartSize ∨
          (∃ i < (ScanNet bus s b).2.1.DallasChartSize,
            ((ScanNet bus s b).2.1.DallasChart.getD i []).take 8 ≠
              (s.LastDallasChart.getD i []).take 8) ∨
          s.ForceRenew = true)) ∧
      (scanRenews (scanSearch bus 4 routeFuel s b).1 = true →
        (ScanNet bus s b).2.1.ForceRenew = false ∧
        (ScanNet bus s b).2.1.TmpSensorCount =
          tmpRank (ScanNet bus s b).2.1.DallasChart (ScanNet bus s b).2.1.DallasChartSize % 256 ∧
        (ScanNet bus s b).2.2 =
          renewalTraffic bus (ScanNet bus s b).2.1.DallasChartSize
            (ScanNet bus s b).2.1.DallasChart (scanSearch bus 4 routeFuel s b).2.2) ∧
      (scanRenews (scanSearch bus 4 routeFuel s b).1 = false →
        (ScanNet bus s b).2.1.ForceRenew = s.ForceRenew ∧
        (ScanNet bus s b).2.1.TmpSensorCount = s.TmpSensorCount ∧
        (ScanNet bus s b).2.2 = (scanSearch bus 4 routeFuel s b).2.2) := by
  obtain ⟨_, _, e⟩ := ScanNet_true bus s b h
  have hs := scanSearch_sameButSearch bus s b
  unfold Dallas.sameButSearch at hs
  have hF : (scanSearch bus 4 routeFuel s b).1.ForceRenew = s.ForceRenew := by rw [hs]
  have hL : (scanSearch bus 4 routeFuel s b).1.LastDallasChart = s.LastDallasChart := by rw [hs]
  have hLs : (scanSearch bus 4 routeFuel s b).1.LastDallasChartSize = s.LastDallasChartSize := by
    rw [hs]
  have hC : (scanSearch bus 4 routeFuel s b).1.TmpSensorCount = s.TmpSensorCount := by rw [hs]
  have hsz : (ScanNet bus s b).2.1.DallasChartSize =
      (scanSearch bus 4 routeFuel s b).1.DallasChartSize := by
    rw [e]; split <;> rfl
  have hch : (ScanNet bus s b).2.1.DallasChart =
      (scanSearch bus 4 routeFuel s b).1.DallasChart := by
    rw [e]; split <;> rfl
  refine ⟨?_, fun hr => ?_, fun hr => ?_⟩
  · rw [hsz, hch]
    unfold scanRenews
    rw [Bool.or_eq_true, Bool.or_eq_true, chartDiffers_iff, hF, hL, hLs, bne_iff_ne, or_assoc]
  · rw [hsz, hch, e, if_pos hr, tuneLoop_spec]
    exact ⟨rfl, rfl, rfl⟩
  · have hr' : ¬ scanRenews (scanSearch bus 4 routeFuel s b).1 = true := by
      rw [hr]; exact Bool.false_ne_true
    rw [e, if_neg hr']
    exact ⟨hF, hC, rfl⟩

set_option maxRecDepth 1000000 in
theorem renewal_iff_changed_witness :
    (ScanNet idealBus (Dallas.new (List.replicate 16 0) 0)
        (idealWith (combOfFour.take 1))).2.1.TmpSensorCount = 1 :=
  (((renewal_iff_changed idealBus (Dallas.new (List.replicate 16 0) 0) (idealWith (combOfFour.take 1))
    (by decide!)).2.1 (by decide!)).2.1).trans (by decide!)

/-! ## Presence faults during a scan -/

theorem ScanNet_Step {σ : Type} (bus : Bus σ) (s : Dallas) (b : σ)
    (h : (ScanNet bus s b).1 = false) : (ScanNet bus s b).2.1.Step = s.Step := by
  have hf := ScanNet_false_frame bus s b h
  unfold Dallas.sameButSearch at hf
  rw [hf]

set_option maxRecDepth 1000000 in
/-- C20 (the code at the failing input). In the fresh scan of the ideal bus
carrying `combOfFour` the passes are made with Route = 0, 1 and 3 (Route 2 is
skipped), and the masks recorded for them are 1, 3 and 7.  After the pass
with Route = 3 the smallest route above 3 that differs under the recorded
mask from each of the explored routes 0, 1 and 3 is 7, but the route check of
`Dallas::ScanNet` sets Route to 16: it also compares with route 2, whose
mask was never recorded and is 0. -/
theorem route_check_skips_unexplored_branch :
    (idealPasses combOfFour 0).1.Route = 0 ∧
      (idealPasses combOfFour 1).1.Route = 1 ∧
      (idealPasses combOfFour 2).1.Route = 3 ∧
      (idealPasses combOfFour 3).1.RouteMask =
        [1, 3, 0, 7, 0, 0, 0, 0, 0, 0, 0, 0, 0, 0, 0, 0] ∧
      nextRouteClaimed [0, 1, 3] (idealPasses combOfFour 3).1.RouteMask 3 = 7 ∧
      (idealPasses combOfFour 3).1.Route = 16 ∧
      routeAdvance (idealPasses combOfFour 3).1.RouteMask 3 routeFuel 4 0 = 16 ∧
      (7 &&& (0 : Nat)) = (2 &&& 0) := by
  decide!

set_option maxRecDepth 1000000 in
/-- C15 (the code at the failing input). The scan of the ideal bus carrying
the four devices of `combOfFour` completes with the registry of the devices
00, 01 and 03.  When the device 07 is then removed, the next scan completes
with the same registry and does not take the renewal path: the call finds
DallasChartSize equal to LastDallasChartSize and no entry changed. -/
theorem lost_device_not_noticed :
    combOfFour = combOfFour.take 3 ++ [[0x28, 7, 0, 0, 0, 0, 0, 155]] ∧
      combOfFour.Nodup ∧ (∀ a ∈ combOfFour, addressValid a = true) ∧
      (ScanNet idealBus (Dallas.new (List.replicate 16 0) 0) (idealWith combOfFour)).1 = true ∧
      (ScanNet idealBus (Dallas.new (List.replicate 16 0) 0)
        (idealWith combOfFour)).2.1.DallasChart.take 3 = combOfFour.take 3 ∧
      (ScanNet idealBus
        (ScanNet idealBus (Dallas.new (List.replicate 16 0) 0) (idealWith combOfFour)).2.1
        (idealWith (combOfFour.take 3))).1 = true ∧
      scanRenews (scanSearch idealBus 4 routeFuel
        (ScanNet idealBus (Dallas.new (List.replicate 16 0) 0) (idealWith combOfFour)).2.1
        (idealWith (combOfFour.take 3))).1 = false ∧
      (ScanNet idealBus
        (ScanNet idealBus (Dallas.new (List.replicate 16 0) 0) (idealWith combOfFour)).2.1
        (idealWith (combOfFour.take 3))).2.1.DallasChart.take 3 = combOfFour.take 3 := by
  decide!

/-! ## The sensor cursor across scans -/

theorem ScanNet_TmpSensorIndex {σ : Type} (bus : Bus σ) (s : Dallas) (b : σ) :
    (ScanNet bus s b).2.1.TmpSensorIndex = s.TmpSensorIndex := by
  have hs := scanSearch_sameButSearch bus s b
  unfold Dallas.sameButSearch at hs
  have hi : (scanSearch bus 4 routeFuel s b).1.TmpSensorIndex = s.TmpSensorIndex := by rw [hs]
  cases h : (ScanNet bus s b).1
  · have hf := ScanNet_false_frame bus s b h
    unfold Dallas.sameButSearch at hf
    rw [hf]
  · obtain ⟨_, _, e⟩ := ScanNet_true bus s b h
    rw [e]
    split <;> exact hi

/-- The cursor is 0 unless the machine is polling a non-empty registry: kept
by every tick but a CONVERT_TMP tick whose first presence probe fails. -/
theorem Execute_cursor {σ : Type} (w : World σ) (s : Dallas) (b : σ)
    (inv : s.TmpSensorIndex = 0 ∨ (s.Step ≠ Step_t.SCAN_NET ∧ s.DallasChartSize ≠ 0))
    (hp : s.Step = Step_t.CONVERT_TMP → s.DallasChartSize ≠ 0 → (w.touchReset b).1 = true) :
    (Execute w s b).1.TmpSensorIndex = 0 ∨
      ((Execute w s b).1.Step ≠ Step_t.SCAN_NET ∧ (Execute w s b).1.DallasChartSize ≠ 0) := by
  cases hstep : s.Step
  · -- SCAN_NET
    have h0 : s.TmpSensorIndex = 0 := by
      rcases inv with h | ⟨h, _⟩
      · exact h
      · exact absurd hstep h
    left
    unfold Execute
    simp only [hstep]
    split
    · split
      · show (ScanNet w.toBus s _).2.1.TmpSensorIndex = 0
        rw [ScanNet_TmpSensorIndex]; exact h0
      · show (ScanNet w.toBus s _).2.1.TmpSensorIndex = 0
        rw [ScanNet_TmpSensorIndex]; exact h0
    · exact h0
  · -- CONVERT_TMP
    unfold Execute
    simp only [hstep]
    by_cases hsz : s.DallasChartSize ≠ 0
    · rw [if_pos hsz, if_pos (hp hstep hsz)]
      split
      · left; rfl
      · split
        · right
          exact ⟨by simp, hsz⟩
        · right
          exact ⟨by rw [hstep]; simp, hsz⟩
    · rw [if_neg hsz]
      left
      rcases inv with h | ⟨_, h⟩
      · exact h
      · exact absurd h hsz
  · -- READ_TMP
    unfold Execute
    simp only [hstep]
    by_cases hsz : s.DallasChartSize = 0
    · rw [if_pos hsz]
      left
      rcases inv with h | ⟨_, h⟩
      · exact h
      · exact absurd hsz h
    · rw [if_neg hsz]
      split
      · split
        · left; rfl
        · split
          · left; rfl
          · unfold advanceCursor
            dsimp only
            split
            · left; rfl
            · right
              exact ⟨by simp, hsz⟩
      · right
        exact ⟨by rw [hstep]; simp, hsz⟩

theorem reachProbed_cursor {σ : Type} (w : World σ) (s : Dallas) (h : ReachProbed w s) :
    s.TmpSensorIndex = 0 ∨ (s.Step ≠ Step_t.SCAN_NET ∧ s.DallasChartSize ≠ 0) := by
  induction h with
  | init routeMask0 tmpSensorCount0 => left; rfl
  | step s b _ hp ih => exact Execute_cursor w s b ih hp

set_option maxRecDepth 1000000 in
/-- C17 (counterexample). On the ideal bus, with two sensors in the registry
and the cursor at 1, the devices are detached at a CONVERT_TMP tick: the first
presence probe fails and the machine goes back to SCAN_NET with the cursor
still at 1.  The scan of the bus that then carries three devices completes,
takes the renewal path, and leaves the cursor at 1. -/
theorem renewal_keeps_cursor :
    Reach idealWorld (lostBusRun 4).1 ∧
      (lostBusRun 3).1.Step = Step_t.CONVERT_TMP ∧
      (lostBusRun 3).1.TmpSensorIndex = 1 ∧
      (idealWorld.touchReset (idealWith [])).1 = false ∧
      (lostBusRun 4).1.Step = Step_t.SCAN_NET ∧
      (lostBusRun 4).1.TmpSensorIndex = 1 ∧
      (ScanNet idealBus (lostBusRun 4).1 (idealWith (combOfFour.take 3))).1 = true ∧
      scanRenews (scanSearch idealBus 4 routeFuel (lostBusRun 4).1
        (idealWith (combOfFour.take 3))).1 = true ∧
      (ScanNet idealBus (lostBusRun 4).1 (idealWith (combOfFour.take 3))).2.1.TmpSensorIndex
        = 1 :=
  ⟨Reach.step (lostBusRun 3).1 (idealWith [])
      (Reach.step (lostBusRun 2).1 (lostBusRun 2).2
        (Reach.step (lostBusRun 1).1 (lostBusRun 1).2
          (Reach.step (lostBusRun 0).1 (lostBusRun 0).2
            (Reach.init (List.replicate 16 0) 0)))),
    by decide!⟩

/-- C17 (amended). The sensor cursor across a scan.  `Dallas::ScanNet` never
writes TmpSensorIndex.  In every state reachable from the constructor state
through calls to `Dallas::Execute` in none of which the first presence probe
of a CONVERT_TMP tick fails, TmpSensorIndex is 0 whenever Step is SCAN_NET,
and so it is 0 after every call to `ScanNet` made by a SCAN_NET tick, in
particular after a completed scan that takes the renewal path. -/
theorem cursor_zero_after_scan {σ : Type} (w : World σ) (s : Dallas) (b : σ)
    (hreach : ReachProbed w s) (hstep : s.Step = Step_t.SCAN_NET) :
    (∀ (s' : Dallas) (b' : σ),
        (ScanNet w.toBus s' b').2.1.TmpSensorIndex = s'.TmpSensorIndex) ∧
      s.TmpSensorIndex = 0 ∧
      (ScanNet w.toBus s b).2.1.TmpSensorIndex = 0 ∧
      ((ScanNet w.toBus s b).1 = true →
        scanRenews (scanSearch w.toBus 4 routeFuel s b).1 = true →
        (ScanNet w.toBus s b).2.1.TmpSensorIndex = 0) ∧
      (Execute w s b).1.TmpSensorIndex = 0 := by
  have h0 : s.TmpSensorIndex = 0 := by
    rcases reachProbed_cursor w s hreach with h | ⟨h, _⟩
    · exact h
    · exact absurd hstep h
  have h1 : (ScanNet w.toBus s b).2.1.TmpSensorIndex = 0 := by
    rw [ScanNet_TmpSensorIndex]; exact h0
  refine ⟨fun s' b' => ScanNet_TmpSensorIndex w.toBus s' b', h0, h1, fun _ _ => h1, ?_⟩
  unfold Execute
  simp only [hstep]
  split
  · split
    · show (ScanNet w.toBus s _).2.1.TmpSensorIndex = 0
      rw [ScanNet_TmpSensorIndex]; exact h0
    · show (ScanNet w.toBus s _).2.1.TmpSensorIndex = 0
      rw [ScanNet_TmpSensorIndex]; exact h0
  · exact h0

set_option maxRecDepth 1000000 in
theorem cursor_zero_after_scan_witness :
    (ScanNet idealBus
      (Execute idealWorld
        (Execute idealWorld (Dallas.new (List.replicate 16 0) 0) (idealWith [])).1
        (idealWith [])).1
      (idealWith (combOfFour.take 2))).2.1.TmpSensorIndex = 0 :=
  (cursor_zero_after_scan idealWorld
    (Execute idealWorld
      (Execute idealWorld (Dallas.new (List.replicate 16 0) 0) (idealWith [])).1
      (idealWith [])).1
    (idealWith (combOfFour.take 2))
    (ReachProbed.step _ (idealWith [])
      (ReachProbed.step (Dallas.new (List.replicate 16 0) 0) (idealWith [])
        (ReachProbed.init (List.replicate 16 0) 0)
        (fun h _ => absurd h (by decide)))
      (fun _ h => absurd (by decide!) h))
    (by decide!)).2.2.1

/-! ## The search depends only on the search state -/

theorem searchBit_outcome {σ : Type} (bus : Bus σ) (byteNum bitNum : Nat)
    (st : Dallas × Nat × σ) :
    searchBit bus byteNum bitNum st =
      ({ st.1 with
          RouteMask := (bitOutcome bus bitNum st.1.Route st.1.RouteMask
            (getChartByte st.1.DallasChart st.1.DallasChartSize byteNum) st.2.1 st.2.2).1
          DallasChart := setChartByte st.1.DallasChart st.1.DallasChartSize byteNum
            (bitOutcome bus bitNum st.1.Route st.1.RouteMask
              (getChartByte st.1.DallasChart st.1.DallasChartSize byteNum) st.2.1 st.2.2).2.1 },
        (bitOutcome bus bitNum st.1.Route st.1.RouteMask
          (getChartByte st.1.DallasChart st.1.DallasChartSize byteNum) st.2.1 st.2.2).2.2.1,
        (bitOutcome bus bitNum st.1.Route st.1.RouteMask
          (getChartByte st.1.DallasChart st.1.DallasChartSize byteNum) st.2.1 st.2.2).2.2.2) := by
  unfold searchBit bitOutcome putBit
  dsimp only
  split
  · rfl
  · split
    · rfl
    · split <;> rfl

theorem setChartByte_length (c : List (List Nat)) (n j v : Nat) :
    (setChartByte c n j v).length = c.length := by
  unfold setChartByte
  rw [List.length_set]

theorem getD_of_length_le {α : Type} (l : List α) (i : Nat) (d : α) (h : l.length ≤ i) :
    l.getD i d = d := by
  rw [List.getD_eq_getElem?_getD, List.getElem?_eq_none h]
  rfl

theorem setChartByte_getD (c : List (List Nat)) (n j v i : Nat) :
    (setChartByte c n j v).getD i [] =
      if i = n then (c.getD n []).set j v else c.getD i [] := by
  unfold setChartByte
  by_cases h : i = n
  · subst h
    rw [if_pos rfl]
    by_cases hl : i < c.length
    · exact getD_set_self _ _ _ _ hl
    · rw [List.set_eq_of_length_le (by omega), getD_of_length_le _ _ _ (by omega)]
      rfl
  · rw [if_neg h]
    exact getD_set_ne _ _ _ _ _ (fun e => h e.symm)

theorem searchBit_same {σ : Type} (bus : Bus σ) (byteNum bitNum n k : Nat)
    (st st' : Dallas × Nat × σ) (hk : k < n)
    (h : SameUpTo n st.1 st'.1 ∧ st.2 = st'.2 ∧ st.1.DallasChartSize = k) :
    SameUpTo n (searchBit bus byteNum bitNum st).1 (searchBit bus byteNum bitNum st').1 ∧
      (searchBit bus byteNum bitNum st).2 = (searchBit bus byteNum bitNum st').2 ∧
      (searchBit bus byteNum bitNum st).1.DallasChartSize = k := by
  obtain ⟨hs, h2, hsz⟩ := h
  have hcur : getChartByte st.1.DallasChart st.1.DallasChartSize byteNum =
      getChartByte st'.1.DallasChart st'.1.DallasChartSize byteNum := by
    unfold getChartByte
    rw [← hs.size, hs.entries _ (by omega)]
  rw [searchBit_outcome bus byteNum bitNum st, searchBit_outcome bus byteNum bitNum st']
  rw [← hs.route, ← hs.mask, ← hcur, ← h2, ← hs.size]
  refine ⟨⟨hs.route, rfl, hs.size, ?_, fun i hi => ?_⟩, rfl, hsz⟩
  · show (setChartByte _ _ _ _).length = (setChartByte _ _ _ _).length
    rw [setChartByte_length, setChartByte_length]
    exact hs.len
  · show (setChartByte _ _ _ _).getD i [] = (setChartByte _ _ _ _).getD i []
    rw [setChartByte_getD, setChartByte_getD]
    split
    · rw [hs.entries _ (by omega)]
    · exact hs.entries i hi

theorem foldl_rel {α β : Type} (R : α → α → Prop) (f : α → β → α)
    (hf : ∀ a b i, R a b → R (f a i) (f b i)) (l : List β) (x y : α) (h : R x y) :
    R (l.foldl f x) (l.foldl f y) := by
  induction l generalizing x y with
  | nil => exact h
  | cons i l ih => exact ih _ _ (hf x y i h)

theorem searchPass_same {σ : Type} (bus : Bus σ) (n k : Nat)
    (st st' : Dallas × Nat × σ) (hk : k < n)
    (h : SameUpTo n st.1 st'.1 ∧ st.2 = st'.2 ∧ st.1.DallasChartSize = k) :
    SameUpTo n (searchPass bus st).1 (searchPass bus st').1 ∧
      (searchPass bus st).2 = (searchPass bus st').2 ∧
      (searchPass bus st).1.DallasChartSize = k :=
  foldl_rel (fun a b => SameUpTo n a.1 b.1 ∧ a.2 = b.2 ∧ a.1.DallasChartSize = k) _
    (fun a b byteNum hab =>
      foldl_rel (fun a b => SameUpTo n a.1 b.1 ∧ a.2 = b.2 ∧ a.1.DallasChartSize = k) _
        (fun a b bitNum hab => searchBit_same bus byteNum bitNum n k a b hk hab) _ a b hab)
    _ st st' h

theorem discover_same {σ : Type} (bus : Bus σ) (advFuel : Nat) (u v : Dallas) (b : σ)
    (h : SameUpTo u.DallasChartSize u v) :
    SameUpTo (discover bus advFuel u b).1.DallasChartSize
        (discover bus advFuel u b).1 (discover bus advFuel v b).1 ∧
      (discover bus advFuel u b).2 = (discover bus advFuel v b).2 := by
  have h1 : SameUpTo (u.DallasChartSize + 1)
      { u with DallasChart := u.DallasChart.set u.DallasChartSize zeros8 }
      { v with DallasChart := v.DallasChart.set v.DallasChartSize zeros8 } := by
    refine ⟨h.route, h.mask, h.size, ?_, fun i hi => ?_⟩
    · show (u.DallasChart.set _ _).length = (v.DallasChart.set _ _).length
      rw [List.length_set, List.length_set]; exact h.len
    · show (u.DallasChart.set _ _).getD i [] = (v.DallasChart.set _ _).getD i []
      rw [← h.size]
      by_cases e : i = u.DallasChartSize
      · subst e
        by_cases hl : u.DallasChartSize < u.DallasChart.length
        · rw [getD_set_self _ _ _ _ hl, getD_set_self _ _ _ _ (by rw [← h.len]; exact hl)]
        · rw [getD_of_length_le _ _ _ (by rw [List.length_set]; omega),
            getD_of_length_le _ _ _ (by rw [List.length_set, ← h.len]; omega)]
      · rw [getD_set_ne _ _ _ _ _ (fun x => e x.symm), getD_set_ne _ _ _ _ _ (fun x => e x.symm)]
        exact h.entries i (by omega)
  obtain ⟨p1, p2, p3⟩ := searchPass_same bus (u.DallasChartSize + 1) u.DallasChartSize
    ({ u with DallasChart := u.DallasChart.set u.DallasChartSize zeros8 }, 0,
      WriteByte bus CMD_SEARCH_ROM b)
    ({ v with DallasChart := v.DallasChart.set v.DallasChartSize zeros8 }, 0,
      WriteByte bus CMD_SEARCH_ROM b)
    (Nat.lt_succ_self _) ⟨h1, rfl, rfl⟩
  have hsz := discover_size bus advFuel u b
  simp only [discover] at hsz ⊢
  rw [← p1.route, ← p1.mask, ← p1.size, p3] at *
  refine ⟨⟨rfl, rfl, rfl, p1.len, fun i hi => p1.entries i ?_⟩, p2⟩
  have : (u.DallasChartSize + 1) % 256 ≤ u.DallasChartSize + 1 := Nat.mod_le _ _
  have hi' : i < (u.DallasChartSize + 1) % 256 := hi
  omega

/-! ## A call of `ScanNet` depends only on the search state -/

theorem searchCycle_same {σ : Type} (bus : Bus σ) (advFuel d : Nat) :
    ∀ (fuel : Nat) (u v : Dallas) (fork : Nat) (b b' : σ),
      SameUpTo u.DallasChartSize u v → bus.touchReset b = bus.touchReset b' →
      SameUpTo (searchCycle bus advFuel d fuel u fork b).1.DallasChartSize
          (searchCycle bus advFuel d fuel u fork b).1
          (searchCycle bus advFuel d fuel v fork b').1 ∧
        (searchCycle bus advFuel d fuel u fork b).2.1 =
          (searchCycle bus advFuel d fuel v fork b').2.1 ∧
        bus.touchReset (searchCycle bus advFuel d fuel u fork b).2.2 =
          bus.touchReset (searchCycle bus advFuel d fuel v fork b').2.2 := by
  intro fuel
  induction fuel with
  | zero => intro u v fork b b' h hb; exact ⟨h, rfl, hb⟩
  | succ fuel ih =>
    intro u v fork b b' h hb
    simp only [searchCycle]
    rw [← h.size, ← h.route, ← hb]
    by_cases hg : u.DallasChartSize - d < 4 ∧ u.Route < 16 ∧
        u.DallasChartSize < MAX_SENSOR_COUNT ∧ fork > 0
    · rw [if_pos hg, if_pos hg]
      by_cases hp : (bus.touchReset b).1 = true
      · rw [if_pos hp, if_pos hp]
        obtain ⟨d1, d2⟩ := discover_same bus advFuel u v (bus.touchReset b).2 h
        have hfork : (discover bus advFuel v (bus.touchReset b).2).2.1 =
            (discover bus advFuel u (bus.touchReset b).2).2.1 := by rw [d2]
        have henv : (discover bus advFuel v (bus.touchReset b).2).2.2 =
            (discover bus advFuel u (bus.touchReset b).2).2.2 := by rw [d2]
        rw [hfork, henv]
        exact ih _ _ _ _ _ d1 rfl
      · rw [if_neg hp, if_neg hp]
        exact ⟨h, rfl, rfl⟩
    · rw [if_neg hg, if_neg hg]
      exact ⟨h, rfl, hb⟩

theorem scanSearch_same {σ : Type} (bus : Bus σ) (u v : Dallas) (b b' : σ)
    (h : SameCall u v) (hb : bus.touchReset b = bus.touchReset b') :
    SameUpTo (scanSearch bus 4 routeFuel u b).1.DallasChartSize
        (scanSearch bus 4 routeFuel u b).1 (scanSearch bus 4 routeFuel v b').1 ∧
      (scanSearch bus 4 routeFuel u b).2.1 = (scanSearch bus 4 routeFuel v b').2.1 := by
  obtain ⟨hr, hl, hs⟩ := h
  unfold scanSearch
  dsimp only
  by_cases h0 : u.Route = 0
  · have h0' : v.Route = 0 := by rw [← hr]; exact h0
    rw [if_pos h0, if_pos h0']
    have h1 : SameUpTo 0 { u with RouteMask := List.replicate 16 0, DallasChartSize := 0 }
        { v with RouteMask := List.replicate 16 0, DallasChartSize := 0 } :=
      ⟨hr, rfl, rfl, hl, fun i hi => absurd hi (Nat.not_lt_zero i)⟩
    obtain ⟨c1, c2, _⟩ := searchCycle_same bus routeFuel 0 4
      { u with RouteMask := List.replicate 16 0, DallasChartSize := 0 }
      { v with RouteMask := List.replicate 16 0, DallasChartSize := 0 } 0xFF b b' h1 hb
    exact ⟨c1, c2⟩
  · have h0' : ¬ v.Route = 0 := by rw [← hr]; exact h0
    rw [if_neg h0, if_neg h0', ← (hs h0).size]
    obtain ⟨c1, c2, _⟩ := searchCycle_same bus routeFuel u.DallasChartSize 4 u v 0xFF b b'
      (hs h0) hb
    exact ⟨c1, c2⟩

theorem checkCrcLoop_same :
    ∀ (n dallasNum : Nat) (c c' : List (List Nat)), c.length = c'.length →
      (∀ i < dallasNum + n, c.getD i [] = c'.getD i []) →
      (checkCrcLoop n dallasNum c).1 = (checkCrcLoop n dallasNum c').1 ∧
        (checkCrcLoop n dallasNum c).2.length = (checkCrcLoop n dallasNum c').2.length ∧
        ∀ i < dallasNum + n,
          (checkCrcLoop n dallasNum c).2.getD i [] = (checkCrcLoop n dallasNum c').2.getD i [] := by
  intro n
  induction n with
  | zero => intro dallasNum c c' hl he; exact ⟨rfl, hl, he⟩
  | succ n ih =>
    intro dallasNum c c' hl he
    have hd : c'.getD dallasNum [] = c.getD dallasNum [] := (he dallasNum (by omega)).symm
    have hset : ∀ i < dallasNum + (n + 1),
        (c.set dallasNum zeros8).getD i [] = (c'.set dallasNum zeros8).getD i [] := by
      intro i hi
      by_cases e : i = dallasNum
      · subst e
        by_cases hlt : i < c.length
        · rw [getD_set_self _ _ _ _ hlt, getD_set_self _ _ _ _ (by rw [← hl]; exact hlt)]
        · rw [getD_of_length_le _ _ _ (by rw [List.length_set]; omega),
            getD_of_length_le _ _ _ (by rw [List.length_set, ← hl]; omega)]
      · rw [getD_set_ne _ _ _ _ _ (fun x => e x.symm), getD_set_ne _ _ _ _ _ (fun x => e x.symm)]
        exact he i hi
    simp only [checkCrcLoop, getChartByte]
    by_cases hbad : (c.getD dallasNum []).getD 7 0 ≠ GetCRC (c.getD dallasNum []) 7
    · have hbad' : (c'.getD dallasNum []).getD 7 0 ≠ GetCRC (c'.getD dallasNum []) 7 := by
        rw [hd]; exact hbad
      rw [if_pos hbad, if_pos hbad']
      have hz := hset dallasNum (by omega)
      by_cases hm : memEq8 ((c.set dallasNum zeros8).getD dallasNum []) zeros8 = true
      · have hm' : memEq8 ((c'.set dallasNum zeros8).getD dallasNum []) zeros8 = true := by
          rw [← hz]; exact hm
        rw [if_pos hm, if_pos hm']
        exact ⟨rfl, by rw [List.length_set, List.length_set]; exact hl, hset⟩
      · have hm' : ¬ memEq8 ((c'.set dallasNum zeros8).getD dallasNum []) zeros8 = true := by
          rw [← hz]; exact hm
        rw [if_neg hm, if_neg hm']
        have := ih (dallasNum + 1) _ _
          (show (c.set dallasNum zeros8).length = (c'.set dallasNum zeros8).length by
            rw [List.length_set, List.length_set]; exact hl)
          (fun i hi => hset i (by omega))
        exact ⟨this.1, this.2.1, fun i hi => this.2.2 i (by omega)⟩
    · have hbad' : ¬ (c'.getD dallasNum []).getD 7 0 ≠ GetCRC (c'.getD dallasNum []) 7 := by
        rw [hd]; exact hbad
      rw [if_neg hbad, if_neg hbad']
      by_cases hm : memEq8 (c.getD dallasNum []) zeros8 = true
      · have hm' : memEq8 (c'.getD dallasNum []) zeros8 = true := by rw [hd]; exact hm
        rw [if_pos hm, if_pos hm']
        exact ⟨rfl, hl, he⟩
      · have hm' : ¬ memEq8 (c'.getD dallasNum []) zeros8 = true := by rw [hd]; exact hm
        rw [if_neg hm, if_neg hm']
        have := ih (dallasNum + 1) c c' hl (fun i hi => he i (by omega))
        exact ⟨this.1, this.2.1, fun i hi => this.2.2 i (by omega)⟩

theorem scanUnfinished_same (u v : Dallas) (fork : Nat) (h : SameUpTo u.DallasChartSize u v) :
    scanUnfinished u fork = scanUnfinished v fork := by
  unfold scanUnfinished
  rw [h.route, h.size]

/-- Two calls of `ScanNet` at the same point of a scan, on a bus that answers
the first presence probe in the same way, return the same result and leave the
drivers at the same point; when they return true the registries are the same. -/
theorem ScanNet_same {σ : Type} (bus : Bus σ) (u v : Dallas) (b b' : σ)
    (h : SameCall u v) (hb : bus.touchReset b = bus.touchReset b') :
    (ScanNet bus u b).1 = (ScanNet bus v b').1 ∧
      SameCall (ScanNet bus u b).2.1 (ScanNet bus v b').2.1 ∧
      ((ScanNet bus u b).1 = true →
        (ScanNet bus u b).2.1.DallasChartSize = (ScanNet bus v b').2.1.DallasChartSize ∧
        ∀ i < (ScanNet bus u b).2.1.DallasChartSize,
          (ScanNet bus u b).2.1.DallasChart.getD i [] =
            (ScanNet bus v b').2.1.DallasChart.getD i []) := by
  obtain ⟨hS, hfork⟩ := scanSearch_same bus u v b b' h hb
  have hu : scanUnfinished (scanSearch bus 4 routeFuel u b).1 (scanSearch bus 4 routeFuel u b).2.1 =
      scanUnfinished (scanSearch bus 4 routeFuel v b').1 (scanSearch bus 4 routeFuel v b').2.1 := by
    rw [scanUnfinished_same _ _ _ hS, hfork]
  have hsz := hS.size
  have hcs := checkCrcLoop_same (scanSearch bus 4 routeFuel u b).1.DallasChartSize 0
    _ _ hS.len (fun i hi => hS.entries i (by omega))
  have hc1 : (checkCrcLoop (scanSearch bus 4 routeFuel u b).1.DallasChartSize 0
        (scanSearch bus 4 routeFuel u b).1.DallasChart).1 =
      (checkCrcLoop (scanSearch bus 4 routeFuel v b').1.DallasChartSize 0
        (scanSearch bus 4 routeFuel v b').1.DallasChart).1 := by
    rw [← hsz]; exact hcs.1
  have hc2 : (checkCrcLoop (scanSearch bus 4 routeFuel u b).1.DallasChartSize 0
        (scanSearch bus 4 routeFuel u b).1.DallasChart).2.length =
      (checkCrcLoop (scanSearch bus 4 routeFuel v b').1.DallasChartSize 0
        (scanSearch bus 4 routeFuel v b').1.DallasChart).2.length := by
    rw [← hsz]; exact hcs.2.1
  have hc3 : ∀ i < (scanSearch bus 4 routeFuel u b).1.DallasChartSize,
      (checkCrcLoop (scanSearch bus 4 routeFuel u b).1.DallasChartSize 0
        (scanSearch bus 4 routeFuel u b).1.DallasChart).2.getD i [] =
      (checkCrcLoop (scanSearch bus 4 routeFuel v b').1.DallasChartSize 0
        (scanSearch bus 4 routeFuel v b').1.DallasChart).2.getD i [] := by
    intro i hi
    rw [← hsz]; exact hcs.2.2 i (by omega)
  rcases ScanNet_cases bus u b with ⟨a1, ea⟩ | ⟨a1, a2, ea⟩ | ⟨a1, a2, a3, a4, a5, a6⟩
  · rcases ScanNet_cases bus v b' with ⟨_, eb⟩ | ⟨b1, _⟩ | ⟨b1, _⟩
    · rw [ea, eb]
      exact ⟨rfl, ⟨hS.route, hS.len, fun _ => hS⟩, fun x => Bool.noConfusion x⟩
    · rw [hu, b1] at a1; exact Bool.noConfusion a1
    · rw [hu, b1] at a1; exact Bool.noConfusion a1
  · rcases ScanNet_cases bus v b' with ⟨b1, _⟩ | ⟨_, _, eb⟩ | ⟨_, b2, _⟩
    · rw [hu, b1] at a1; exact Bool.noConfusion a1
    · rw [ea, eb]
      exact ⟨rfl, ⟨rfl, hc2, fun x => absurd rfl x⟩, fun x => Bool.noConfusion x⟩
    · rw [hc1, b2] at a2; exact Bool.noConfusion a2
  · rcases ScanNet_cases bus v b' with ⟨b1, _⟩ | ⟨_, b2, _⟩ | ⟨_, _, b3, b4, b5, b6⟩
    · rw [hu, b1] at a1; exact Bool.noConfusion a1
    · rw [hc1, b2] at a2; exact Bool.noConfusion a2
    · refine ⟨by rw [a3, b3], ⟨by rw [a4, b4], by rw [a6, b6]; exact hc2,
        fun x => absurd a4 x⟩, fun _ => ⟨by rw [a5, b5]; exact hS.size, fun i hi => ?_⟩⟩
      rw [a6, b6]
      rw [a5] at hi
      exact hc3 i hi

theorem ideal_touchReset_eq (b b' : IdealBus) (h : b.devices = b'.devices) :
    idealBus.touchReset b = idealBus.touchReset b' := by
  show idealTouchReset b = idealTouchReset b'
  unfold idealTouchReset
  rw [h]

/-- Two completed scans of the same devices that start at the same point end
with the same registry. -/
theorem scanCompletes_same (S : List (List Nat)) (u t : Dallas) (r : Bool)
    (hu : ScanCompletes S u t r) :
    ∀ (v t' : Dallas) (r' : Bool), ScanCompletes S v t' r' → SameCall u v →
      t.DallasChartSize = t'.DallasChartSize ∧
        ∀ i < t.DallasChartSize, t.DallasChart.getD i [] = t'.DallasChart.getD i [] := by
  induction hu with
  | done u b hBus hTrue =>
    intro v t' r' hv hsame
    cases hv with
    | done _ b' hBus' hTrue' =>
      exact (ScanNet_same idealBus u v b b' hsame
        (ideal_touchReset_eq b b' (by rw [hBus, hBus']))).2.2 hTrue
    | more _ b' _ _ hBus' hFalse' _ =>
      have := (ScanNet_same idealBus u v b b' hsame
        (ideal_touchReset_eq b b' (by rw [hBus, hBus']))).1
      rw [hTrue, hFalse'] at this
      exact Bool.noConfusion this
  | more u b t r hBus hFalse _ ih =>
    intro v t' r' hv hsame
    cases hv with
    | done _ b' hBus' hTrue' =>
      have := (ScanNet_same idealBus u v b b' hsame
        (ideal_touchReset_eq b b' (by rw [hBus, hBus']))).1
      rw [hTrue', hFalse] at this
      exact Bool.noConfusion this
    | more _ b' _ _ hBus' hFalse' rest' =>
      exact ih _ _ _ rest' (ScanNet_same idealBus u v b b' hsame
        (ideal_touchReset_eq b b' (by rw [hBus, hBus']))).2.1

/-! ## Two scans in a row -/

theorem checkCrcLoop_chartWF :
    ∀ (n dallasNum : Nat) (chart : List (List Nat)), chartWF chart →
      chartWF (checkCrcLoop n dallasNum chart).2 := by
  intro n
  induction n with
  | zero => intro dallasNum chart h; exact h
  | succ n ih =>
    intro dallasNum chart h
    simp only [checkCrcLoop]
    split
    · split
      · exact chartWF_set _ _ _ h rfl
      · exact ih _ _ (chartWF_set _ _ _ h rfl)
    · split
      · exact h
      · exact ih _ _ h

theorem mem_getD {α : Type} (l : List α) (x d : α) (h : x ∈ l) :
    ∃ i < l.length, l.getD i d = x := by
  obtain ⟨i, hi, hx⟩ := List.getElem_of_mem h
  exact ⟨i, hi, by rw [List.getD_eq_getElem _ _ hi]; exact hx⟩

theorem memorizeChart_chartWF (chart last : List (List Nat)) (size : Nat)
    (hc : chartWF chart) (hl : chartWF last) (hsz : size ≤ 8) :
    chartWF (memorizeChart size chart last) := by
  obtain ⟨m1, m2, m3⟩ := memorizeChart_spec chart last size (by rw [hl.1]; exact hsz)
  refine ⟨by rw [m1]; exact hl.1, fun e he => ?_⟩
  obtain ⟨i, hi, hx⟩ := mem_getD _ e [] he
  rw [m1, hl.1] at hi
  rw [← hx]
  by_cases h : i < size
  · rw [m2 i h, memcpy8_wf _ _ (chartWF_getD _ i hl hi) (chartWF_getD _ i hc hi)]
    exact chartWF_getD _ i hc hi
  · rw [m3 i (by omega)]
    exact chartWF_getD _ i hl hi

/-- The shape of the state is kept by a call of `ScanNet`. -/
theorem ScanNet_wf {σ : Type} (bus : Bus σ) (s : Dallas) (b : σ)
    (hchart : chartWF s.DallasChart) (hlast : chartWF s.LastDallasChart)
    (hsize : s.Route ≠ 0 → s.DallasChartSize ≤ 8) :
    chartWF (ScanNet bus s b).2.1.DallasChart ∧ chartWF (ScanNet bus s b).2.1.LastDallasChart ∧
      (ScanNet bus s b).2.1.DallasChartSize ≤ 8 := by
  have hs := scanSearch_sameButSearch bus s b
  unfold Dallas.sameButSearch at hs
  have hL : (scanSearch bus 4 routeFuel s b).1.LastDallasChart = s.LastDallasChart := by rw [hs]
  have hwf := scanSearch_chartWF bus s b hchart
  have hle := scanSearch_size_le_max bus s b hsize
  rcases ScanNet_cases bus s b with ⟨_, e⟩ | ⟨_, _, e⟩ | ⟨_, _, htrue, _, _, _⟩
  · rw [e]
    exact ⟨hwf, by show chartWF (scanSearch bus 4 routeFuel s b).1.LastDallasChart
                   rw [hL]; exact hlast, hle⟩
  · rw [e]
    exact ⟨checkCrcLoop_chartWF _ _ _ hwf,
      by show chartWF (scanSearch bus 4 routeFuel s b).1.LastDallasChart
         rw [hL]; exact hlast, hle⟩
  · obtain ⟨_, _, e⟩ := ScanNet_true bus s b htrue
    have hm := memorizeChart_chartWF (scanSearch bus 4 routeFuel s b).1.DallasChart
      (scanSearch bus 4 routeFuel s b).1.LastDallasChart
      (scanSearch bus 4 routeFuel s b).1.DallasChartSize hwf (by rw [hL]; exact hlast) hle
    rw [e]
    split
    · exact ⟨hwf, hm, hle⟩
    · exact ⟨hwf, hm, hle⟩

/-- `ScanNet` never sets ForceRenew, and clears it when it returns true. -/
theorem ScanNet_ForceRenew {σ : Type} (bus : Bus σ) (s : Dallas) (b : σ) :
    ((ScanNet bus s b).1 = true → (ScanNet bus s b).2.1.ForceRenew = false) ∧
      ((ScanNet bus s b).2.1.ForceRenew = true → s.ForceRenew = true) := by
  have hs := scanSearch_sameButSearch bus s b
  unfold Dallas.sameButSearch at hs
  have hF : (scanSearch bus 4 routeFuel s b).1.ForceRenew = s.ForceRenew := by rw [hs]
  cases h : (ScanNet bus s b).1
  · have hf := ScanNet_false_frame bus s b h
    unfold Dallas.sameButSearch at hf
    refine ⟨fun x => Bool.noConfusion x, fun x => ?_⟩
    rw [hf] at x
    exact x
  · obtain ⟨_, _, e⟩ := ScanNet_true bus s b h
    have hfalse : (ScanNet bus s b).2.1.ForceRenew = false := by
      rw [e]
      by_cases hr : scanRenews (scanSearch bus 4 routeFuel s b).1 = true
      · rw [if_pos hr]
      · rw [if_neg hr]
        show (scanSearch bus 4 routeFuel s b).1.ForceRenew = false
        unfold scanRenews at hr
        simp only [Bool.or_eq_true, not_or, Bool.not_eq_true] at hr
        exact hr.2
    exact ⟨fun _ => hfalse, fun x => by rw [hfalse] at x; exact Bool.noConfusion x⟩

/-- The call that completes a scan: it is made in a state that differs from
the state the scan started in only by the search cursor and the chart. -/
theorem scanCompletes_final (S : List (List Nat)) (v t : Dallas) (r : Bool)
    (h : ScanCompletes S v t r) :
    chartWF v.DallasChart → chartWF v.LastDallasChart →
      (v.Route ≠ 0 → v.DallasChartSize ≤ 8) →
      ∃ (u : Dallas) (b : IdealBus), v.sameButSearch u ∧ chartWF u.DallasChart ∧
        (u.Route ≠ 0 → u.DallasChartSize ≤ 8) ∧
        (ScanNet idealBus u b).1 = true ∧ t = (ScanNet idealBus u b).2.1 ∧
        r = scanRenews (scanSearch idealBus 4 routeFuel u b).1 := by
  induction h with
  | done s b _ hTrue =>
    intro h1 _ h3
    exact ⟨s, b, Dallas.sameButSearch_refl s, h1, h3, hTrue, rfl, rfl⟩
  | more s b t r _ hFalse _ ih =>
    intro h1 h2 h3
    obtain ⟨w1, w2, w3⟩ := ScanNet_wf idealBus s b h1 h2 h3
    obtain ⟨u, b', q1, q2, q3, q4, q5, q6⟩ := ih w1 w2 (fun _ => w3)
    exact ⟨u, b', Dallas.sameButSearch_trans (ScanNet_false_frame idealBus s b hFalse) q1,
      q2, q3, q4, q5, q6⟩

/-- C13. Idempotence of scanning.  On the ideal simulated bus carrying the
devices `S`, let a scan (calls to `Dallas::ScanNet` from a state with
Route = 0, repeated while they return false) complete in the state `s1` and
the next scan, started in `s1`, complete in `s2`.  Then `s2` has the same
DallasChartSize as `s1` and the same registry entries in the same order; the
call that completes the second scan does not take the renewal path, so
TmpSensorCount is as the first scan left it; ForceRenew is false after both
scans, and no call to `ScanNet`, on any bus, sets ForceRenew: it is false
after every call that returns true, and true after a call only if it was
true before. -/
theorem scan_idempotent (S : List (List Nat)) (s s1 s2 : Dallas) (r1 r2 : Bool)
    (hRoute : s.Route = 0) (hchart : chartWF s.DallasChart) (hlast : chartWF s.LastDallasChart)
    (h1 : ScanCompletes S s s1 r1) (h2 : ScanCompletes S s1 s2 r2) :
    s2.DallasChartSize = s1.DallasChartSize ∧
      (∀ i < s1.DallasChartSize, s2.DallasChart.getD i [] = s1.DallasChart.getD i []) ∧
      r2 = false ∧ s2.TmpSensorCount = s1.TmpSensorCount ∧
      s1.ForceRenew = false ∧ s2.ForceRenew = false ∧
      ∀ (σ : Type) (bus : Bus σ) (u : Dallas) (b : σ),
        ((ScanNet bus u b).1 = true → (ScanNet bus u b).2.1.ForceRenew = false) ∧
        ((ScanNet bus u b).2.1.ForceRenew = true → u.ForceRenew = true) := by
  -- the call that completes the first scan
  obtain ⟨u1, b1, f1, wf1, sz1, t1, e1, _⟩ :=
    scanCompletes_final S s s1 r1 h1 hchart hlast (fun h => absurd hRoute h)
  have hu1L : u1.LastDallasChart = s.LastDallasChart := by
    unfold Dallas.sameButSearch at f1; rw [f1]
  have hwfL1 : chartWF u1.LastDallasChart := by rw [hu1L]; exact hlast
  obtain ⟨p1, p2⟩ := ScanNet_promotes idealBus u1 b1 wf1 hwfL1 sz1 t1
  obtain ⟨w1, w2, w3⟩ := ScanNet_wf idealBus u1 b1 wf1 hwfL1 sz1
  have hF1 := (ScanNet_ForceRenew idealBus u1 b1).1 t1
  have hR1 : (ScanNet idealBus u1 b1).2.1.Route = 0 := by
    rcases ScanNet_cases idealBus u1 b1 with ⟨_, e⟩ | ⟨_, _, e⟩ | ⟨_, _, _, hr, _⟩
    · rw [e] at t1; exact Bool.noConfusion t1
    · rw [e] at t1; exact Bool.noConfusion t1
    · exact hr
  rw [← e1] at p1 p2 w1 w2 w3 hF1 hR1
  -- both scans end with the same registry
  have hsame : SameCall s s1 :=
    ⟨by rw [hRoute, hR1], by rw [hchart.1, w1.1], fun h => absurd hRoute h⟩
  obtain ⟨d1, d2⟩ := scanCompletes_same S s s1 r1 h1 s1 s2 r2 h2 hsame
  -- the call that completes the second scan
  obtain ⟨u2, b2, f2, wf2, sz2, t2, e2, er2⟩ :=
    scanCompletes_final S s1 s2 r2 h2 w1 w2 (fun _ => w3)
  obtain ⟨_, _, e⟩ := ScanNet_true idealBus u2 b2 t2
  have hs2 := Dallas.sameButSearch_trans f2 (scanSearch_sameButSearch idealBus u2 b2)
  unfold Dallas.sameButSearch at hs2
  have hL2 : (scanSearch idealBus 4 routeFuel u2 b2).1.LastDallasChart = s1.LastDallasChart := by
    rw [hs2]
  have hLs2 : (scanSearch idealBus 4 routeFuel u2 b2).1.LastDallasChartSize =
      s1.LastDallasChartSize := by rw [hs2]
  have hFr2 : (scanSearch idealBus 4 routeFuel u2 b2).1.ForceRenew = s1.ForceRenew := by
    rw [hs2]
  have hC2 : (scanSearch idealBus 4 routeFuel u2 b2).1.TmpSensorCount = s1.TmpSensorCount := by
    rw [hs2]
  have hsz2 : s2.DallasChartSize = (scanSearch idealBus 4 routeFuel u2 b2).1.DallasChartSize := by
    rw [e2, e]; split <;> rfl
  have hch2 : s2.DallasChart = (scanSearch idealBus 4 routeFuel u2 b2).1.DallasChart := by
    rw [e2, e]; split <;> rfl
  have hno : scanRenews (scanSearch idealBus 4 routeFuel u2 b2).1 = false := by
    unfold scanRenews
    rw [hFr2, hF1, Bool.or_false, hLs2, p1, ← hsz2, ← d1, hL2, ← hch2]
    have hdiff : chartDiffers s1.DallasChartSize s2.DallasChart s1.LastDallasChart = false := by
      unfold chartDiffers
      rw [List.any_eq_false]
      intro i hi
      rw [List.mem_range] at hi
      rw [p2 i hi, ← d2 i hi]
      simp [memEq8]
    rw [hdiff]
    simp
  have hno' : ¬ scanRenews (scanSearch idealBus 4 routeFuel u2 b2).1 = true := by
    rw [hno]; exact Bool.false_ne_true
  refine ⟨d1.symm, fun i hi => (d2 i hi).symm, er2.trans hno, ?_, hF1, ?_,
    fun _ bus u b => ScanNet_ForceRenew bus u b⟩
  · rw [e2, e, if_neg hno']
    exact hC2
  · rw [e2]
    exact (ScanNet_ForceRenew idealBus u2 b2).1 t2

set_option maxRecDepth 1000000 in
theorem scan_idempotent_witness :
    (ScanNet idealBus
        (ScanNet idealBus (Dallas.new (List.replicate 16 0) 0)
          (idealWith (combOfFour.take 2))).2.1
        (idealWith (combOfFour.take 2))).2.1.DallasChartSize =
      (ScanNet idealBus (Dallas.new (List.replicate 16 0) 0)
        (idealWith (combOfFour.take 2))).2.1.DallasChartSize ∧
      scanRenews (scanSearch idealBus 4 routeFuel
        (ScanNet idealBus (Dallas.new (List.replicate 16 0) 0)
          (idealWith (combOfFour.take 2))).2.1
        (idealWith (combOfFour.take 2))).1 = false :=
  have h := scan_idempotent (combOfFour.take 2) (Dallas.new (List.replicate 16 0) 0) _ _ _ _ rfl
    (by unfold chartWF; decide) (by unfold chartWF; decide)
    (ScanCompletes.done (Dallas.new (List.replicate 16 0) 0) (idealWith (combOfFour.take 2))
      rfl (by decide!))
    (ScanCompletes.done
      (ScanNet idealBus (Dallas.new (List.replicate 16 0) 0)
        (idealWith (combOfFour.take 2))).2.1
      (idealWith (combOfFour.take 2)) rfl (by decide!))
  ⟨h.1, h.2.2.1⟩

/-! ## The critical section of a bit slot -/

/-- C21 (counterexample). The hardware operations of `WriteBit(1)`, in order:
the slot-tail delay of 64 us is made before `ExitCritical`, which is the last
operation of the call; likewise the delay of 10 us of `WriteBit(0)`. -/
theorem write_slot_tail_inside_critical :
    WriteBit (traceHw true) true [] =
        [HwOp.enter, HwOp.set false, HwOp.delay 6, HwOp.set true, HwOp.delay 64, HwOp.exit] ∧
      WriteBit (traceHw true) false [] =
        [HwOp.enter, HwOp.set false, HwOp.delay 60, HwOp.set true, HwOp.delay 10, HwOp.exit] ∧
      (WriteBit (traceHw true) true []).indexOf (HwOp.delay 64) <
        (WriteBit (traceHw true) true []).indexOf HwOp.exit ∧
      (WriteBit (traceHw true) false []).indexOf (HwOp.delay 10) <
        (WriteBit (traceHw true) false []).indexOf HwOp.exit := by
  decide

/-- C21 (amended). The critical section of a bit slot, for every level of the
line and whatever was done before the call.  `ReadBit` makes, in order,
EnterCritical, line low, delay 6, line released, delay 9, the sample,
ExitCritical and then the slot-tail delay of 55 us: its critical section
covers the drive and sampling window only.  `WriteBit` makes EnterCritical,
line low, the low time (6 us for a 1, 60 us for a 0), line released, the
slot-tail delay (64 us for a 1, 10 us for a 0) and then ExitCritical: its
critical section covers the whole slot, the slot tail included. -/
theorem bit_slot_critical_section (level bit : Bool) (t : List HwOp) :
    ReadBit (traceHw level) t =
        (level, t ++ [HwOp.enter, HwOp.set false, HwOp.delay 6, HwOp.set true, HwOp.delay 9,
          HwOp.get, HwOp.exit, HwOp.delay 55]) ∧
      WriteBit (traceHw level) bit t =
        t ++ [HwOp.enter, HwOp.set false, HwOp.delay (if bit then 6 else 60), HwOp.set true,
          HwOp.delay (if bit then 64 else 10), HwOp.exit] := by
  constructor
  · simp [ReadBit, traceHw, DallasTimeouts.A, DallasTimeouts.E, DallasTimeouts.F]
  · cases bit <;>
      simp [WriteBit, traceHw, DallasTimeouts.A, DallasTimeouts.B, DallasTimeouts.C,
        DallasTimeouts.D]

/-! ## The single-family driver: the address recorded at a fork -/

set_option maxRecDepth 1000000 in
/-- C24 (the code at the failing input). The search loop of `DS18B20::ScanNet`
on the ideal bus with the two sensors 28 00.. and 28 02.. attached, the bits
written being recorded.  Two passes are made.  In the second pass the 64
direction bits written (after 72 bits of the first pass and the 8 bits of
the search command) are the bits of the address 28 02 00 00 00 00 00 70,
which is the device that stays selected; the address stored in
`DallasChart[1]` is 28 04 00 00 00 00 00 70: at position 9 (byte 1, bit 1),
the fork, the direction written is 1 and the stored bit is 0, and at position
10 the direction written is 0 and the stored bit is 1. -/
theorem fork_direction_stored_at_doubled_bit :
    (DS18B20.searchLoop (logBus idealBus) 8 0 (DS18B20.new 8 0) (List.replicate 8 0)
        (idealWith forkPair, [])).1.DallasChartSize = 2 ∧
      ((DS18B20.searchLoop (logBus idealBus) 8 0 (DS18B20.new 8 0) (List.replicate 8 0)
        (idealWith forkPair, [])).2.2.2.drop 80).take 64 =
          bitsOfBytes [0x28, 0x02, 0, 0, 0, 0, 0, 0x70] ∧
      (DS18B20.searchLoop (logBus idealBus) 8 0 (DS18B20.new 8 0) (List.replicate 8 0)
        (idealWith forkPair, [])).2.2.1.active = [[0x28, 0x02, 0, 0, 0, 0, 0, 0x70]] ∧
      (DS18B20.searchLoop (logBus idealBus) 8 0 (DS18B20.new 8 0) (List.replicate 8 0)
        (idealWith forkPair, [])).1.DallasChart.getD 1 [] = [0x28, 0x04, 0, 0, 0, 0, 0, 0x70] ∧
      ((DS18B20.searchLoop (logBus idealBus) 8 0 (DS18B20.new 8 0) (List.replicate 8 0)
        (idealWith forkPair, [])).2.2.2.getD (80 + 9) false = true ∧
        addrBit ((DS18B20.searchLoop (logBus idealBus) 8 0 (DS18B20.new 8 0)
          (List.replicate 8 0) (idealWith forkPair, [])).1.DallasChart.getD 1 []) 9 = false) ∧
      ((DS18B20.searchLoop (logBus idealBus) 8 0 (DS18B20.new 8 0) (List.replicate 8 0)
        (idealWith forkPair, [])).2.2.2.getD (80 + 10) true = false ∧
        addrBit ((DS18B20.searchLoop (logBus idealBus) 8 0 (DS18B20.new 8 0)
          (List.replicate 8 0) (idealWith forkPair, [])).1.DallasChart.getD 1 []) 10 = true) := by
  decide!

/-! ## Array bounds of the search -/

theorem foldl_pres {α β : Type} (P : β → Prop) (f : β → α → β)
    (hf : ∀ (x : β) (a : α), P x → P (f x a)) (l : List α) (x : β) (h : P x) :
    P (l.foldl f x) := by
  induction l generalizing x with
  | nil => exact h
  | cons a l ih => exact ih _ (hf x a h)

theorem searchBit_maskLength {σ : Type} (bus : Bus σ) (byteNum bitNum : Nat)
    (st : Dallas × Nat × σ) :
    (searchBit bus byteNum bitNum st).1.RouteMask.length = st.1.RouteMask.length := by
  unfold searchBit
  dsimp only
  split
  · rfl
  · split
    · rfl
    · split <;> simp

theorem searchPass_maskLength {σ : Type} (bus : Bus σ) (n : Nat) (st : Dallas × Nat × σ)
    (h : st.1.RouteMask.length = n) : (searchPass bus st).1.RouteMask.length = n :=
  foldl_pres (fun (st : Dallas × Nat × σ) => st.1.RouteMask.length = n) _
    (fun st byteNum h =>
      foldl_pres (fun (st : Dallas × Nat × σ) => st.1.RouteMask.length = n) _
        (fun st bitNum h => by
          show (searchBit bus byteNum bitNum st).1.RouteMask.length = n
          rw [searchBit_maskLength]; exact h) _ st h) _ st h

theorem discover_maskLength {σ : Type} (bus : Bus σ) (advFuel : Nat) (s : Dallas) (b : σ) :
    (discover bus advFuel s b).1.RouteMask.length = s.RouteMask.length := by
  simp only [discover]
  exact searchPass_maskLength bus _ _ rfl

theorem routeAdvance_le (RouteMask : List Nat) (limit : Nat) :
    ∀ (fuel Route route : Nat), Route ≤ 16 →
      routeAdvance RouteMask limit fuel Route route ≤ 16 := by
  intro fuel
  induction fuel with
  | zero => intro Route route h; exact h
  | succ fuel ih =>
    intro Route route h
    simp only [routeAdvance]
    split
    · rename_i hlt
      split
      · exact h
      · split
        · exact ih _ _ (by rw [Nat.mod_eq_of_lt (by omega)]; omega)
        · exact ih _ _ h
    · exact h

theorem discover_Route {σ : Type} (bus : Bus σ) (advFuel : Nat) (s : Dallas) (b : σ)
    (h : s.Route < 16) : (discover bus advFuel s b).1.Route ≤ 16 := by
  have hs := sameBut_Route (searchPass_sameBut bus
    ({ s with DallasChart := s.DallasChart.set s.DallasChartSize zeros8 }, 0,
      WriteByte bus CMD_SEARCH_ROM b))
  simp only [discover]
  apply routeAdvance_le
  rw [hs]
  show (s.Route + 1) % 256 ≤ 16
  rw [Nat.mod_eq_of_lt (by omega)]
  omega

theorem searchCycle_bounds {σ : Type} (bus : Bus σ) (advFuel d : Nat) :
    ∀ (fuel : Nat) (s : Dallas) (fork : Nat) (b : σ), SearchBounds s →
      SearchBounds (searchCycle bus advFuel d fuel s fork b).1 := by
  intro fuel
  induction fuel with
  | zero => intro s fork b h; exact h
  | succ fuel ih =>
    intro s fork b h
    simp only [searchCycle]
    split
    · rename_i hg
      have h8 : s.DallasChartSize < 8 := hg.2.2.1
      split
      · apply ih
        refine ⟨?_, discover_Route bus advFuel s _ hg.2.1, discover_chartWF bus advFuel s _ h.2.2.1,
          ?_⟩
        · rw [discover_size, Nat.mod_eq_of_lt (by omega)]
          omega
        · rw [discover_maskLength]; exact h.2.2.2
      · exact h
    · exact h

theorem scanSearch_bounds {σ : Type} (bus : Bus σ) (cycleFuel : Nat) (s : Dallas) (b : σ)
    (h : SearchBounds s) : SearchBounds (scanSearch bus cycleFuel routeFuel s b).1 := by
  unfold scanSearch
  dsimp only
  split
  · exact searchCycle_bounds bus routeFuel _ cycleFuel _ 0xFF b
      ⟨Nat.zero_le _, h.2.1, h.2.2.1, List.length_replicate _ _⟩
  · exact searchCycle_bounds bus routeFuel _ cycleFuel s 0xFF b h

/-! ## The log of the array accesses -/

theorem searchPassLogged_fst {σ : Type} (bus : Bus σ) (x : (Dallas × Nat × σ) × List Access) :
    (searchPassLogged bus x).1 = searchPass bus x.1 := by
  unfold searchPassLogged searchPass searchByte
  have inner : ∀ (byteNum : Nat) (l : List Nat) (x : (Dallas × Nat × σ) × List Access),
      (l.foldl (fun (x : (Dallas × Nat × σ) × List Access) bitNum =>
        (searchBit bus byteNum bitNum x.1, x.2 ++ searchBitAccesses bus x.1)) x).1 =
      l.foldl (fun st bitNum => searchBit bus byteNum bitNum st) x.1 := by
    intro byteNum l
    induction l with
    | nil => intro x; rfl
    | cons a l ih => intro x; simp only [List.foldl_cons]; rw [ih]
  have outer : ∀ (l : List Nat) (x : (Dallas × Nat × σ) × List Access),
      (l.foldl (fun (x : (Dallas × Nat × σ) × List Access) byteNum =>
        (List.range 8).foldl (fun (x : (Dallas × Nat × σ) × List Access) bitNum =>
          (searchBit bus byteNum bitNum x.1, x.2 ++ searchBitAccesses bus x.1)) x) x).1 =
      l.foldl (fun st byteNum =>
        (List.range 8).foldl (fun st bitNum => searchBit bus byteNum bitNum st) st) x.1 := by
    intro l
    induction l with
    | nil => intro x; rfl
    | cons a l ih => intro x; simp only [List.foldl_cons]; rw [ih, inner]
  exact outer _ x

theorem searchBitAccesses_inRange {σ : Type} (bus : Bus σ) (st : Dallas × Nat × σ)
    (hs : st.1.DallasChartSize < MAX_SENSOR_COUNT) (hr : st.1.Route < 16) :
    ∀ a ∈ searchBitAccesses bus st, a.inRange := by
  intro a ha
  unfold searchBitAccesses at ha
  dsimp only at ha
  split at ha
  · rw [List.mem_singleton] at ha; rw [ha]; exact hs
  · split at ha
    · rw [List.mem_singleton] at ha; rw [ha]; exact hs
    · simp only [List.mem_cons, List.mem_singleton, List.not_mem_nil, or_false] at ha
      rcases ha with ha | ha
      · rw [ha]; exact hr
      · rw [ha]; exact hs

theorem searchPassLogged_inv {σ : Type} (bus : Bus σ) (size Route : Nat)
    (hs : size < MAX_SENSOR_COUNT) (hr : Route < 16) (x : (Dallas × Nat × σ) × List Access)
    (h : LogInv size Route x) : LogInv size Route (searchPassLogged bus x) := by
  unfold searchPassLogged
  refine foldl_pres (LogInv size Route) _ (fun x byteNum h => ?_) _ x h
  refine foldl_pres (LogInv size Route) _ (fun x bitNum h => ?_) _ x h
  obtain ⟨h1, h2, h3⟩ := h
  refine ⟨?_, ?_, ?_⟩
  · show (searchBit bus byteNum bitNum x.1).1.DallasChartSize = size
    rw [sameBut_size (searchBit_sameBut bus byteNum bitNum x.1)]; exact h1
  · show (searchBit bus byteNum bitNum x.1).1.Route = Route
    rw [sameBut_Route (searchBit_sameBut bus byteNum bitNum x.1)]; exact h2
  · intro a ha
    show a.inRange
    have ha' : a ∈ x.2 ++ searchBitAccesses bus x.1 := ha
    rw [List.mem_append] at ha'
    rcases ha' with ha' | ha'
    · exact h3 a ha'
    · exact searchBitAccesses_inRange bus x.1 (by rw [h1]; exact hs) (by rw [h2]; exact hr) a ha'

theorem routeAdvanceReads_le (RouteMask : List Nat) (limit : Nat) :
    ∀ (fuel Route route : Nat), ∀ q ∈ routeAdvanceReads RouteMask limit fuel Route route,
      q ≤ limit := by
  intro fuel
  induction fuel with
  | zero => intro Route route q hq; simp [routeAdvanceReads] at hq
  | succ fuel ih =>
    intro Route route q hq
    simp only [routeAdvanceReads] at hq
    split at hq
    · split at hq
      · simp at hq
      · rename_i hle
        split at hq
        · rw [List.mem_cons] at hq
          rcases hq with hq | hq
          · omega
          · exact ih _ _ q hq
        · rw [List.mem_cons] at hq
          rcases hq with hq | hq
          · omega
          · exact ih _ _ q hq
    · simp at hq

theorem discoverAccesses_inRange {σ : Type} (bus : Bus σ) (advFuel : Nat) (s : Dallas) (b : σ)
    (hs : s.DallasChartSize < MAX_SENSOR_COUNT) (hr : s.Route < 16) :
    ∀ a ∈ discoverAccesses bus advFuel s b, a.inRange := by
  have hinv := searchPassLogged_inv bus s.DallasChartSize s.Route hs hr
    (({ s with DallasChart := s.DallasChart.set s.DallasChartSize zeros8 }, 0,
      WriteByte bus CMD_SEARCH_ROM b), [Access.chartWrite s.DallasChartSize])
    ⟨rfl, rfl, fun a ha => by rw [List.mem_singleton] at ha; rw [ha]; exact hs⟩
  intro a ha
  simp only [discoverAccesses] at ha
  rw [List.mem_append] at ha
  rcases ha with ha | ha
  · exact hinv.2.2 a ha
  · rw [List.mem_map] at ha
    obtain ⟨q, hq, rfl⟩ := ha
    have hle := routeAdvanceReads_le _ _ _ _ _ q hq
    show q < 16
    rw [hinv.2.1] at hle
    omega

theorem searchCycleAccesses_inRange {σ : Type} (bus : Bus σ) (advFuel d : Nat) :
    ∀ (fuel : Nat) (s : Dallas) (fork : Nat) (b : σ),
      ∀ a ∈ searchCycleAccesses bus advFuel d fuel s fork b, a.inRange := by
  intro fuel
  induction fuel with
  | zero => intro s fork b a ha; simp [searchCycleAccesses] at ha
  | succ fuel ih =>
    intro s fork b a ha
    simp only [searchCycleAccesses] at ha
    split at ha
    · rename_i hg
      split at ha
      · rw [List.mem_append] at ha
        rcases ha with ha | ha
        · exact discoverAccesses_inRange bus advFuel s _ hg.2.2.1 hg.2.1 a ha
        · exact ih _ _ _ a ha
      · simp at ha
    · simp at ha

theorem scanAccesses_inRange {σ : Type} (bus : Bus σ) (s : Dallas) (b : σ) :
    ∀ a ∈ scanAccesses bus s b, a.inRange :=
  searchCycleAccesses_inRange bus routeFuel _ 4 _ 0xFF b

/-! ## The bounds along the calls -/

theorem ScanNet_RouteMask {σ : Type} (bus : Bus σ) (s : Dallas) (b : σ) :
    (ScanNet bus s b).2.1.RouteMask = (scanSearch bus 4 routeFuel s b).1.RouteMask := by
  unfold ScanNet ScanNetFuel
  dsimp only
  split
  · rfl
  · split
    · rfl
    · split <;> rfl

theorem advanceCursor_frame (s : Dallas) :
    (advanceCursor s).DallasChartSize = s.DallasChartSize ∧
      (advanceCursor s).Route = s.Route ∧
      (advanceCursor s).DallasChart = s.DallasChart ∧
      (advanceCursor s).LastDallasChart = s.LastDallasChart ∧
      (advanceCursor s).RouteMask = s.RouteMask ∧
      (advanceCursor s).LastDallasChartSize = s.LastDallasChartSize ∧
      (advanceCursor s).TmpSensorCount = s.TmpSensorCount := by
  unfold advanceCursor
  dsimp only
  split <;> exact ⟨rfl, rfl, rfl, rfl, rfl, rfl, rfl⟩

/-- A tick outside SCAN_NET writes none of the fields of the scan. -/
theorem Execute_frame {σ : Type} (w : World σ) (s : Dallas) (b : σ)
    (hstep : s.Step ≠ Step_t.SCAN_NET) :
    (Execute w s b).1.DallasChartSize = s.DallasChartSize ∧
      (Execute w s b).1.Route = s.Route ∧
      (Execute w s b).1.DallasChart = s.DallasChart ∧
      (Execute w s b).1.LastDallasChart = s.LastDallasChart ∧
      (Execute w s b).1.RouteMask = s.RouteMask ∧
      (Execute w s b).1.LastDallasChartSize = s.LastDallasChartSize ∧
      (Execute w s b).1.TmpSensorCount = s.TmpSensorCount := by
  cases hs : s.Step
  · exact absurd hs hstep
  · unfold Execute
    simp only [hs]
    split
    · split
      · split
        · exact ⟨rfl, rfl, rfl, rfl, rfl, rfl, rfl⟩
        · split <;> exact ⟨rfl, rfl, rfl, rfl, rfl, rfl, rfl⟩
      · exact ⟨rfl, rfl, rfl, rfl, rfl, rfl, rfl⟩
    · exact ⟨rfl, rfl, rfl, rfl, rfl, rfl, rfl⟩
  · unfold Execute
    simp only [hs]
    split
    · exact ⟨rfl, rfl, rfl, rfl, rfl, rfl, rfl⟩
    · split
      · split
        · exact ⟨rfl, rfl, rfl, rfl, rfl, rfl, rfl⟩
        · split
          · exact ⟨rfl, rfl, rfl, rfl, rfl, rfl, rfl⟩
          · exact advanceCursor_frame s
      · exact ⟨rfl, rfl, rfl, rfl, rfl, rfl, rfl⟩

theorem ScanNet_bounds {σ : Type} (bus : Bus σ) (s : Dallas) (b : σ)
    (h : s.DallasChartSize ≤ 8 ∧ s.Route < 16 ∧ chartWF s.DallasChart ∧
      chartWF s.LastDallasChart ∧ s.RouteMask.length = 16) :
    (ScanNet bus s b).2.1.DallasChartSize ≤ 8 ∧ (ScanNet bus s b).2.1.Route < 16 ∧
      chartWF (ScanNet bus s b).2.1.DallasChart ∧
      chartWF (ScanNet bus s b).2.1.LastDallasChart ∧
      (ScanNet bus s b).2.1.RouteMask.length = 16 := by
  obtain ⟨h1, h2, h3, h4, h5⟩ := h
  have hwf := ScanNet_wf bus s b h3 h4 (fun _ => h1)
  have hb := scanSearch_bounds bus 4 s b ⟨h1, Nat.le_of_lt h2, h3, h5⟩
  refine ⟨hwf.2.2, ?_, hwf.1, hwf.2.1, by rw [ScanNet_RouteMask]; exact hb.2.2.2⟩
  rcases ScanNet_cases bus s b with ⟨hu, e⟩ | ⟨_, _, e⟩ | ⟨_, _, _, hr, _, _⟩
  · rw [e]
    simp only [scanUnfinished, decide_eq_true_eq] at hu
    exact hu.1
  · rw [e]
    show 0 < 16
    decide
  · rw [hr]
    decide

theorem reachCalls_bounds {σ : Type} (w : World σ) (s : Dallas) (h : ReachCalls w s) :
    s.DallasChartSize ≤ 8 ∧ s.Route < 16 ∧ chartWF s.DallasChart ∧
      chartWF s.LastDallasChart ∧ s.RouteMask.length = 16 := by
  induction h with
  | init routeMask0 tmpSensorCount0 hlen =>
    refine ⟨Nat.zero_le _, (by show 0 < 16; decide), ?_, ?_, hlen⟩
    · exact ⟨rfl, fun e he => by rw [List.eq_of_mem_replicate he]; rfl⟩
    · exact ⟨rfl, fun e he => by rw [List.eq_of_mem_replicate he]; rfl⟩
  | execute s b _ ih =>
    by_cases hstep : s.Step = Step_t.SCAN_NET
    · have hsc := ScanNet_bounds w.toBus s (w.scanNetTimerElapsed b).2 ih
      unfold Execute
      simp only [hstep]
      split
      · split
        · exact hsc
        · exact hsc
      · exact ih
    · obtain ⟨e1, e2, e3, e4, e5, _, _⟩ := Execute_frame w s b hstep
      rw [e1, e2, e3, e4, e5]
      exact ih
  | scanNet s b _ ih => exact ScanNet_bounds w.toBus s b ih

/-- C22. Array accesses stay in range.  In every state reachable from the
constructor state through calls of `Execute` and `ScanNet`, with any bus and
timer behaviour, DallasChartSize is at most 8, Route is below 16, both charts
are 8 buffers of 8 bytes and the route mask has 16 bytes.  In a call of
`ScanNet` made in such a state, with any environment: every write to
`DallasChart[DallasChartSize]` is made with DallasChartSize below 8, every
write to `RouteMask[Route]` with Route below 16 and every read of
`RouteMask[route]` in the route check with route below 16; and after any
number of rounds of the search cycle DallasChartSize is at most 8, Route is at
most 16, the chart is 8 buffers of 8 bytes and the route mask has 16 bytes. -/
theorem array_accesses_in_range {σ : Type} (w : World σ) (s : Dallas) (h : ReachCalls w s) :
    (s.DallasChartSize ≤ 8 ∧ s.Route < 16 ∧ chartWF s.DallasChart ∧
      chartWF s.LastDallasChart ∧ s.RouteMask.length = 16) ∧
    ∀ (b : σ),
      (∀ a ∈ scanAccesses w.toBus s b, a.inRange) ∧
      ∀ (rounds : Nat),
        (scanSearch w.toBus rounds routeFuel s b).1.DallasChartSize ≤ 8 ∧
          (scanSearch w.toBus rounds routeFuel s b).1.Route ≤ 16 ∧
          chartWF (scanSearch w.toBus rounds routeFuel s b).1.DallasChart ∧
          (scanSearch w.toBus rounds routeFuel s b).1.RouteMask.length = 16 := by
  have hb := reachCalls_bounds w s h
  refine ⟨hb, fun b => ⟨scanAccesses_inRange w.toBus s b, fun rounds => ?_⟩⟩
  exact scanSearch_bounds w.toBus rounds s b ⟨hb.1, Nat.le_of_lt hb.2.1, hb.2.2.1, hb.2.2.2.2⟩

theorem array_accesses_in_range_witness :
    ReachCalls idealWorld
        (ScanNet idealWorld.toBus (Dallas.new (List.replicate 16 0) 0)
          (idealWith combOfFour)).2.1 ∧
      ∀ a ∈ scanAccesses idealWorld.toBus
          (ScanNet idealWorld.toBus (Dallas.new (List.replicate 16 0) 0)
            (idealWith combOfFour)).2.1
          (idealWith combOfFour), a.inRange :=
  ⟨ReachCalls.scanNet (Dallas.new (List.replicate 16 0) 0) (idealWith combOfFour)
      (ReachCalls.init (List.replicate 16 0) 0 rfl),
    ((array_accesses_in_range idealWorld
      (ScanNet idealWorld.toBus (Dallas.new (List.replicate 16 0) 0) (idealWith combOfFour)).2.1
      (ReachCalls.scanNet (Dallas.new (List.replicate 16 0) 0) (idealWith combOfFour)
        (ReachCalls.init (List.replicate 16 0) 0 rfl))).2 (idealWith combOfFour)).1⟩

/-! ## The cursor while the machine is reading -/

theorem tmpRank_congr (a c : List (List Nat)) :
    ∀ n, (∀ i < n, a.getD i [] = c.getD i []) → tmpRank a n = tmpRank c n := by
  intro n
  induction n with
  | zero => intro _; rfl
  | succ n ih =>
    intro h
    rw [tmpRank_succ, tmpRank_succ, ih (fun i hi => h i (by omega))]
    unfold getChartByte
    rw [h n (Nat.lt_succ_self n)]

theorem tmpRank_mono (chart : List (List Nat)) (m : Nat) :
    ∀ n, m ≤ n → tmpRank chart m ≤ tmpRank chart n := by
  intro n
  induction n with
  | zero => intro h; rw [Nat.le_zero.mp h]
  | succ n ih =>
    intro h
    rcases Nat.eq_or_lt_of_le h with heq | hlt
    · rw [heq]
    · rw [tmpRank_succ]
      have := ih (by omega)
      omega

/-- When the sensor loop of CONVERT_TMP starts a conversion, the cursor is
below the number of temperature sensors of the chart. -/
theorem convertLoop_started {σ : Type} (w : World σ) (s : Dallas) :
    ∀ (n dallasNum : Nat) (found : Bool) (b : σ), dallasNum + n < 256 →
      (convertLoop w s n dallasNum (tmpRank s.DallasChart dallasNum) found b).started = true →
      s.TmpSensorIndex < tmpRank s.DallasChart (dallasNum + n) := by
  intro n
  induction n with
  | zero =>
    intro dallasNum found b _ h
    simp [convertLoop] at h
  | succ n ih =>
    intro dallasNum found b hlt h
    have hle := tmpRank_le s.DallasChart dallasNum
    have hnum : (dallasNum + 1) % 256 = dallasNum + 1 := Nat.mod_eq_of_lt (by omega)
    have hidx : (tmpRank s.DallasChart dallasNum + 1) % 256 =
        tmpRank s.DallasChart dallasNum + 1 := Nat.mod_eq_of_lt (by omega)
    have hsucc := tmpRank_succ s.DallasChart dallasNum
    have hfam : getChartByte s.DallasChart dallasNum 0 =
        (s.DallasChart.getD dallasNum []).getD 0 0 := rfl
    have hadd : dallasNum + (n + 1) = dallasNum + 1 + n := by omega
    simp only [convertLoop] at h
    rw [hadd]
    split at h
    · rename_i htmp
      rw [hfam, if_pos htmp] at hsucc
      split at h
      · rename_i heq
        have hm := tmpRank_mono s.DallasChart (dallasNum + 1) (dallasNum + 1 + n) (by omega)
        omega
      · rw [hnum, hidx, ← hsucc] at h
        exact ih _ _ _ (by omega) h
    · rename_i htmp
      rw [hfam, if_neg htmp] at hsucc
      have hsame : tmpRank s.DallasChart dallasNum = tmpRank s.DallasChart (dallasNum + 1) := by
        omega
      rw [hnum, hsame] at h
      exact ih _ _ _ (by omega) h

/-! ## The sensor count across a scan -/

theorem take8_of_length {a c : List Nat} (ha : a.length = 8) (hc : c.length = 8)
    (h : a.take 8 = c.take 8) : a = c := by
  rw [List.take_of_length_le (by omega), List.take_of_length_le (by omega)] at h
  exact h

/-- What a call of `ScanNet` does to the sensor count and the last registry. -/
theorem ScanNet_count {σ : Type} (bus : Bus σ) (s : Dallas) (b : σ)
    (hchart : chartWF s.DallasChart) (hlast : chartWF s.LastDallasChart)
    (hsize : s.DallasChartSize ≤ 8) (hlsize : s.LastDallasChartSize ≤ 8)
    (hcount : s.LastDallasChartSize = 0 ∨
      s.TmpSensorCount = tmpRank s.LastDallasChart s.LastDallasChartSize) :
    (ScanNet bus s b).2.1.LastDallasChartSize ≤ 8 ∧
      ((ScanNet bus s b).2.1.LastDallasChartSize = 0 ∨
        (ScanNet bus s b).2.1.TmpSensorCount =
          tmpRank (ScanNet bus s b).2.1.LastDallasChart
            (ScanNet bus s b).2.1.LastDallasChartSize) ∧
      ((ScanNet bus s b).1 = true →
        (ScanNet bus s b).2.1.LastDallasChartSize = (ScanNet bus s b).2.1.DallasChartSize ∧
          ∀ i < (ScanNet bus s b).2.1.DallasChartSize,
            (ScanNet bus s b).2.1.LastDallasChart.getD i [] =
              (ScanNet bus s b).2.1.DallasChart.getD i []) := by
  have hwf := ScanNet_wf bus s b hchart hlast (fun _ => hsize)
  cases hres : (ScanNet bus s b).1
  · -- the call returns false: the last registry and the count are kept
    have hf := ScanNet_false_frame bus s b hres
    unfold Dallas.sameButSearch at hf
    have e1 : (ScanNet bus s b).2.1.LastDallasChartSize = s.LastDallasChartSize := by rw [hf]
    have e2 : (ScanNet bus s b).2.1.LastDallasChart = s.LastDallasChart := by rw [hf]
    have e3 : (ScanNet bus s b).2.1.TmpSensorCount = s.TmpSensorCount := by rw [hf]
    rw [e1, e2, e3]
    exact ⟨hlsize, hcount, fun h => Bool.noConfusion h⟩
  · have hprom := ScanNet_promotes bus s b hchart hlast (fun _ => hsize) hres
    refine ⟨by rw [hprom.1]; exact hwf.2.2, ?_, fun _ => hprom⟩
    obtain ⟨_, _, e⟩ := ScanNet_true bus s b hres
    have hs := scanSearch_sameButSearch bus s b
    unfold Dallas.sameButSearch at hs
    have hL : (scanSearch bus 4 routeFuel s b).1.LastDallasChart = s.LastDallasChart := by
      rw [hs]
    have hLs : (scanSearch bus 4 routeFuel s b).1.LastDallasChartSize =
        s.LastDallasChartSize := by rw [hs]
    have hC : (scanSearch bus 4 routeFuel s b).1.TmpSensorCount = s.TmpSensorCount := by
      rw [hs]
    have hwf2 := scanSearch_chartWF bus s b hchart
    have hrank : tmpRank (ScanNet bus s b).2.1.LastDallasChart
        (ScanNet bus s b).2.1.LastDallasChartSize =
        tmpRank (ScanNet bus s b).2.1.DallasChart (ScanNet bus s b).2.1.DallasChartSize := by
      rw [hprom.1]
      exact tmpRank_congr _ _ _ hprom.2
    by_cases hr : scanRenews (scanSearch bus 4 routeFuel s b).1 = true
    · -- the renewal counts the sensors of the new registry
      rw [if_pos hr] at e
      right
      rw [hrank]
      have ec : (ScanNet bus s b).2.1.TmpSensorCount =
          (tuneLoop bus (scanSearch bus 4 routeFuel s b).1.DallasChartSize
            (scanSearch bus 4 routeFuel s b).1.DallasChart
            (scanSearch bus 4 routeFuel s b).2.2).1 := by rw [e]
      have ech : (ScanNet bus s b).2.1.DallasChart =
          (scanSearch bus 4 routeFuel s b).1.DallasChart := by rw [e]
      have esz : (ScanNet bus s b).2.1.DallasChartSize =
          (scanSearch bus 4 routeFuel s b).1.DallasChartSize := by rw [e]
      rw [ec, tuneLoop_spec, ech, esz]
      show tmpRank _ _ % 256 = _
      have hle := tmpRank_le (scanSearch bus 4 routeFuel s b).1.DallasChart
        (scanSearch bus 4 routeFuel s b).1.DallasChartSize
      have h8 : (scanSearch bus 4 routeFuel s b).1.DallasChartSize ≤ 8 := by
        rw [← esz]; exact hwf.2.2
      exact Nat.mod_eq_of_lt (by omega)
    · -- no renewal: the registry is the last registry, and the count is kept
      rw [if_neg hr] at e
      have ec : (ScanNet bus s b).2.1.TmpSensorCount = s.TmpSensorCount := by
        rw [e]; exact hC
      have ech : (ScanNet bus s b).2.1.DallasChart =
          (scanSearch bus 4 routeFuel s b).1.DallasChart := by rw [e]
      have esz : (ScanNet bus s b).2.1.DallasChartSize =
          (scanSearch bus 4 routeFuel s b).1.DallasChartSize := by rw [e]
      have hr' : scanRenews (scanSearch bus 4 routeFuel s b).1 = false := by
        cases h : scanRenews (scanSearch bus 4 routeFuel s b).1
        · rfl
        · exact absurd h hr
      unfold scanRenews at hr'
      simp only [Bool.or_eq_false_iff, bne_eq_false_iff_eq] at hr'
      obtain ⟨⟨hsz, hdiff⟩, _⟩ := hr'
      have hnd : ¬ ∃ i < (scanSearch bus 4 routeFuel s b).1.DallasChartSize,
          ((scanSearch bus 4 routeFuel s b).1.DallasChart.getD i []).take 8 ≠
            ((scanSearch bus 4 routeFuel s b).1.LastDallasChart.getD i []).take 8 := by
        rw [← chartDiffers_iff, hdiff]
        exact Bool.noConfusion
      have h8 : (scanSearch bus 4 routeFuel s b).1.DallasChartSize ≤ 8 := by
        rw [← esz]; exact hwf.2.2
      have hsame : ∀ i < (scanSearch bus 4 routeFuel s b).1.DallasChartSize,
          (scanSearch bus 4 routeFuel s b).1.DallasChart.getD i [] =
            s.LastDallasChart.getD i [] := by
        intro i hi
        have ht : ((scanSearch bus 4 routeFuel s b).1.DallasChart.getD i []).take 8 =
            ((scanSearch bus 4 routeFuel s b).1.LastDallasChart.getD i []).take 8 := by
          by_contra hne
          exact hnd ⟨i, hi, hne⟩
        rw [hL] at ht
        exact take8_of_length (chartWF_getD _ i hwf2 (by omega))
          (chartWF_getD _ i hlast (by omega)) ht
      have hlsz : (ScanNet bus s b).2.1.LastDallasChartSize = s.LastDallasChartSize := by
        rw [hprom.1, esz, hsz, hLs]
      rcases hcount with h0 | hc
      · left; rw [hlsz]; exact h0
      · right
        rw [hrank, ec, hc, ech, esz, ← hLs, ← hsz]
        exact (tmpRank_congr _ _ _ hsame).symm

/-! ## The invariant of the polling state machine -/

theorem cursorInv_of_frame (s t : Dallas) (inv : CursorInv s)
    (h1 : t.DallasChart = s.DallasChart) (h2 : t.LastDallasChart = s.LastDallasChart)
    (h3 : t.DallasChartSize = s.DallasChartSize)
    (h4 : t.LastDallasChartSize = s.LastDallasChartSize)
    (h5 : t.TmpSensorCount = s.TmpSensorCount)
    (hp : t.Step ≠ Step_t.SCAN_NET → s.Step ≠ Step_t.SCAN_NET)
    (hc : t.Step = Step_t.READ_TMP →
      t.TmpSensorIndex < tmpRank s.DallasChart s.DallasChartSize) : CursorInv t where
  chart := by rw [h1]; exact inv.chart
  last := by rw [h2]; exact inv.last
  size := by rw [h3]; exact inv.size
  lastSize := by rw [h4]; exact inv.lastSize
  count := by rw [h2, h4, h5]; exact inv.count
  promoted := fun h => by rw [h1, h2, h3, h4]; exact inv.promoted (hp h)
  cursor := fun h => by rw [h1, h3]; exact hc h

theorem Execute_cursorInv {σ : Type} (w : World σ) (s : Dallas) (b : σ) (inv : CursorInv s) :
    CursorInv (Execute w s b).1 := by
  cases hstep : s.Step
  · -- SCAN_NET
    have hwf := ScanNet_wf w.toBus s (w.scanNetTimerElapsed b).2 inv.chart inv.last
      (fun _ => inv.size)
    have hcnt := ScanNet_count w.toBus s (w.scanNetTimerElapsed b).2 inv.chart inv.last
      inv.size inv.lastSize inv.count
    unfold Execute
    simp only [hstep]
    split
    · split
      · rename_i htrue
        exact {
          chart := hwf.1
          last := hwf.2.1
          size := hwf.2.2
          lastSize := hcnt.1
          count := hcnt.2.1
          promoted := fun _ => hcnt.2.2 htrue
          cursor := fun h => Step_t.noConfusion h }
      · rename_i hfalse
        have hf : (ScanNet w.toBus s (w.scanNetTimerElapsed b).2).1 = false := by
          cases h : (ScanNet w.toBus s (w.scanNetTimerElapsed b).2).1
          · rfl
          · exact absurd h hfalse
        have hst := ScanNet_Step w.toBus s (w.scanNetTimerElapsed b).2 hf
        rw [hstep] at hst
        exact {
          chart := hwf.1
          last := hwf.2.1
          size := hwf.2.2
          lastSize := hcnt.1
          count := hcnt.2.1
          promoted := fun h => absurd hst h
          cursor := fun h => by
            have h' : (ScanNet w.toBus s (w.scanNetTimerElapsed b).2).2.1.Step =
                Step_t.READ_TMP := h
            rw [hst] at h'
            exact Step_t.noConfusion h' }
    · exact inv
  · -- CONVERT_TMP
    have hns : s.Step ≠ Step_t.SCAN_NET := by rw [hstep]; exact fun h => Step_t.noConfusion h
    unfold Execute
    simp only [hstep]
    split
    · split
      · split
        · exact cursorInv_of_frame s _ inv rfl rfl rfl rfl rfl (fun h => absurd rfl h)
            (fun h => Step_t.noConfusion h)
        · split
          · rename_i hstarted
            refine cursorInv_of_frame s _ inv rfl rfl rfl rfl rfl (fun _ => hns) (fun _ => ?_)
            have h := convertLoop_started w s s.DallasChartSize 0 false (w.touchReset b).2
              (by have := inv.size; omega) hstarted
            rw [Nat.zero_add] at h
            exact h
          · exact cursorInv_of_frame s _ inv rfl rfl rfl rfl rfl (fun _ => hns)
              (fun h => by rw [hstep] at h; exact Step_t.noConfusion h)
      · exact cursorInv_of_frame s _ inv rfl rfl rfl rfl rfl (fun h => absurd rfl h)
          (fun h => Step_t.noConfusion h)
    · exact cursorInv_of_frame s _ inv rfl rfl rfl rfl rfl (fun h => absurd rfl h)
        (fun h => Step_t.noConfusion h)
  · -- READ_TMP
    have hns : s.Step ≠ Step_t.SCAN_NET := by rw [hstep]; exact fun h => Step_t.noConfusion h
    unfold Execute
    simp only [hstep]
    split
    · exact cursorInv_of_frame s _ inv rfl rfl rfl rfl rfl (fun h => absurd rfl h)
        (fun h => Step_t.noConfusion h)
    · split
      · split
        · exact cursorInv_of_frame s _ inv rfl rfl rfl rfl rfl (fun h => absurd rfl h)
            (fun h => Step_t.noConfusion h)
        · split
          · exact cursorInv_of_frame s _ inv rfl rfl rfl rfl rfl (fun h => absurd rfl h)
              (fun h => Step_t.noConfusion h)
          · have hf := advanceCursor_frame s
            refine cursorInv_of_frame s _ inv hf.2.2.1 hf.2.2.2.1 hf.1 hf.2.2.2.2.2.1
              hf.2.2.2.2.2.2 (fun _ => hns) (fun h => ?_)
            exfalso
            have h' : (advanceCursor s).Step = Step_t.READ_TMP := h
            unfold advanceCursor at h'
            dsimp only at h'
            split at h' <;> exact Step_t.noConfusion h'
      · exact inv

theorem reach_cursorInv {σ : Type} (w : World σ) (s : Dallas) (h : Reach w s) :
    CursorInv s := by
  induction h with
  | init routeMask0 tmpSensorCount0 =>
    exact {
      chart := ⟨rfl, fun e he => by rw [List.eq_of_mem_replicate he]; rfl⟩
      last := ⟨rfl, fun e he => by rw [List.eq_of_mem_replicate he]; rfl⟩
      size := Nat.zero_le _
      lastSize := Nat.zero_le _
      count := Or.inl rfl
      promoted := fun h => absurd rfl h
      cursor := fun h => Step_t.noConfusion h }
  | step s b _ ih => exact Execute_cursorInv w s b ih

/-! ## The cursor target while the machine is reading -/

set_option maxRecDepth 1000000 in
/-- C23 (counterexample). A reachable state in which TmpSensorIndex exceeds
TmpSensorCount.  On the ideal bus with three sensors the machine polls the
first two, so after five ticks the step is CONVERT_TMP and the cursor is 2.
The sixth tick is made with the devices detached: the first presence probe
fails and the machine goes back to SCAN_NET with the cursor still at 2.  The seventh tick scans the bus, which now carries
one sensor: the scan completes and counts one sensor, and the machine is in
CONVERT_TMP with TmpSensorIndex = 2 and TmpSensorCount = 1. -/
theorem cursor_exceeds_count_after_fallback :
    Reach idealWorld
        (Execute idealWorld (Execute idealWorld (threeSensorRun 5).1 (idealWith [])).1
          (idealWith (combOfFour.take 1))).1 ∧
      (threeSensorRun 5).1.Step = Step_t.CONVERT_TMP ∧
      (threeSensorRun 5).1.TmpSensorIndex = 2 ∧
      (Execute idealWorld (threeSensorRun 5).1 (idealWith [])).1.Step = Step_t.SCAN_NET ∧
      (Execute idealWorld (Execute idealWorld (threeSensorRun 5).1 (idealWith [])).1
        (idealWith (combOfFour.take 1))).1.Step = Step_t.CONVERT_TMP ∧
      (Execute idealWorld (Execute idealWorld (threeSensorRun 5).1 (idealWith [])).1
        (idealWith (combOfFour.take 1))).1.TmpSensorIndex = 2 ∧
      (Execute idealWorld (Execute idealWorld (threeSensorRun 5).1 (idealWith [])).1
        (idealWith (combOfFour.take 1))).1.TmpSensorCount = 1 :=
  ⟨Reach.step (Execute idealWorld (threeSensorRun 5).1 (idealWith [])).1
      (idealWith (combOfFour.take 1))
      (Reach.step (threeSensorRun 5).1 (idealWith [])
        (Reach.step (threeSensorRun 4).1 (threeSensorRun 4).2
          (Reach.step (threeSensorRun 3).1 (threeSensorRun 3).2
            (Reach.step (threeSensorRun 2).1 (threeSensorRun 2).2
              (Reach.step (threeSensorRun 1).1 (threeSensorRun 1).2
                (Reach.step (threeSensorRun 0).1 (threeSensorRun 0).2
                  (Reach.init (List.replicate 16 0) 0))))))),
    by decide!⟩

/-- C23 (amended). The cursor target exists whenever the machine is reading.
In every state reachable from the constructor state through calls to
`Dallas::Execute`, with any bus and timer behaviour, in which Step = READ_TMP:
the registry equals the last completed registry (same size, same entries),
TmpSensorCount equals the number of registry entries whose family is 0x10 or
0x28, and TmpSensorIndex < TmpSensorCount.  Consequently the value
`++TmpSensorIndex` that the wrap test compares with TmpSensorCount is at most
TmpSensorCount, so the test cannot be stepped over, and after the READ_TMP
tick, whatever the environment, TmpSensorIndex is still below TmpSensorCount,
which the tick does not change. -/
theorem reading_cursor_has_target {σ : Type} (w : World σ) (s : Dallas)
    (hreach : Reach w s) (hstep : s.Step = Step_t.READ_TMP) :
    (s.LastDallasChartSize = s.DallasChartSize ∧
        ∀ i < s.DallasChartSize, s.LastDallasChart.getD i [] = s.DallasChart.getD i []) ∧
      s.TmpSensorCount =
        ((List.range s.DallasChartSize).filter
          (fun i => isTmpFamily ((s.DallasChart.getD i []).getD 0 0))).length ∧
      s.TmpSensorIndex < s.TmpSensorCount ∧
      ((s.TmpSensorIndex + 1) % 256 = s.TmpSensorIndex + 1 ∧
        s.TmpSensorIndex + 1 ≤ s.TmpSensorCount) ∧
      ∀ (b : σ), (Execute w s b).1.TmpSensorIndex < (Execute w s b).1.TmpSensorCount ∧
        (Execute w s b).1.TmpSensorCount = s.TmpSensorCount := by
  have inv := reach_cursorInv w s hreach
  have hns : s.Step ≠ Step_t.SCAN_NET := by rw [hstep]; exact fun h => Step_t.noConfusion h
  have hprom := inv.promoted hns
  have hcur := inv.cursor hstep
  have hle := tmpRank_le s.DallasChart s.DallasChartSize
  have hsize := inv.size
  have hcount : s.TmpSensorCount = tmpRank s.DallasChart s.DallasChartSize := by
    rcases inv.count with h0 | hc
    · rw [hprom.1] at h0
      rw [h0] at hcur
      exact absurd hcur (by simp [tmpRank])
    · rw [hc, hprom.1]
      exact tmpRank_congr _ _ _ hprom.2
  have hlt : s.TmpSensorIndex < s.TmpSensorCount := by rw [hcount]; exact hcur
  have hmod : (s.TmpSensorIndex + 1) % 256 = s.TmpSensorIndex + 1 :=
    Nat.mod_eq_of_lt (by omega)
  refine ⟨hprom, ?_, hlt, ⟨hmod, hlt⟩, fun b => ?_⟩
  · rw [hcount]
    unfold tmpRank getChartByte
    rw [List.countP_eq_length_filter, List.range_eq_range']
  · have hfr := (Execute_frame w s b hns).2.2.2.2.2.2
    refine ⟨?_, hfr⟩
    rw [hfr]
    unfold Execute
    simp only [hstep]
    split
    · exact hlt
    · split
      · split
        · exact Nat.lt_of_le_of_lt (Nat.zero_le _) hlt
        · split
          · exact Nat.lt_of_le_of_lt (Nat.zero_le _) hlt
          · show (advanceCursor s).TmpSensorIndex < s.TmpSensorCount
            unfold advanceCursor
            dsimp only
            rw [hmod]
            split
            · exact Nat.lt_of_le_of_lt (Nat.zero_le _) hlt
            · rename_i hne
              show s.TmpSensorIndex + 1 < s.TmpSensorCount
              omega
      · exact hlt

set_option maxRecDepth 1000000 in
theorem reading_cursor_has_target_witness :
    (threeSensorRun 2).1.Step = Step_t.READ_TMP ∧
      (threeSensorRun 2).1.TmpSensorIndex < (threeSensorRun 2).1.TmpSensorCount :=
  ⟨by decide!,
    (reading_cursor_has_target idealWorld (threeSensorRun 2).1
      (Reach.step (threeSensorRun 1).1 (threeSensorRun 1).2
        (Reach.step (threeSensorRun 0).1 (threeSensorRun 0).2
          (Reach.init (List.replicate 16 0) 0)))
      (by decide!)).2.2.1⟩

end OneWire
